import Mathlib

/-!
# Documentation-site bundles of lightweight-charts: the MDX runtime and three pages

A shallow embedding of the three webpack chunks under `src/assets/js/`:

* `2d0beef9.8f1e4ce7.js` (chunk 5923): module 3905 and the page module 7285 (`ColorType`);
* `f517477c.4a71bf8a.js` (chunk 8648): module 3905 and the page module 27877 (`BarData`);
* `fcdf959e.c0a70486.js` (chunk 6262): module 3905 and the page module 5796 (`AreaData`).

Module 3905 is the MDX runtime (`Zo` = provider, `kt` = element creation); each chunk bundles
its own copy, and each copy is embedded separately below, under the minified names of its chunk.

## Modelling conventions

* A JavaScript value is a `Val`.  A plain object is the list of its own enumerable
  string-keyed data properties in insertion order; its prototype is `Object.prototype`, whose
  members are `JS.objectPrototype`.  A read under a name computed at run time goes through the
  prototype (`JS.getMember`); a read under one of the fixed names of the bundles, none of
  which is a member of `Object.prototype`, is a read of the own property (`JS.get`).
* Symbol keys, own accessor properties, non-enumerable own properties, objects with another
  prototype, and the own properties and prototypes of strings, arrays and functions are
  outside the model: the theorems on the lookup take a merged collection that is a plain
  object and names that are strings or `undefined`, and the theorems on `kt` take props that
  are a plain object, `null` or `undefined`.
* Numbers are integers (the bundles only contain small integer literals).
* Functions supplied from outside (a `components` function) are values `Val.fn i`; their
  behaviour is given by an environment `FnEnv`, so that a call may return or throw.
* `React.createElement` is kept symbolic: `Val.elem type config children` records the call.
  What React makes of such a call (the props handed to the component) is `React.propsOf`.
-/

set_option autoImplicit false

namespace JS

/-- JavaScript values, as far as the three chunks use them. -/
inductive Val where
  | undefined
  | null
  | bool (b : Bool)
  | num (n : Int)
  | str (s : String)
  /-- a function supplied from outside the bundles, known by an index into the environment -/
  | fn (i : Nat)
  /-- the function stored under `wrapper` in the default components of module 3905 -/
  | wrapperFn
  /-- the object returned by `forwardRef(...)` in module 3905 (`MDXCreateElement`) -/
  | mdxCreateElement
  /-- the symbol `React.Fragment` -/
  | fragment
  /-- the object `Context.Provider` of the context created in module 3905 -/
  | provider
  | arr (items : List Val)
  | obj (props : List (String × Val))
  /-- the element made by `React.createElement(type, config, ...children)` -/
  | elem (type : Val) (config : Val) (children : List Val)

/-- The own properties of a plain object. -/
abbrev Props := List (String × Val)

/-- Errors a call can end with. -/
inductive JsError where
  | typeError
  | thrown (v : Val)

/-- Behaviour of the functions supplied from outside: function index, argument, outcome. -/
abbrev FnEnv := Nat → Val → Except JsError Val

/-- Value of the own property `key`, `undefined` when there is none. -/
def getOwn : Props → String → Val
  | [], _ => .undefined
  | (k, v) :: ps, key => if k = key then v else getOwn ps key

/-- Whether `key` is an own property. -/
def hasOwn : Props → String → Bool
  | [], _ => false
  | (k, _) :: ps, key => if k = key then true else hasOwn ps key

/-- Store `x` under `key`: in place when the key exists, at the end otherwise. -/
def setOwn : Props → String → Val → Props
  | [], key, x => [(key, x)]
  | (k, v) :: ps, key, x => if k = key then (k, x) :: ps else (k, v) :: setOwn ps key x

/-- Truthiness, `ToBoolean`. -/
def truthy : Val → Bool
  | .undefined => false
  | .null => false
  | .bool b => b
  | .num n => n != 0
  | .str s => s != ""
  | _ => true

/-- The test `null == v`. -/
def isNullish : Val → Bool
  | .undefined => true
  | .null => true
  | _ => false

/-- The operator `typeof`. -/
def typeof : Val → String
  | .undefined => "undefined"
  | .null => "object"
  | .bool _ => "boolean"
  | .num _ => "number"
  | .str _ => "string"
  | .fn _ => "function"
  | .wrapperFn => "function"
  | .fragment => "symbol"
  | _ => "object"

/-- The operator `a || b`. -/
def jsOr (a b : Val) : Val := if truthy a then a else b

/-- The operator `a && b`. -/
def jsAnd (a b : Val) : Val := if truthy a then b else a

/-- String conversion as done by `"".concat(v)` and by a property key `o[v]`, for
`undefined`, `null`, booleans, strings and integers below `10^21` in magnitude.  The
conversion of other values (the join of an array, the source text of a function, the
`TypeError` of a symbol) is not modelled: they are given the default of a plain object, and
the theorems on the lookup take names that are strings or `undefined`. -/
def toStr : Val → String
  | .undefined => "undefined"
  | .null => "null"
  | .bool true => "true"
  | .bool false => "false"
  | .num n => toString n
  | .str s => s
  | _ => "[object Object]"

/-- Own enumerable properties read by `Object.keys` and `for ... in` + `hasOwnProperty`, for
a plain object and for the values that have none (`undefined`, `null`, booleans, numbers).
The index properties of strings and arrays and the own properties of functions are not
modelled. -/
def ownProps : Val → Props
  | .obj ps => ps
  | _ => []

/-- The call `Object.keys(v)`. -/
def keys (v : Val) : List String := (ownProps v).map Prod.fst

/-- The read `v[key]` of an own property, on a value known not to be `null` or `undefined`:
used for the own keys a loop enumerates and for the fixed names of the bundles (`components`,
`mdxType`, `originalType`, `parentName`, `children`, `ref`, `toc`), which no prototype
defines. -/
def getProp (v : Val) (key : String) : Val := getOwn (ownProps v) key

/-- The read `v.key` under one of the fixed names of the bundles: a `TypeError` on `null` and
`undefined`, the own property otherwise. -/
def get (v : Val) (key : String) : Except JsError Val :=
  if isNullish v then .error .typeError else .ok (getProp v key)

/-- The members of `Object.prototype`, which every plain object inherits.  The eleven
built-in functions are functions supplied from outside the bundles and have the indices
below; the accessor `__proto__`, read on a plain object, yields `Object.prototype` itself, an
object without enumerable own properties. -/
def objectPrototype : Props :=
  [("constructor", .fn 9000), ("__defineGetter__", .fn 9001), ("__defineSetter__", .fn 9002),
   ("hasOwnProperty", .fn 9003), ("__lookupGetter__", .fn 9004),
   ("__lookupSetter__", .fn 9005), ("isPrototypeOf", .fn 9006),
   ("propertyIsEnumerable", .fn 9007), ("toString", .fn 9008), ("valueOf", .fn 9009),
   ("__proto__", .obj []), ("toLocaleString", .fn 9010)]

/-- The read `v[key]` through the prototype, on a plain object: the own property when there
is one, and otherwise the member of `Object.prototype` of that name, `undefined` when there is
none. -/
def member (v : Val) (key : String) : Val :=
  if hasOwn (ownProps v) key then getOwn (ownProps v) key else getOwn objectPrototype key

/-- The read `v[key]` under a name computed at run time: a `TypeError` on `null` and
`undefined`, the read through the prototype otherwise. -/
def getMember (v : Val) (key : String) : Except JsError Val :=
  if isNullish v then .error .typeError else .ok (member v key)

/-- The test `key in o` on a plain object: an own property or a member of
`Object.prototype`. -/
def hasMember (o : Props) (key : String) : Bool := hasOwn o key || hasOwn objectPrototype key

/-- The assignment `o[key] = x` on a plain object, as the definition of an own property: this
is the assignment under every key but `__proto__`, which `assign` sets apart. -/
def put (o : Props) (key : String) (x : Val) : Props := setOwn o key x

/-- The assignment `o[key] = x` on a plain object, the key `__proto__` included: unless `o`
has an own property of that name, the assignment `o["__proto__"] = x` runs the setter
inherited from `Object.prototype`, which defines no own property.  The setter replaces the
prototype of `o` when `x` is an object or `null`; the model does not record it, which is
exact for the own properties of `o` as long as `x` is a plain object or no object at all (the
theorems on `fExact` take such an `x`): later assignments to `o` then still define own
properties. -/
def assign (o : Props) (key : String) (x : Val) : Props :=
  if key = "__proto__" ∧ hasOwn o key = false then o else setOwn o key x

/-- The call `Object.defineProperty(o, key, {value: x, enumerable: true, configurable: true,
writable: true})`. -/
def defineProperty (o : Props) (key : String) (x : Val) : Props := setOwn o key x

/-- The call `Object.defineProperties(o, Object.getOwnPropertyDescriptors(r))`: every own
property of `r` is defined on `o` with the descriptor it has on `r`. -/
def defineProperties (o : Props) (r : Val) : Props :=
  (keys r).foldl (fun acc k => setOwn acc k (getProp r k)) o

/-- The object rest pattern `let {k1: _, ..., ...r} = e` (only met with `e` not nullish): the
own enumerable properties of `e` whose keys are not among the `excluded` ones. -/
def restWithout (e : Val) (excluded : List String) : Props :=
  (keys e).foldl (fun acc k => if k ∈ excluded then acc else put acc k (getProp e k)) []

/-- The call `React.createElement.apply(null, args)`, kept symbolic. -/
def createElement (args : List Val) : Val :=
  .elem (args.getD 0 .undefined) (args.getD 1 .undefined) (args.drop 2)

end JS

namespace React

open JS

/-- Modelled from the spec: module 7294 (React) is not among the source files.  This is the
props object React hands to a component for the element `createElement(type, config,
...children)`: the own properties of `config` other than the reserved `key`, `ref`, `__self`
and `__source`, with `children` set to the single child, or to the array of the children when
there are several, and left as in `config` when there are none.  Neither `wrapperFn` nor
`mdxCreateElement` declares `defaultProps`. -/
def propsOf : Val → Props
  | .elem _ config children =>
    let base := (keys config).foldl
      (fun acc k => if k ∈ ["key", "ref", "__self", "__source"] then acc
        else put acc k (getProp config k)) []
    match children with
    | [] => base
    | [c] => put base "children" c
    | cs => put base "children" (.arr cs)
  | _ => []

/-- Modelled from the spec: module 7294 (React) is not among the source files.  This is the
ref React hands to a `forwardRef` render function: `config.ref` unless it is `undefined`,
and `null` otherwise. -/
def refOf : Val → Val
  | .elem _ config _ =>
    match getProp config "ref" with
    | .undefined => .null
    | r => r
  | _ => .null

/-- Modelled from the spec: module 7294 (React) is not among the source files.  This is one
step of React rendering an element: an MDXCreateElement element is rendered by the render
function given to `forwardRef`, called with the props and the ref; an element whose type is a
function is rendered by calling the function with the props; any other element (a host
element, a fragment) is left as it is. -/
def renderStep (mdx : Val → Val → Except JsError Val) (wrapper : Val → Except JsError Val)
    (env : FnEnv) (el : Val) : Except JsError Val :=
  match el with
  | .elem .mdxCreateElement _ _ => mdx (.obj (propsOf el)) (refOf el)
  | .elem .wrapperFn _ _ => wrapper (.obj (propsOf el))
  | .elem (.fn i) _ _ => env i (.obj (propsOf el))
  | other => .ok other

end React

/-! ## Helper modules of the main bundle -/

namespace Runtime

open JS

/-- Modelled from the spec: module 7462 is not among the source files.  Its export `Z` is the
key overlay the spec describes ("merging default props with overrides"): `Z(target,
...sources)` assigns to `target` every own enumerable property of each source, in order, a
later source overriding an earlier one, skips a source that is `null` or `undefined`, and
returns `target`. -/
def M7462.Z (target : Props) (sources : List Val) : Props :=
  sources.foldl (fun acc source => (keys source).foldl
    (fun acc key => put acc key (getProp source key)) acc) target

/-- Modelled from the spec: module 87462 is not among the source files; it is the same key
overlay as module 7462, under the module number used by chunk 8648. -/
def M87462.Z (target : Props) (sources : List Val) : Props :=
  sources.foldl (fun acc source => (keys source).foldl
    (fun acc key => put acc key (getProp source key)) acc) target

/-- Modelled from the spec: module 3366 is not among the source files.  Its export `Z` takes
the excluded keys out of the props: `Z(source, excluded)` is a fresh object with the own
enumerable properties of `source` whose keys are not in `excluded`, and `{}` when `source` is
`null` or `undefined`. -/
def M3366.Z (source : Val) (excluded : List String) : Props :=
  if isNullish source then []
  else (keys source).foldl
    (fun acc key => if key ∈ excluded then acc else put acc key (getProp source key)) []

end Runtime

/-! ## Chunk 5923 (`2d0beef9.8f1e4ce7.js`) -/

namespace Chunk5923

open JS

namespace M3905

/-- Source: `function o(e,t,r)`, the helper that defines or assigns one property. -/
def o (e : Props) (t : String) (r : Val) : Props :=
  if hasMember e t then defineProperty e t r else put e t r

/-- Source: `function i(e,t)`, the own enumerable keys of `e` (symbol keys are not modelled). -/
def i (e : Val) (_t : Bool) : List String := keys e

/-- One round of the loop of `l`, for the argument at index `t`. -/
def lArg (e : Props) (t : Nat) (arg : Val) : Props :=
  let r := if !isNullish arg then arg else .obj []
  if t % 2 = 1 then (i r true).foldl (fun acc k => o acc k (getProp r k)) e
  else defineProperties e r

/-- The loop `for (var t = 1; t < arguments.length; t++)` of `l`. -/
def lLoop : Props → Nat → List Val → Props
  | e, _, [] => e
  | e, t, arg :: rest => lLoop (lArg e t arg) (t + 1) rest

/-- Source: `function l(e)`, object spread: `l e args` is `l(e, ...args)`; it returns the
target `e` after the copies. -/
def l (e : Props) (args : List Val) : Props := lLoop e 1 args

/-- Source: `function a(e,t)`, the properties of `e` whose keys are not in `t`. -/
def a (e : Val) (t : List String) : Props :=
  if isNullish e then []
  else (keys e).foldl (fun acc r => if r ∈ t then acc else put acc r (getProp e r)) []

/-- Source: `s.wrapper`,
`function(e){var t=e.children;return createElement(Fragment,{},t)}`. -/
def wrapper (e : Val) : Except JsError Val := do
  let t ← get e "children"
  pure (createElement [.fragment, .obj [], t])

/-- Source: `s`, the default components. -/
def s : Props := [("inlineCode", .str "code"), ("wrapper", .wrapperFn)]

/-- The call `e(t)` of a value with `typeof e == "function"`. -/
def callFn (env : FnEnv) (e t : Val) : Except JsError Val :=
  match e with
  | .fn k => env k t
  | .wrapperFn => wrapper t
  | _ => .error .typeError

/-- Source: `p`, the merge routine (useMDXComponents); `ctx` is what
`useContext` returns. -/
def p (env : FnEnv) (ctx : Val) (e : Val) : Except JsError Val :=
  let t := ctx
  if truthy e then
    if typeof e = "function" then callFn env e t
    else .ok (.obj (l (l [] [t]) [e]))
  else .ok t

/-- Source: `c` (exported as `Zo`), the provider component. -/
def c (env : FnEnv) (ctx : Val) (e : Val) : Except JsError Val := do
  let t ← p env ctx (← get e "components")
  pure (createElement [.provider, .obj [("value", t)], ← get e "children"])

/-- Source: the render function given to `forwardRef` for `d` (MDXCreateElement);
`e` are the props, `t` the ref. -/
def d (env : FnEnv) (ctx : Val) (e t : Val) : Except JsError Val := do
  let components ← get e "components"
  let mdxType ← get e "mdxType"
  let originalType ← get e "originalType"
  let parentName ← get e "parentName"
  let rest := a e ["components", "mdxType", "originalType", "parentName"]
  let merged ← p env ctx components
  let m1 ← getMember merged (toStr parentName ++ "." ++ toStr mdxType)
  let m ← if truthy m1 then pure m1 else do
    let m2 ← getMember merged (toStr mdxType)
    if truthy m2 then pure m2 else pure (jsOr (member (.obj s) (toStr mdxType)) originalType)
  if truthy components then
    pure (createElement [m,
      .obj (l (l [("ref", t)] [.obj rest]) [.obj [], .obj [("components", components)]])])
  else
    pure (createElement [m, .obj (l [("ref", t)] [.obj rest])])

/-- Source: `function f(e,t)` (exported as `kt`); `r` is `arguments`.  The assignments of
the loop are `put`: this is `kt` for props without an own property `__proto__`, and `fExact`
below is `kt` for all props. -/
def f (r : List Val) : Val :=
  let e := r.getD 0 .undefined
  let t := r.getD 1 .undefined
  let mdxType := jsAnd t (getProp t "mdxType")
  if typeof e = "string" ∨ truthy mdxType = true then
    let config := (keys t).foldl (fun acc u => put acc u (getProp t u)) []
    let config := put config "originalType" e
    let config := put config "mdxType" (if typeof e = "string" then e else mdxType)
    createElement ([.mdxCreateElement, .obj config] ++ r.drop 2)
  else createElement r

/-- Source: `function f(e,t)` (exported as `kt`); `r` is `arguments`.  The assignment
`a[u]=t[u]` of the loop is `assign`, which under the key `__proto__` runs the setter the
fresh object `a` inherits; the two assignments under fixed names define own properties. -/
def fExact (r : List Val) : Val :=
  let e := r.getD 0 .undefined
  let t := r.getD 1 .undefined
  let mdxType := jsAnd t (getProp t "mdxType")
  if typeof e = "string" ∨ truthy mdxType = true then
    let config := (keys t).foldl (fun acc u => assign acc u (getProp t u)) []
    let config := put config "originalType" e
    let config := put config "mdxType" (if typeof e = "string" then e else mdxType)
    createElement ([.mdxCreateElement, .obj config] ++ r.drop 2)
  else createElement r

end M3905

/-! ### Module 7285, the page `ColorType` -/

namespace M7285

/-- Source: `l`, the keys taken out of the props. -/
def l : List String := ["components"]

/-- Source: `a` (exported as `frontMatter`). -/
def a : Val :=
  .obj [
    ("id", .str "ColorType"),
    ("title", .str "Enumeration: ColorType"),
    ("sidebar_label", .str "ColorType"),
    ("sidebar_position", .num 0),
    ("custom_edit_url", .null),
    ("pagination_next", .null),
    ("pagination_prev", .null)]

/-- Source: `u` (exported as `contentTitle`). -/
def u : Val := .undefined

/-- Source: `p` (exported as `metadata`). -/
def p : Val :=
  .obj [
    ("unversionedId", .str "api/enums/ColorType"),
    ("id", .str "api/enums/ColorType"),
    ("title", .str "Enumeration: ColorType"),
    ("description", .str "Represents a type of color."),
    ("source", .str "@site/docs/api/enums/ColorType.md"),
    ("sourceDirName", .str "api/enums"),
    ("slug", .str "/api/enums/ColorType"),
    ("permalink", .str "/lightweight-charts/docs/next/api/enums/ColorType"),
    ("editUrl", .null),
    ("tags", .arr []),
    ("version", .str "current"),
    ("sidebarPosition", .num 0),
    ("frontMatter", .obj [
    ("id", .str "ColorType"),
    ("title", .str "Enumeration: ColorType"),
    ("sidebar_label", .str "ColorType"),
    ("sidebar_position", .num 0),
    ("custom_edit_url", .null),
    ("pagination_next", .null),
    ("pagination_prev", .null)]),
    ("sidebar", .str "apiSidebar")]

/-- Source: `c` (exported as `assets`). -/
def c : Val := .obj []

/-- Source: `s` (exported as `toc`). -/
def s : Val :=
  .arr [.obj [
    ("value", .str "Enumeration Members"),
    ("id", .str "enumeration-members"),
    ("level", .num 2)], .obj [
    ("value", .str "Solid"),
    ("id", .str "solid"),
    ("level", .num 3)], .obj [
    ("value", .str "VerticalGradient"),
    ("id", .str "verticalgradient"),
    ("level", .num 3)]]

/-- Source: `d`, the object `{toc: s}` spread into the layout props. -/
def d : Val := .obj [("toc", s)]

/-- Source: the children handed to the layout call in `f`, in order. -/
def body : List Val :=
  [
  M3905.f [.str "p", .null, .str "Represents a type of color."],
  M3905.f [.str "h2", .obj [("id", .str "enumeration-members")], .str "Enumeration Members"],
  M3905.f [.str "h3", .obj [("id", .str "solid")], .str "Solid"],
  M3905.f [.str "p",
    .null,
    .str "\u2022 ",
    M3905.f [.str "strong", .obj [("parentName", .str "p")], .str "Solid"]],
  M3905.f [.str "p", .null, .str "Solid color"],
  M3905.f [.str "hr", .null],
  M3905.f [.str "h3", .obj [("id", .str "verticalgradient")], .str "VerticalGradient"],
  M3905.f [.str "p",
    .null,
    .str "\u2022 ",
    M3905.f [.str "strong", .obj [("parentName", .str "p")], .str "VerticalGradient"]],
  M3905.f [.str "p", .null, .str "Vertical gradient color"]]

/-- Source: `function f(e)` (the default export), with the module variable
`d` as a parameter. -/
def fWith (d : Val) (e : Val) : Except JsError Val := do
  let t ← get e "components"
  let r := Runtime.M3366.Z e l
  pure (M3905.f ([.str "wrapper",
    .obj (Runtime.M7462.Z [] [d, .obj r,
      .obj [("components", t), ("mdxType", .str "MDXLayout")]])] ++ body))

/-- Source: `function f(e)` (the default export). -/
def f (e : Val) : Except JsError Val := fWith d e

end M7285

/-- React renders the layout of the page of module 7285: the page function is called with
the props and the MDXCreateElement element it returns is rendered, which resolves the layout
component; `d` stands for the module variable holding the `toc`. -/
def renderLayoutWith (d : Val) (env : FnEnv) (ctx props : Val) : Except JsError Val := do
  let el ← M7285.fWith d props
  React.renderStep (M3905.d env ctx) M3905.wrapper env el

/-- React renders the page of module 7285: the layout is resolved and the element of the
layout component is rendered in turn. -/
def renderPageWith (d : Val) (env : FnEnv) (ctx props : Val) : Except JsError Val := do
  let el ← renderLayoutWith d env ctx props
  React.renderStep (M3905.d env ctx) M3905.wrapper env el

/-- React renders the page of module 7285 as the module defines it. -/
def renderPage (env : FnEnv) (ctx props : Val) : Except JsError Val :=
  renderPageWith M7285.d env ctx props

end Chunk5923

/-! ## Chunk 8648 (`f517477c.4a71bf8a.js`) -/

namespace Chunk8648

open JS

namespace M3905

/-- Source: `function n(e,t,r)`, the helper that defines or assigns one property. -/
def n (e : Props) (t : String) (r : Val) : Props :=
  if hasMember e t then defineProperty e t r else put e t r

/-- Source: `function i(e,t)`, the own enumerable keys of `e` (symbol keys are not modelled). -/
def i (e : Val) (_t : Bool) : List String := keys e

/-- One round of the loop of `l`, for the argument at index `t`. -/
def lArg (e : Props) (t : Nat) (arg : Val) : Props :=
  let r := if !isNullish arg then arg else .obj []
  if t % 2 = 1 then (i r true).foldl (fun acc k => n acc k (getProp r k)) e
  else defineProperties e r

/-- The loop `for (var t = 1; t < arguments.length; t++)` of `l`. -/
def lLoop : Props → Nat → List Val → Props
  | e, _, [] => e
  | e, t, arg :: rest => lLoop (lArg e t arg) (t + 1) rest

/-- Source: `function l(e)`, object spread: `l e args` is `l(e, ...args)`; it returns the
target `e` after the copies. -/
def l (e : Props) (args : List Val) : Props := lLoop e 1 args

/-- Source: `function o(e,t)`, the properties of `e` whose keys are not in `t`. -/
def o (e : Val) (t : List String) : Props :=
  if isNullish e then []
  else (keys e).foldl (fun acc r => if r ∈ t then acc else put acc r (getProp e r)) []

/-- Source: `d.wrapper`,
`function(e){var t=e.children;return createElement(Fragment,{},t)}`. -/
def wrapper (e : Val) : Except JsError Val := do
  let t ← get e "children"
  pure (createElement [.fragment, .obj [], t])

/-- Source: `d`, the default components. -/
def d : Props := [("inlineCode", .str "code"), ("wrapper", .wrapperFn)]

/-- Source: `s="mdxType"`, the computed key used by `f`. -/
def s : String := "mdxType"

/-- The call `e(t)` of a value with `typeof e == "function"`. -/
def callFn (env : FnEnv) (e t : Val) : Except JsError Val :=
  match e with
  | .fn k => env k t
  | .wrapperFn => wrapper t
  | _ => .error .typeError

/-- Source: `c`, the merge routine (useMDXComponents); `ctx` is what
`useContext` returns. -/
def c (env : FnEnv) (ctx : Val) (e : Val) : Except JsError Val :=
  let t := ctx
  if truthy e then
    if typeof e = "function" then callFn env e t
    else .ok (.obj (l (l [] [t]) [e]))
  else .ok t

/-- Source: `h` (exported as `Zo`), the provider component. -/
def h (env : FnEnv) (ctx : Val) (e : Val) : Except JsError Val := do
  let t ← c env ctx (← get e "components")
  pure (createElement [.provider, .obj [("value", t)], ← get e "children"])

/-- Source: the render function given to `forwardRef` for `u` (MDXCreateElement);
`e` are the props, `t` the ref. -/
def u (env : FnEnv) (ctx : Val) (e t : Val) : Except JsError Val := do
  let components ← get e "components"
  let mdxType ← get e "mdxType"
  let originalType ← get e "originalType"
  let parentName ← get e "parentName"
  let rest := o e ["components", "mdxType", "originalType", "parentName"]
  let merged ← c env ctx components
  let m1 ← getMember merged (toStr parentName ++ "." ++ toStr mdxType)
  let m ← if truthy m1 then pure m1 else do
    let m2 ← getMember merged (toStr mdxType)
    if truthy m2 then pure m2 else pure (jsOr (member (.obj d) (toStr mdxType)) originalType)
  if truthy components then
    pure (createElement [m,
      .obj (l (l [("ref", t)] [.obj rest]) [.obj [], .obj [("components", components)]])])
  else
    pure (createElement [m, .obj (l [("ref", t)] [.obj rest])])

/-- Source: `function f(e,t)` (exported as `kt`); `r` is `arguments`.  The assignments of
the loop are `put`: this is `kt` for props without an own property `__proto__`, and `fExact`
below is `kt` for all props. -/
def f (r : List Val) : Val :=
  let e := r.getD 0 .undefined
  let t := r.getD 1 .undefined
  let mdxType := jsAnd t (getProp t "mdxType")
  if typeof e = "string" ∨ truthy mdxType = true then
    let config := (keys t).foldl (fun acc u => put acc u (getProp t u)) []
    let config := put config "originalType" e
    let config := put config s (if typeof e = "string" then e else mdxType)
    createElement ([.mdxCreateElement, .obj config] ++ r.drop 2)
  else createElement r

/-- Source: `function f(e,t)` (exported as `kt`); `r` is `arguments`.  The assignment
`a[u]=t[u]` of the loop is `assign`, which under the key `__proto__` runs the setter the
fresh object `a` inherits; the two assignments under fixed names define own properties. -/
def fExact (r : List Val) : Val :=
  let e := r.getD 0 .undefined
  let t := r.getD 1 .undefined
  let mdxType := jsAnd t (getProp t "mdxType")
  if typeof e = "string" ∨ truthy mdxType = true then
    let config := (keys t).foldl (fun acc u => assign acc u (getProp t u)) []
    let config := put config "originalType" e
    let config := put config s (if typeof e = "string" then e else mdxType)
    createElement ([.mdxCreateElement, .obj config] ++ r.drop 2)
  else createElement r

end M3905

/-! ### Module 27877, the page `BarData` -/

namespace M27877

/-- Source: `i` (exported as `frontMatter`). -/
def i : Val :=
  .obj [
    ("id", .str "BarData"),
    ("title", .str "Interface: BarData"),
    ("sidebar_label", .str "BarData"),
    ("sidebar_position", .num 0),
    ("custom_edit_url", .null),
    ("pagination_next", .null),
    ("pagination_prev", .null)]

/-- Source: `l` (exported as `contentTitle`). -/
def l : Val := .undefined

/-- Source: `o` (exported as `metadata`). -/
def o : Val :=
  .obj [
    ("unversionedId", .str "api/interfaces/BarData"),
    ("id", .str "version-4.0/api/interfaces/BarData"),
    ("title", .str "Interface: BarData"),
    ("description", .str "Structure describing a single item of data for bar series"),
    ("source", .str "@site/versioned_docs/version-4.0/api/interfaces/BarData.md"),
    ("sourceDirName", .str "api/interfaces"),
    ("slug", .str "/api/interfaces/BarData"),
    ("permalink", .str "/lightweight-charts/docs/4.0/api/interfaces/BarData"),
    ("draft", .bool false),
    ("editUrl", .null),
    ("tags", .arr []),
    ("version", .str "4.0"),
    ("sidebarPosition", .num 0),
    ("frontMatter", .obj [
    ("id", .str "BarData"),
    ("title", .str "Interface: BarData"),
    ("sidebar_label", .str "BarData"),
    ("sidebar_position", .num 0),
    ("custom_edit_url", .null),
    ("pagination_next", .null),
    ("pagination_prev", .null)]),
    ("sidebar", .str "apiSidebar")]

/-- Source: `p` (exported as `assets`). -/
def p : Val := .obj []

/-- Source: `c` (exported as `toc`). -/
def c : Val :=
  .arr [.obj [
    ("value", .str "Hierarchy"),
    ("id", .str "hierarchy"),
    ("level", .num 2)], .obj [
    ("value", .str "Properties"),
    ("id", .str "properties"),
    ("level", .num 2)], .obj [
    ("value", .str "color"),
    ("id", .str "color"),
    ("level", .num 3)], .obj [
    ("value", .str "time"),
    ("id", .str "time"),
    ("level", .num 3)], .obj [
    ("value", .str "Inherited from"),
    ("id", .str "inherited-from"),
    ("level", .num 4)], .obj [
    ("value", .str "open"),
    ("id", .str "open"),
    ("level", .num 3)], .obj [
    ("value", .str "Inherited from"),
    ("id", .str "inherited-from-1"),
    ("level", .num 4)], .obj [
    ("value", .str "high"),
    ("id", .str "high"),
    ("level", .num 3)], .obj [
    ("value", .str "Inherited from"),
    ("id", .str "inherited-from-2"),
    ("level", .num 4)], .obj [
    ("value", .str "low"),
    ("id", .str "low"),
    ("level", .num 3)], .obj [
    ("value", .str "Inherited from"),
    ("id", .str "inherited-from-3"),
    ("level", .num 4)], .obj [
    ("value", .str "close"),
    ("id", .str "close"),
    ("level", .num 3)], .obj [
    ("value", .str "Inherited from"),
    ("id", .str "inherited-from-4"),
    ("level", .num 4)]]

/-- Source: `h`, the object `{toc: c}` spread into the layout props. -/
def h : Val := .obj [("toc", c)]

/-- Source: `s`, the name of the layout. -/
def s : Val := .str "wrapper"

/-- Source: the children handed to the layout call in `d`, in order. -/
def body : List Val :=
  [
  M3905.f [.str "p", .null, .str "Structure describing a single item of data for bar series"],
  M3905.f [.str "h2", .obj [("id", .str "hierarchy")], .str "Hierarchy"],
  M3905.f [.str "ul",
    .null,
    M3905.f [.str "li",
      .obj [("parentName", .str "ul")],
      M3905.f [.str "p",
        .obj [("parentName", .str "li")],
        M3905.f [.str "a",
          .obj [("parentName", .str "p"), ("href", .str "/lightweight-charts/docs/4.0/api/interfaces/OhlcData")],
          M3905.f [.str "inlineCode", .obj [("parentName", .str "a")], .str "OhlcData"]]],
      M3905.f [.str "p",
        .obj [("parentName", .str "li")],
        .str "\u21b3 ",
        M3905.f [.str "strong",
          .obj [("parentName", .str "p")],
          M3905.f [.str "inlineCode", .obj [("parentName", .str "strong")], .str "BarData"]]]]],
  M3905.f [.str "h2", .obj [("id", .str "properties")], .str "Properties"],
  M3905.f [.str "h3", .obj [("id", .str "color")], .str "color"],
  M3905.f [.str "p",
    .null,
    .str "\u2022 ",
    M3905.f [.str "inlineCode", .obj [("parentName", .str "p")], .str "Optional"],
    .str " ",
    M3905.f [.str "strong", .obj [("parentName", .str "p")], .str "color"],
    .str ": ",
    M3905.f [.str "inlineCode", .obj [("parentName", .str "p")], .str "string"]],
  M3905.f [.str "p",
    .null,
    .str "Optional color value for certain data item. If missed, color from options is used"],
  M3905.f [.str "hr", .null],
  M3905.f [.str "h3", .obj [("id", .str "time")], .str "time"],
  M3905.f [.str "p",
    .null,
    .str "\u2022 ",
    M3905.f [.str "strong", .obj [("parentName", .str "p")], .str "time"],
    .str ": ",
    M3905.f [.str "a",
      .obj [("parentName", .str "p"), ("href", .str "/lightweight-charts/docs/4.0/api/#time")],
      M3905.f [.str "inlineCode", .obj [("parentName", .str "a")], .str "Time"]]],
  M3905.f [.str "p", .null, .str "The bar time."],
  M3905.f [.str "h4", .obj [("id", .str "inherited-from")], .str "Inherited from"],
  M3905.f [.str "p",
    .null,
    M3905.f [.str "a",
      .obj [("parentName", .str "p"), ("href", .str "/lightweight-charts/docs/4.0/api/interfaces/OhlcData")],
      .str "OhlcData"],
    .str ".",
    M3905.f [.str "a",
      .obj [("parentName", .str "p"), ("href", .str "/lightweight-charts/docs/4.0/api/interfaces/OhlcData#time")],
      .str "time"]],
  M3905.f [.str "hr", .null],
  M3905.f [.str "h3", .obj [("id", .str "open")], .str "open"],
  M3905.f [.str "p",
    .null,
    .str "\u2022 ",
    M3905.f [.str "strong", .obj [("parentName", .str "p")], .str "open"],
    .str ": ",
    M3905.f [.str "inlineCode", .obj [("parentName", .str "p")], .str "number"]],
  M3905.f [.str "p", .null, .str "The open price."],
  M3905.f [.str "h4", .obj [("id", .str "inherited-from-1")], .str "Inherited from"],
  M3905.f [.str "p",
    .null,
    M3905.f [.str "a",
      .obj [("parentName", .str "p"), ("href", .str "/lightweight-charts/docs/4.0/api/interfaces/OhlcData")],
      .str "OhlcData"],
    .str ".",
    M3905.f [.str "a",
      .obj [("parentName", .str "p"), ("href", .str "/lightweight-charts/docs/4.0/api/interfaces/OhlcData#open")],
      .str "open"]],
  M3905.f [.str "hr", .null],
  M3905.f [.str "h3", .obj [("id", .str "high")], .str "high"],
  M3905.f [.str "p",
    .null,
    .str "\u2022 ",
    M3905.f [.str "strong", .obj [("parentName", .str "p")], .str "high"],
    .str ": ",
    M3905.f [.str "inlineCode", .obj [("parentName", .str "p")], .str "number"]],
  M3905.f [.str "p", .null, .str "The high price."],
  M3905.f [.str "h4", .obj [("id", .str "inherited-from-2")], .str "Inherited from"],
  M3905.f [.str "p",
    .null,
    M3905.f [.str "a",
      .obj [("parentName", .str "p"), ("href", .str "/lightweight-charts/docs/4.0/api/interfaces/OhlcData")],
      .str "OhlcData"],
    .str ".",
    M3905.f [.str "a",
      .obj [("parentName", .str "p"), ("href", .str "/lightweight-charts/docs/4.0/api/interfaces/OhlcData#high")],
      .str "high"]],
  M3905.f [.str "hr", .null],
  M3905.f [.str "h3", .obj [("id", .str "low")], .str "low"],
  M3905.f [.str "p",
    .null,
    .str "\u2022 ",
    M3905.f [.str "strong", .obj [("parentName", .str "p")], .str "low"],
    .str ": ",
    M3905.f [.str "inlineCode", .obj [("parentName", .str "p")], .str "number"]],
  M3905.f [.str "p", .null, .str "The low price."],
  M3905.f [.str "h4", .obj [("id", .str "inherited-from-3")], .str "Inherited from"],
  M3905.f [.str "p",
    .null,
    M3905.f [.str "a",
      .obj [("parentName", .str "p"), ("href", .str "/lightweight-charts/docs/4.0/api/interfaces/OhlcData")],
      .str "OhlcData"],
    .str ".",
    M3905.f [.str "a",
      .obj [("parentName", .str "p"), ("href", .str "/lightweight-charts/docs/4.0/api/interfaces/OhlcData#low")],
      .str "low"]],
  M3905.f [.str "hr", .null],
  M3905.f [.str "h3", .obj [("id", .str "close")], .str "close"],
  M3905.f [.str "p",
    .null,
    .str "\u2022 ",
    M3905.f [.str "strong", .obj [("parentName", .str "p")], .str "close"],
    .str ": ",
    M3905.f [.str "inlineCode", .obj [("parentName", .str "p")], .str "number"]],
  M3905.f [.str "p", .null, .str "The close price."],
  M3905.f [.str "h4", .obj [("id", .str "inherited-from-4")], .str "Inherited from"],
  M3905.f [.str "p",
    .null,
    M3905.f [.str "a",
      .obj [("parentName", .str "p"), ("href", .str "/lightweight-charts/docs/4.0/api/interfaces/OhlcData")],
      .str "OhlcData"],
    .str ".",
    M3905.f [.str "a",
      .obj [("parentName", .str "p"), ("href", .str "/lightweight-charts/docs/4.0/api/interfaces/OhlcData#close")],
      .str "close"]]]

/-- Source: `function d(e)` (the default export), with the module variable
`h` as a parameter. -/
def dWith (h : Val) (e : Val) : Except JsError Val := do
  let t ← get e "components"
  let r := restWithout e ["components"]
  pure (M3905.f ([s,
    .obj (Runtime.M87462.Z [] [h, .obj r,
      .obj [("components", t), ("mdxType", .str "MDXLayout")]])] ++ body))

/-- Source: `function d(e)` (the default export). -/
def d (e : Val) : Except JsError Val := dWith h e

end M27877

/-- React renders the layout of the page of module 27877: the page function is called with
the props and the MDXCreateElement element it returns is rendered, which resolves the layout
component; `d` stands for the module variable holding the `toc`. -/
def renderLayoutWith (d : Val) (env : FnEnv) (ctx props : Val) : Except JsError Val := do
  let el ← M27877.dWith d props
  React.renderStep (M3905.u env ctx) M3905.wrapper env el

/-- React renders the page of module 27877: the layout is resolved and the element of the
layout component is rendered in turn. -/
def renderPageWith (d : Val) (env : FnEnv) (ctx props : Val) : Except JsError Val := do
  let el ← renderLayoutWith d env ctx props
  React.renderStep (M3905.u env ctx) M3905.wrapper env el

/-- React renders the page of module 27877 as the module defines it. -/
def renderPage (env : FnEnv) (ctx props : Val) : Except JsError Val :=
  renderPageWith M27877.h env ctx props

end Chunk8648

/-! ## Chunk 6262 (`fcdf959e.c0a70486.js`) -/

namespace Chunk6262

open JS

namespace M3905

/-- Source: `function n(e,t,r)`, the helper that defines or assigns one property. -/
def n (e : Props) (t : String) (r : Val) : Props :=
  if hasMember e t then defineProperty e t r else put e t r

/-- Source: `function i(e,t)`, the own enumerable keys of `e` (symbol keys are not modelled). -/
def i (e : Val) (_t : Bool) : List String := keys e

/-- One round of the loop of `l`, for the argument at index `t`. -/
def lArg (e : Props) (t : Nat) (arg : Val) : Props :=
  let r := if !isNullish arg then arg else .obj []
  if t % 2 = 1 then (i r true).foldl (fun acc k => n acc k (getProp r k)) e
  else defineProperties e r

/-- The loop `for (var t = 1; t < arguments.length; t++)` of `l`. -/
def lLoop : Props → Nat → List Val → Props
  | e, _, [] => e
  | e, t, arg :: rest => lLoop (lArg e t arg) (t + 1) rest

/-- Source: `function l(e)`, object spread: `l e args` is `l(e, ...args)`; it returns the
target `e` after the copies. -/
def l (e : Props) (args : List Val) : Props := lLoop e 1 args

/-- Source: `function o(e,t)`, the properties of `e` whose keys are not in `t`. -/
def o (e : Val) (t : List String) : Props :=
  if isNullish e then []
  else (keys e).foldl (fun acc r => if r ∈ t then acc else put acc r (getProp e r)) []

/-- Source: `d.wrapper`,
`function(e){var t=e.children;return createElement(Fragment,{},t)}`. -/
def wrapper (e : Val) : Except JsError Val := do
  let t ← get e "children"
  pure (createElement [.fragment, .obj [], t])

/-- Source: `d`, the default components. -/
def d : Props := [("inlineCode", .str "code"), ("wrapper", .wrapperFn)]

/-- Source: `c="mdxType"`, the computed key used by `f`. -/
def c : String := "mdxType"

/-- The call `e(t)` of a value with `typeof e == "function"`. -/
def callFn (env : FnEnv) (e t : Val) : Except JsError Val :=
  match e with
  | .fn k => env k t
  | .wrapperFn => wrapper t
  | _ => .error .typeError

/-- Source: `u`, the merge routine (useMDXComponents); `ctx` is what
`useContext` returns. -/
def u (env : FnEnv) (ctx : Val) (e : Val) : Except JsError Val :=
  let t := ctx
  if truthy e then
    if typeof e = "function" then callFn env e t
    else .ok (.obj (l (l [] [t]) [e]))
  else .ok t

/-- Source: `s` (exported as `Zo`), the provider component. -/
def s (env : FnEnv) (ctx : Val) (e : Val) : Except JsError Val := do
  let t ← u env ctx (← get e "components")
  pure (createElement [.provider, .obj [("value", t)], ← get e "children"])

/-- Source: the render function given to `forwardRef` for `m` (MDXCreateElement);
`e` are the props, `t` the ref. -/
def m (env : FnEnv) (ctx : Val) (e t : Val) : Except JsError Val := do
  let components ← get e "components"
  let mdxType ← get e "mdxType"
  let originalType ← get e "originalType"
  let parentName ← get e "parentName"
  let rest := o e ["components", "mdxType", "originalType", "parentName"]
  let merged ← u env ctx components
  let m1 ← getMember merged (toStr parentName ++ "." ++ toStr mdxType)
  let m ← if truthy m1 then pure m1 else do
    let m2 ← getMember merged (toStr mdxType)
    if truthy m2 then pure m2 else pure (jsOr (member (.obj d) (toStr mdxType)) originalType)
  if truthy components then
    pure (createElement [m,
      .obj (l (l [("ref", t)] [.obj rest]) [.obj [], .obj [("components", components)]])])
  else
    pure (createElement [m, .obj (l [("ref", t)] [.obj rest])])

/-- Source: `function f(e,t)` (exported as `kt`); `r` is `arguments`.  The assignments of
the loop are `put`: this is `kt` for props without an own property `__proto__`, and `fExact`
below is `kt` for all props. -/
def f (r : List Val) : Val :=
  let e := r.getD 0 .undefined
  let t := r.getD 1 .undefined
  let mdxType := jsAnd t (getProp t "mdxType")
  if typeof e = "string" ∨ truthy mdxType = true then
    let config := (keys t).foldl (fun acc u => put acc u (getProp t u)) []
    let config := put config "originalType" e
    let config := put config c (if typeof e = "string" then e else mdxType)
    createElement ([.mdxCreateElement, .obj config] ++ r.drop 2)
  else createElement r

/-- Source: `function f(e,t)` (exported as `kt`); `r` is `arguments`.  The assignment
`a[u]=t[u]` of the loop is `assign`, which under the key `__proto__` runs the setter the
fresh object `a` inherits; the two assignments under fixed names define own properties. -/
def fExact (r : List Val) : Val :=
  let e := r.getD 0 .undefined
  let t := r.getD 1 .undefined
  let mdxType := jsAnd t (getProp t "mdxType")
  if typeof e = "string" ∨ truthy mdxType = true then
    let config := (keys t).foldl (fun acc u => assign acc u (getProp t u)) []
    let config := put config "originalType" e
    let config := put config c (if typeof e = "string" then e else mdxType)
    createElement ([.mdxCreateElement, .obj config] ++ r.drop 2)
  else createElement r

end M3905

/-! ### Module 5796, the page `AreaData` -/

namespace M5796

/-- Source: `i` (exported as `frontMatter`). -/
def i : Val :=
  .obj [
    ("id", .str "AreaData"),
    ("title", .str "Interface: AreaData"),
    ("sidebar_label", .str "AreaData"),
    ("sidebar_position", .num 0),
    ("custom_edit_url", .null),
    ("pagination_next", .null),
    ("pagination_prev", .null)]

/-- Source: `l` (exported as `contentTitle`). -/
def l : Val := .undefined

/-- Source: `o` (exported as `metadata`). -/
def o : Val :=
  .obj [
    ("unversionedId", .str "api/interfaces/AreaData"),
    ("id", .str "api/interfaces/AreaData"),
    ("title", .str "Interface: AreaData"),
    ("description", .str "Structure describing a single item of data for area series"),
    ("source", .str "@site/docs/api/interfaces/AreaData.md"),
    ("sourceDirName", .str "api/interfaces"),
    ("slug", .str "/api/interfaces/AreaData"),
    ("permalink", .str "/lightweight-charts/docs/next/api/interfaces/AreaData"),
    ("draft", .bool false),
    ("editUrl", .null),
    ("tags", .arr []),
    ("version", .str "current"),
    ("sidebarPosition", .num 0),
    ("frontMatter", .obj [
    ("id", .str "AreaData"),
    ("title", .str "Interface: AreaData"),
    ("sidebar_label", .str "AreaData"),
    ("sidebar_position", .num 0),
    ("custom_edit_url", .null),
    ("pagination_next", .null),
    ("pagination_prev", .null)]),
    ("sidebar", .str "apiSidebar")]

/-- Source: `p` (exported as `assets`). -/
def p : Val := .obj []

/-- Source: `u` (exported as `toc`). -/
def u : Val :=
  .arr [.obj [
    ("value", .str "Hierarchy"),
    ("id", .str "hierarchy"),
    ("level", .num 2)], .obj [
    ("value", .str "Properties"),
    ("id", .str "properties"),
    ("level", .num 2)], .obj [
    ("value", .str "lineColor"),
    ("id", .str "linecolor"),
    ("level", .num 3)], .obj [
    ("value", .str "topColor"),
    ("id", .str "topcolor"),
    ("level", .num 3)], .obj [
    ("value", .str "bottomColor"),
    ("id", .str "bottomcolor"),
    ("level", .num 3)], .obj [
    ("value", .str "value"),
    ("id", .str "value"),
    ("level", .num 3)], .obj [
    ("value", .str "Inherited from"),
    ("id", .str "inherited-from"),
    ("level", .num 4)], .obj [
    ("value", .str "time"),
    ("id", .str "time"),
    ("level", .num 3)], .obj [
    ("value", .str "Inherited from"),
    ("id", .str "inherited-from-1"),
    ("level", .num 4)], .obj [
    ("value", .str "customValues"),
    ("id", .str "customvalues"),
    ("level", .num 3)], .obj [
    ("value", .str "Inherited from"),
    ("id", .str "inherited-from-2"),
    ("level", .num 4)]]

/-- Source: `s`, the object `{toc: u}` spread into the layout props. -/
def s : Val := .obj [("toc", u)]

/-- Source: `c`, the name of the layout. -/
def c : Val := .str "wrapper"

/-- Source: the children handed to the layout call in `d`, in order. -/
def body : List Val :=
  [
  M3905.f [.str "p", .null, .str "Structure describing a single item of data for area series"],
  M3905.f [.str "h2", .obj [("id", .str "hierarchy")], .str "Hierarchy"],
  M3905.f [.str "ul",
    .null,
    M3905.f [.str "li",
      .obj [("parentName", .str "ul")],
      M3905.f [.str "p",
        .obj [("parentName", .str "li")],
        M3905.f [.str "a",
          .obj [("parentName", .str "p"), ("href", .str "/lightweight-charts/docs/next/api/interfaces/SingleValueData")],
          M3905.f [.str "inlineCode", .obj [("parentName", .str "a")], .str "SingleValueData"]]],
      M3905.f [.str "p",
        .obj [("parentName", .str "li")],
        .str "\u21b3 ",
        M3905.f [.str "strong",
          .obj [("parentName", .str "p")],
          M3905.f [.str "inlineCode", .obj [("parentName", .str "strong")], .str "AreaData"]]]]],
  M3905.f [.str "h2", .obj [("id", .str "properties")], .str "Properties"],
  M3905.f [.str "h3", .obj [("id", .str "linecolor")], .str "lineColor"],
  M3905.f [.str "p",
    .null,
    .str "\u2022 ",
    M3905.f [.str "inlineCode", .obj [("parentName", .str "p")], .str "Optional"],
    .str " ",
    M3905.f [.str "strong", .obj [("parentName", .str "p")], .str "lineColor"],
    .str ": ",
    M3905.f [.str "inlineCode", .obj [("parentName", .str "p")], .str "string"]],
  M3905.f [.str "p",
    .null,
    .str "Optional line color value for certain data item. If missed, color from options is used"],
  M3905.f [.str "hr", .null],
  M3905.f [.str "h3", .obj [("id", .str "topcolor")], .str "topColor"],
  M3905.f [.str "p",
    .null,
    .str "\u2022 ",
    M3905.f [.str "inlineCode", .obj [("parentName", .str "p")], .str "Optional"],
    .str " ",
    M3905.f [.str "strong", .obj [("parentName", .str "p")], .str "topColor"],
    .str ": ",
    M3905.f [.str "inlineCode", .obj [("parentName", .str "p")], .str "string"]],
  M3905.f [.str "p",
    .null,
    .str "Optional top color value for certain data item. If missed, color from options is used"],
  M3905.f [.str "hr", .null],
  M3905.f [.str "h3", .obj [("id", .str "bottomcolor")], .str "bottomColor"],
  M3905.f [.str "p",
    .null,
    .str "\u2022 ",
    M3905.f [.str "inlineCode", .obj [("parentName", .str "p")], .str "Optional"],
    .str " ",
    M3905.f [.str "strong", .obj [("parentName", .str "p")], .str "bottomColor"],
    .str ": ",
    M3905.f [.str "inlineCode", .obj [("parentName", .str "p")], .str "string"]],
  M3905.f [.str "p",
    .null,
    .str "Optional bottom color value for certain data item. If missed, color from options is used"],
  M3905.f [.str "hr", .null],
  M3905.f [.str "h3", .obj [("id", .str "value")], .str "value"],
  M3905.f [.str "p",
    .null,
    .str "\u2022 ",
    M3905.f [.str "strong", .obj [("parentName", .str "p")], .str "value"],
    .str ": ",
    M3905.f [.str "inlineCode", .obj [("parentName", .str "p")], .str "number"]],
  M3905.f [.str "p", .null, .str "Price value of the data."],
  M3905.f [.str "h4", .obj [("id", .str "inherited-from")], .str "Inherited from"],
  M3905.f [.str "p",
    .null,
    M3905.f [.str "a",
      .obj [("parentName", .str "p"), ("href", .str "/lightweight-charts/docs/next/api/interfaces/SingleValueData")],
      .str "SingleValueData"],
    .str ".",
    M3905.f [.str "a",
      .obj [("parentName", .str "p"), ("href", .str "/lightweight-charts/docs/next/api/interfaces/SingleValueData#value")],
      .str "value"]],
  M3905.f [.str "hr", .null],
  M3905.f [.str "h3", .obj [("id", .str "time")], .str "time"],
  M3905.f [.str "p",
    .null,
    .str "\u2022 ",
    M3905.f [.str "strong", .obj [("parentName", .str "p")], .str "time"],
    .str ": ",
    M3905.f [.str "a",
      .obj [("parentName", .str "p"), ("href", .str "/lightweight-charts/docs/next/api/#time")],
      M3905.f [.str "inlineCode", .obj [("parentName", .str "a")], .str "Time"]]],
  M3905.f [.str "p", .null, .str "The time of the data."],
  M3905.f [.str "h4", .obj [("id", .str "inherited-from-1")], .str "Inherited from"],
  M3905.f [.str "p",
    .null,
    M3905.f [.str "a",
      .obj [("parentName", .str "p"), ("href", .str "/lightweight-charts/docs/next/api/interfaces/SingleValueData")],
      .str "SingleValueData"],
    .str ".",
    M3905.f [.str "a",
      .obj [("parentName", .str "p"), ("href", .str "/lightweight-charts/docs/next/api/interfaces/SingleValueData#time")],
      .str "time"]],
  M3905.f [.str "hr", .null],
  M3905.f [.str "h3", .obj [("id", .str "customvalues")], .str "customValues"],
  M3905.f [.str "p",
    .null,
    .str "\u2022 ",
    M3905.f [.str "inlineCode", .obj [("parentName", .str "p")], .str "Optional"],
    .str " ",
    M3905.f [.str "strong", .obj [("parentName", .str "p")], .str "customValues"],
    .str ": ",
    M3905.f [.str "inlineCode", .obj [("parentName", .str "p")], .str "Record"],
    .str "<",
    M3905.f [.str "inlineCode", .obj [("parentName", .str "p")], .str "string"],
    .str ", ",
    M3905.f [.str "inlineCode", .obj [("parentName", .str "p")], .str "unknown"],
    .str ">"],
  M3905.f [.str "p",
    .null,
    .str "Additional custom values which will be ignored by the library, but\ncould be used by plugins."],
  M3905.f [.str "h4", .obj [("id", .str "inherited-from-2")], .str "Inherited from"],
  M3905.f [.str "p",
    .null,
    M3905.f [.str "a",
      .obj [("parentName", .str "p"), ("href", .str "/lightweight-charts/docs/next/api/interfaces/SingleValueData")],
      .str "SingleValueData"],
    .str ".",
    M3905.f [.str "a",
      .obj [("parentName", .str "p"), ("href", .str "/lightweight-charts/docs/next/api/interfaces/SingleValueData#customvalues")],
      .str "customValues"]]]

/-- Source: `function d(e)` (the default export), with the module variable
`s` as a parameter. -/
def dWith (s : Val) (e : Val) : Except JsError Val := do
  let t ← get e "components"
  let r := restWithout e ["components"]
  pure (M3905.f ([c,
    .obj (Runtime.M7462.Z [] [s, .obj r,
      .obj [("components", t), ("mdxType", .str "MDXLayout")]])] ++ body))

/-- Source: `function d(e)` (the default export). -/
def d (e : Val) : Except JsError Val := dWith s e

end M5796

/-- React renders the layout of the page of module 5796: the page function is called with
the props and the MDXCreateElement element it returns is rendered, which resolves the layout
component; `d` stands for the module variable holding the `toc`. -/
def renderLayoutWith (d : Val) (env : FnEnv) (ctx props : Val) : Except JsError Val := do
  let el ← M5796.dWith d props
  React.renderStep (M3905.m env ctx) M3905.wrapper env el

/-- React renders the page of module 5796: the layout is resolved and the element of the
layout component is rendered in turn. -/
def renderPageWith (d : Val) (env : FnEnv) (ctx props : Val) : Except JsError Val := do
  let el ← renderLayoutWith d env ctx props
  React.renderStep (M3905.m env ctx) M3905.wrapper env el

/-- React renders the page of module 5796 as the module defines it. -/
def renderPage (env : FnEnv) (ctx props : Val) : Except JsError Val :=
  renderPageWith M5796.s env ctx props

end Chunk6262

/-! ## Specification-side definitions -/

namespace Spec

open JS

/-- The collection `r` is the overlay of `e` over `t`: every key of `e` is a key of `r` with
the value it has in `e`, every key of `t` that is not a key of `e` is a key of `r` with the
value it has in `t`, and `r` has no other key. -/
def IsOverlay (t e r : Props) : Prop :=
  (∀ k, hasOwn e k = true → hasOwn r k = true ∧ getOwn r k = getOwn e k) ∧
  (∀ k, hasOwn t k = true → hasOwn e k = false → hasOwn r k = true ∧ getOwn r k = getOwn t k) ∧
  (∀ k, hasOwn r k = true → hasOwn t k = true ∨ hasOwn e k = true)

/-- The key overlay of one source on a target, in the spec's words "a simple key-overlay
function": every own key of the source is written to the target. -/
def overlayOne (target : Props) (source : Val) : Props :=
  (keys source).foldl (fun acc k => setOwn acc k (getProp source k)) target

/-- The key overlay of several sources in order, a later one taking precedence. -/
def overlay (target : Props) (sources : List Val) : Props :=
  sources.foldl overlayOne target

/-- The properties of `source` whose keys are not excluded, as a fresh collection. -/
def without (source : Val) (excluded : List String) : Props :=
  (keys source).foldl
    (fun acc k => if k ∈ excluded then acc else setOwn acc k (getProp source k)) []

/-- The first truthy value of a list, and the fallback when there is none. -/
def firstTruthy : List Val → Val → Val
  | [], fallback => fallback
  | v :: vs, fallback => if truthy v then v else firstTruthy vs fallback

/-- The built-in default components, in the words of the claims: `inlineCode` is `"code"` and
`wrapper` is the pass-through wrapper. -/
def defaults : Props := [("inlineCode", .str "code"), ("wrapper", .wrapperFn)]

/-- The component chosen for the name `n` under the parent name `p` with original type `o`
in the merged collection `d`: the first truthy value among `d[p + "." + n]`, `d[n]`,
`defaults[n]`, and `o` when none of them is truthy.  The three reads are reads of JavaScript
on plain objects: each yields the own property when there is one and the member of
`Object.prototype` of that name otherwise. -/
def lookup (d : Props) (n p o : Val) : Val :=
  firstTruthy [member (.obj d) (toStr p ++ "." ++ toStr n), member (.obj d) (toStr n),
    member (.obj defaults) (toStr n)] o

/-- A name as MDX passes it in `mdxType` and `parentName`: a string, or `undefined` when the
prop is absent. -/
def IsName (v : Val) : Prop := v = .undefined ∨ ∃ s, v = .str s

/-- A props object or a component collection within the model: a plain object, `null` or
`undefined`. -/
def IsProps (v : Val) : Prop := isNullish v = true ∨ ∃ ps, v = .obj ps

/-- A `components` argument as the claims list it: absent (any falsy value), an object, or a
function supplied from outside. -/
def IsComponents (v : Val) : Prop := truthy v = false ∨ (∃ ps, v = .obj ps) ∨ ∃ i, v = .fn i

/-- The props object assembled by `kt(e, t, ...)` on its MDXCreateElement path. -/
def ktConfig (e t : Val) : Props :=
  setOwn (setOwn (overlayOne [] t) "originalType" e) "mdxType"
    (if typeof e = "string" then e else jsAnd t (getProp t "mdxType"))

/-- The props object assembled by `kt(e, t, ...)` on its MDXCreateElement path when the
assignments of the loop are exact: an own property `__proto__` of `t` is not copied. -/
def ktConfigExact (e t : Val) : Props :=
  setOwn (setOwn (without t ["__proto__"]) "originalType" e) "mdxType"
    (if typeof e = "string" then e else jsAnd t (getProp t "mdxType"))

/-- The props a page function assembles for its layout: the defaults `d`, then the props
without `components`, then `components` and the `mdxType` of the layout. -/
def layoutProps (d : Val) (ps : Props) : Props :=
  overlay [] [d, .obj (without (.obj ps) ["components"]),
    .obj [("components", getOwn ps "components"), ("mdxType", .str "MDXLayout")]]

/-- The element a page function returns: `kt("wrapper", layoutProps, ...body)`. -/
def pageElem (d : Val) (ps : Props) (body : List Val) : Val :=
  .elem .mdxCreateElement (.obj (ktConfig (.str "wrapper") (.obj (layoutProps d ps)))) body

/-- What the claims ask of `kt(e, t, ...cs)`, for the result `r` of the call.  When `e` is a
string or `t` carries a truthy `mdxType`: `r` is an MDXCreateElement element whose props have
`originalType` set to `e`, `mdxType` set to `e` when `e` is a string and to `t.mdxType`
otherwise, every other key as in `t`, and whose children are `cs`.  Otherwise `r` is
`createElement(e, t, ...cs)`. -/
def KtResult (e t : Val) (cs : List Val) (r : Val) : Prop :=
  ((typeof e = "string" ∨ truthy (jsAnd t (getProp t "mdxType")) = true) ∧
    ∃ a, r = .elem .mdxCreateElement (.obj a) cs ∧
      getOwn a "originalType" = e ∧
      getOwn a "mdxType" = (if typeof e = "string" then e else getProp t "mdxType") ∧
      hasOwn a "originalType" = true ∧ hasOwn a "mdxType" = true ∧
      ∀ k, k ≠ "originalType" → k ≠ "mdxType" →
        hasOwn a k = hasOwn (ownProps t) k ∧ getOwn a k = getProp t k) ∨
  ((¬ typeof e = "string" ∧ truthy (jsAnd t (getProp t "mdxType")) = false) ∧
    r = createElement (e :: t :: cs))

/-- What `kt(e, t, ...cs)` does, for the result `r` of the call, with the key `__proto__`
set apart.  When `e` is a string or `t` carries a truthy `mdxType`: `r` is an MDXCreateElement
element whose props have `originalType` set to `e`, `mdxType` set to `e` when `e` is a string
and to `t.mdxType` otherwise, no own property `__proto__`, every other key as in `t`, and
whose children are `cs`.  Otherwise `r` is `createElement(e, t, ...cs)`. -/
def KtExact (e t : Val) (cs : List Val) (r : Val) : Prop :=
  ((typeof e = "string" ∨ truthy (jsAnd t (getProp t "mdxType")) = true) ∧
    ∃ a, r = .elem .mdxCreateElement (.obj a) cs ∧
      getOwn a "originalType" = e ∧
      getOwn a "mdxType" = (if typeof e = "string" then e else getProp t "mdxType") ∧
      hasOwn a "originalType" = true ∧ hasOwn a "mdxType" = true ∧
      hasOwn a "__proto__" = false ∧
      ∀ k, k ≠ "originalType" → k ≠ "mdxType" → k ≠ "__proto__" →
        hasOwn a k = hasOwn (ownProps t) k ∧ getOwn a k = getProp t k) ∨
  ((¬ typeof e = "string" ∧ truthy (jsAnd t (getProp t "mdxType")) = false) ∧
    r = createElement (e :: t :: cs))

/-- The nesting level of a heading tag. -/
def headingLevel : Val → Option Int
  | .str "h2" => some 2
  | .str "h3" => some 3
  | .str "h4" => some 4
  | _ => none

/-- What an element shows as `children`: nothing, the single child, or the array of them. -/
def childrenValue : List Val → Val
  | [] => .undefined
  | [c] => c
  | cs => .arr cs

mutual
/-- The headings created in an element tree, in document order, each as the triple
`value` (the heading text), `id` and `level`. -/
def headingsOf : Val → List Val
  | .elem _ cfg children =>
    (match headingLevel (getProp cfg "originalType") with
      | some level =>
        [.obj [("value", childrenValue children), ("id", getProp cfg "id"), ("level", .num level)]]
      | none => []) ++ headingsOfList children
  | _ => []
/-- The headings created in a list of element trees. -/
def headingsOfList : List Val → List Val
  | [] => []
  | c :: cs => headingsOf c ++ headingsOfList cs
end

/-- The type of an element, `undefined` for a value that is not an element. -/
def elemType : Val → Val
  | .elem type _ _ => type
  | _ => .undefined

end Spec

/-! ## Concrete inputs used to exercise the theorems -/

namespace Example

open JS

/-- An environment whose only behaviour is to return `undefined`. -/
def envUndefined : FnEnv := fun _ _ => .ok .undefined

/-- An inherited collection with an entry for `inlineCode` under the parent `p`. -/
def ctxQualified : Val := .obj [("p.inlineCode", .fn 0), ("h2", .fn 1)]

/-- Props of an MDXCreateElement element for `inlineCode` inside a `p`. -/
def propsInlineCode : Props :=
  [("parentName", .str "p"), ("originalType", .str "inlineCode"), ("mdxType", .str "inlineCode"),
   ("children", .str "string")]

/-- An inherited collection without any entry for the layout. -/
def ctxHeadings : Props := [("h2", .fn 1), ("h3", .fn 2)]

/-- Props of a page: a title and no `components`. -/
def propsPage : Props := [("title", .str "x")]

/-- Props of an MDXCreateElement element whose `components` is a function. -/
def propsFnComponents : Props :=
  [("components", .fn 0), ("originalType", .str "h1"), ("mdxType", .str "h1")]

/-- An environment whose function 0 returns a collection. -/
def envCollection : FnEnv := fun _ _ => .ok (.obj [("h1", .fn 7)])

/-- An environment whose functions throw the string `boom`. -/
def envThrows : FnEnv := fun _ _ => .error (.thrown (.str "boom"))

/-- Props of an MDXCreateElement element for the tag `toString`. -/
def propsToString : Props := [("originalType", .str "toString"), ("mdxType", .str "toString")]

/-- Props with an own property `__proto__`, as `JSON.parse` or a computed key makes them. -/
def propsProto : Val := .obj [("__proto__", .obj [("x", .num 1)]), ("id", .str "a")]

end Example

/-! ## The store model: objects as cells of a store

The embedding above treats objects as values, which cannot express that a call leaves an
object untouched.  The embedding below keeps objects in a store: a value may be a reference
`HVal.ref a` to the cell at address `a`, an object literal allocates a cell at the end of the
store, and an assignment `o[k] = x` updates the cell of `o`.  The temporary `arguments` objects
and argument arrays are not cells. -/

namespace Heap

/-- JavaScript values with objects by reference. -/
inductive HVal where
  | undefined
  | null
  | bool (b : Bool)
  | num (n : Int)
  | str (s : String)
  | fn (i : Nat)
  | wrapperFn
  | mdxCreateElement
  | fragment
  | provider
  /-- the object `Object.prototype` of the runtime, which lies outside the store -/
  | prototypeObject
  /-- a reference to the cell at address `a` of the store -/
  | ref (a : Nat)
  deriving DecidableEq

/-- The own properties of a plain object, by reference. -/
abbrev HProps := List (String × HVal)

/-- The contents of an object in the store. -/
inductive Cell where
  | obj (props : HProps)
  | arr (items : List HVal)
  /-- the element made by `React.createElement(type, config, ...children)` -/
  | elem (type : HVal) (config : HVal) (children : List HVal)
  deriving DecidableEq

/-- The store: the cell of address `a` is at index `a`. -/
abbrev Store := List Cell

/-- Errors a call can end with. -/
inductive HError where
  | typeError
  | thrown (v : HVal)
  deriving DecidableEq

/-- Behaviour of the functions supplied from outside: function index, argument, store before
the call; outcome and store after the call. -/
abbrev HEnv := Nat → HVal → Store → Except HError (HVal × Store)

/-- Value of the own property `key`, `undefined` when there is none. -/
def hGet : HProps → String → HVal
  | [], _ => .undefined
  | (k, v) :: ps, key => if k = key then v else hGet ps key

/-- Whether `key` is an own property. -/
def hHas : HProps → String → Bool
  | [], _ => false
  | (k, _) :: ps, key => if k = key then true else hHas ps key

/-- Store `x` under `key`: in place when the key exists, at the end otherwise. -/
def hSet : HProps → String → HVal → HProps
  | [], key, x => [(key, x)]
  | (k, v) :: ps, key, x => if k = key then (k, x) :: ps else (k, v) :: hSet ps key x

/-- Truthiness, `ToBoolean`. -/
def truthy : HVal → Bool
  | .undefined => false
  | .null => false
  | .bool b => b
  | .num n => n != 0
  | .str s => s != ""
  | _ => true

/-- The test `null == v`. -/
def isNullish : HVal → Bool
  | .undefined => true
  | .null => true
  | _ => false

/-- The operator `typeof`. -/
def typeof : HVal → String
  | .undefined => "undefined"
  | .null => "object"
  | .bool _ => "boolean"
  | .num _ => "number"
  | .str _ => "string"
  | .fn _ => "function"
  | .wrapperFn => "function"
  | .fragment => "symbol"
  | _ => "object"

/-- The operator `a || b`. -/
def jsOr (a b : HVal) : HVal := if truthy a then a else b

/-- The operator `a && b`. -/
def jsAnd (a b : HVal) : HVal := if truthy a then b else a

/-- String conversion, as `JS.toStr` above. -/
def toStr : HVal → String
  | .undefined => "undefined"
  | .null => "null"
  | .bool true => "true"
  | .bool false => "false"
  | .num n => toString n
  | .str s => s
  | _ => "[object Object]"

/-- The own enumerable properties of the object `v` refers to, as `JS.ownProps` above. -/
def ownProps (h : Store) : HVal → HProps
  | .ref a =>
    match h[a]? with
    | some (.obj ps) => ps
    | _ => []
  | _ => []

/-- The call `Object.keys(v)`. -/
def keys (h : Store) (v : HVal) : List String := (ownProps h v).map Prod.fst

/-- The read `v[key]` of an own property, on a value known not to be `null` or `undefined`,
as `JS.getProp` above. -/
def getProp (h : Store) (v : HVal) (key : String) : HVal := hGet (ownProps h v) key

/-- The members of `Object.prototype`, as `JS.objectPrototype` above; the accessor `__proto__`
yields the object `Object.prototype`. -/
def objectPrototype : HProps :=
  [("constructor", .fn 9000), ("__defineGetter__", .fn 9001), ("__defineSetter__", .fn 9002),
   ("hasOwnProperty", .fn 9003), ("__lookupGetter__", .fn 9004),
   ("__lookupSetter__", .fn 9005), ("isPrototypeOf", .fn 9006),
   ("propertyIsEnumerable", .fn 9007), ("toString", .fn 9008), ("valueOf", .fn 9009),
   ("__proto__", .prototypeObject), ("toLocaleString", .fn 9010)]

/-- The test `key in v` on a plain object: an own property or a member of
`Object.prototype`. -/
def hasProp (h : Store) (v : HVal) (key : String) : Bool :=
  hHas (ownProps h v) key || hHas objectPrototype key

/-- The read `v.key` under one of the fixed names of the bundles: a `TypeError` on `null` and
`undefined`, the own property otherwise. -/
def get (h : Store) (v : HVal) (key : String) : Except HError HVal :=
  if isNullish v then .error .typeError else .ok (getProp h v key)

/-- The read of `key` through the prototype, for a plain object with the own properties
`ps`: the own property when there is one, and otherwise the member of `Object.prototype` of
that name. -/
def memberOf (ps : HProps) (key : String) : HVal :=
  if hHas ps key then hGet ps key else hGet objectPrototype key

/-- The read `v[key]` under a name computed at run time: a `TypeError` on `null` and
`undefined`, the read through the prototype otherwise. -/
def getMember (h : Store) (v : HVal) (key : String) : Except HError HVal :=
  if isNullish v then .error .typeError else .ok (memberOf (ownProps h v) key)

/-- An object literal or `createElement`: a new cell at the end of the store. -/
def alloc (h : Store) (c : Cell) : HVal × Store := (.ref h.length, h ++ [c])

/-- Replace the cell at address `a` by its image under `g`. -/
def update : Store → Nat → (Cell → Cell) → Store
  | [], _, _ => []
  | c :: cs, 0, g => g c :: cs
  | c :: cs, a + 1, g => c :: update cs a g

/-- The effect of `o[key] = x` on the cell of `o`. -/
def setCell (key : String) (x : HVal) : Cell → Cell
  | .obj ps => .obj (hSet ps key x)
  | c => c

/-- The assignment `o[key] = x`, a write to the cell of `o` (no effect when `o` is not a
reference to a plain object). -/
def put (h : Store) (o : HVal) (key : String) (x : HVal) : Store :=
  match o with
  | .ref a => update h a (setCell key x)
  | _ => h

/-- The call `Object.defineProperty(o, key, {value: x, enumerable: true, configurable: true,
writable: true})`. -/
def defineProperty (h : Store) (o : HVal) (key : String) (x : HVal) : Store := put h o key x

/-- The call `Object.defineProperties(o, Object.getOwnPropertyDescriptors(r))`. -/
def defineProperties (h : Store) (o r : HVal) : Store :=
  (keys h r).foldl (fun h k => put h o k (getProp h r k)) h

/-- The object rest pattern `let {k1: _, ..., ...r} = e`: a new object with the own
enumerable properties of `e` whose keys are not among the `excluded` ones. -/
def restWithout (h : Store) (e : HVal) (excluded : List String) : HVal × Store :=
  let (r, h) := alloc h (.obj [])
  (r, (keys h e).foldl (fun h k => if k ∈ excluded then h else put h r k (getProp h e k)) h)

/-- The call `React.createElement.apply(null, args)`, kept symbolic: a new element cell. -/
def createElement (h : Store) (args : List HVal) : HVal × Store :=
  alloc h (.elem (args.getD 0 .undefined) (args.getD 1 .undefined) (args.drop 2))

/-- Modelled from the spec: module 7294 (React) is not among the source files.  This is the
props object React hands to a component for the element at `el`: a new object with the own
properties of the config other than `key`, `ref`, `__self` and `__source`, and with
`children` set to the single child, or to a new array of the children when there are
several. -/
def propsOf (h : Store) (el : HVal) : HVal × Store :=
  match el with
  | .ref a =>
    match h[a]? with
    | some (.elem _ config children) =>
      let (props, h) := alloc h (.obj [])
      let h := (keys h config).foldl
        (fun h k => if k ∈ ["key", "ref", "__self", "__source"] then h
          else put h props k (getProp h config k)) h
      match children with
      | [] => (props, h)
      | [c] => (props, put h props "children" c)
      | cs =>
        let (array, h) := alloc h (.arr cs)
        (props, put h props "children" array)
    | _ => alloc h (.obj [])
  | _ => alloc h (.obj [])

/-- Modelled from the spec: module 7294 (React) is not among the source files.  This is the
ref React hands to a `forwardRef` render function: `config.ref` unless it is `undefined`,
and `null` otherwise. -/
def refOf (h : Store) (el : HVal) : HVal :=
  match el with
  | .ref a =>
    match h[a]? with
    | some (.elem _ config _) =>
      match getProp h config "ref" with
      | .undefined => .null
      | r => r
    | _ => .null
  | _ => .null

/-- The type of the element at `el`, `undefined` when `el` is not an element. -/
def typeOf (h : Store) (el : HVal) : HVal :=
  match el with
  | .ref a =>
    match h[a]? with
    | some (.elem type _ _) => type
    | _ => .undefined
  | _ => .undefined

/-- Modelled from the spec: module 7294 (React) is not among the source files.  This is one
step of React rendering the element at `el`, as `React.renderStep` above. -/
def renderStep (mdx : Store → HVal → HVal → Except HError (HVal × Store))
    (wrapper : Store → HVal → Except HError (HVal × Store)) (env : HEnv)
    (h : Store) (el : HVal) : Except HError (HVal × Store) :=
  match typeOf h el with
  | .mdxCreateElement =>
    let (props, h1) := propsOf h el
    mdx h1 props (refOf h el)
  | .wrapperFn =>
    let (props, h1) := propsOf h el
    wrapper h1 props
  | .fn i =>
    let (props, h1) := propsOf h el
    env i props h1
  | _ => .ok (el, h)

/-- Modelled from the spec: module 7462 is not among the source files; the key overlay
`Z(target, ...sources)` as `Runtime.M7462.Z` above, writing to the cell of `target`. -/
def Z7462 (h : Store) (target : HVal) (sources : List HVal) : HVal × Store :=
  (target, sources.foldl (fun h source => (keys h source).foldl
    (fun h key => put h target key (getProp h source key)) h) h)

/-- Modelled from the spec: module 3366 is not among the source files; `Z(source, excluded)`
as `Runtime.M3366.Z` above, returning a new object. -/
def Z3366 (h : Store) (source : HVal) (excluded : List String) : HVal × Store :=
  let (target, h) := alloc h (.obj [])
  if isNullish source then (target, h)
  else (target, (keys h source).foldl
    (fun h key => if key ∈ excluded then h else put h target key (getProp h source key)) h)

/-- The store `h2` keeps the cells of `h1` below address `n`, and is at least as long. -/
def Frame (n : Nat) (h1 h2 : Store) : Prop :=
  h1.length ≤ h2.length ∧ ∀ a, a < n → h2[a]? = h1[a]?

/-- The value `o` does not refer to a cell below address `n`. -/
def Fresh (n : Nat) (o : HVal) : Prop := ∀ a, o = .ref a → n ≤ a

/-- The functions supplied from outside keep the cells that exist when they are called. -/
def EnvFrame (env : HEnv) : Prop :=
  ∀ n i v h r h2, n ≤ h.length → env i v h = .ok (r, h2) → Frame n h h2

/-- The argument expressions of the layout call of a page: string literals, `null`, object
literals with string values, and nested calls of `kt`. -/
inductive Expr where
  | str (s : String)
  | null
  | lit (props : List (String × String))
  | kt (args : List Expr)

mutual
/-- Evaluation of an argument expression, left to right, with `kt` given. -/
def eval (kt : Store → List HVal → HVal × Store) : Expr → Store → HVal × Store
  | .str s, h => (.str s, h)
  | .null, h => (.null, h)
  | .lit props, h => alloc h (.obj (props.map (fun kv => (kv.1, HVal.str kv.2))))
  | .kt args, h =>
    let (vs, h) := evalList kt args h
    kt h vs
/-- Evaluation of a list of argument expressions, left to right. -/
def evalList (kt : Store → List HVal → HVal × Store) : List Expr → Store → List HVal × Store
  | [], h => ([], h)
  | e :: es, h =>
    let (v, h) := eval kt e h
    let (vs, h) := evalList kt es h
    (v :: vs, h)
end

end Heap

/-! ### Module 3905 of chunk 5923, on the store -/

namespace Chunk5923.H3905

open Heap

/-- Source: `function o(e,t,r)`. -/
def o (h : Store) (e : HVal) (t : String) (r : HVal) : Store :=
  if hasProp h e t then defineProperty h e t r else put h e t r

/-- Source: `function i(e,t)`. -/
def i (h : Store) (e : HVal) (_t : Bool) : List String := keys h e

/-- One round of the loop of `l`, for the argument at index `t`; a `null` or `undefined`
argument is replaced by a new empty object. -/
def lArg (h : Store) (e : HVal) (t : Nat) (arg : HVal) : Store :=
  let (r, h) := if !isNullish arg then (arg, h) else alloc h (.obj [])
  if t % 2 = 1 then (i h r true).foldl (fun h k => o h e k (getProp h r k)) h
  else defineProperties h e r

/-- The loop `for (var t = 1; t < arguments.length; t++)` of `l`. -/
def lLoop : Store → HVal → Nat → List HVal → Store
  | h, _, _, [] => h
  | h, e, t, arg :: rest => lLoop (lArg h e t arg) e (t + 1) rest

/-- Source: `function l(e)`, object spread into the cell of `e`; it returns `e`. -/
def l (h : Store) (e : HVal) (args : List HVal) : HVal × Store := (e, lLoop h e 1 args)

/-- Source: `function a(e,t)`, a new object with the properties of `e` whose keys are
not in `t`. -/
def a (h : Store) (e : HVal) (t : List String) : HVal × Store :=
  if isNullish e then alloc h (.obj [])
  else
    let (o, h) := alloc h (.obj [])
    (o, (keys h e).foldl (fun h r => if r ∈ t then h else put h o r (getProp h e r)) h)

/-- Source: `s.wrapper`. -/
def wrapper (h : Store) (e : HVal) : Except HError (HVal × Store) := do
  let t ← get h e "children"
  let (config, h) := alloc h (.obj [])
  pure (createElement h [.fragment, config, t])

/-- Source: `s`, the default components (a constant object, kept as a list). -/
def s : HProps := [("inlineCode", .str "code"), ("wrapper", .wrapperFn)]

/-- The call `e(t)` of a value with `typeof e == "function"`. -/
def callFn (env : HEnv) (h : Store) (e t : HVal) : Except HError (HVal × Store) :=
  match e with
  | .fn k => env k t h
  | .wrapperFn => wrapper h t
  | _ => .error .typeError

/-- Source: `p`, the merge routine (useMDXComponents). -/
def p (env : HEnv) (h : Store) (ctx : HVal) (e : HVal) : Except HError (HVal × Store) :=
  let t := ctx
  if truthy e then
    if typeof e = "function" then callFn env h e t
    else
      let (o, h) := alloc h (.obj [])
      let (o, h) := l h o [t]
      .ok (l h o [e])
  else .ok (t, h)

/-- Source: the expression `d[parentName + "." + mdxType] || d[mdxType] || defaults[mdxType]
|| originalType` in the render function of MDXCreateElement. -/
def resolve (h : Store) (merged mdxType parentName originalType : HVal) :
    Except HError HVal := do
  let m1 ← getMember h merged (toStr parentName ++ "." ++ toStr mdxType)
  if truthy m1 then pure m1 else do
    let m2 ← getMember h merged (toStr mdxType)
    if truthy m2 then pure m2 else pure (jsOr (memberOf s (toStr mdxType)) originalType)

/-- Source: the `return` expression of the render function of MDXCreateElement: the props
are spread into new objects and the element is created. -/
def finish (h : Store) (m components rest t : HVal) : HVal × Store :=
  if truthy components then
    let (o1, h) := alloc h (.obj [("ref", t)])
    let (o1, h) := l h o1 [rest]
    let (o2, h) := alloc h (.obj [])
    let (o3, h) := alloc h (.obj [("components", components)])
    let (config, h) := l h o1 [o2, o3]
    createElement h [m, config]
  else
    let (o1, h) := alloc h (.obj [("ref", t)])
    let (config, h) := l h o1 [rest]
    createElement h [m, config]

/-- Source: the render function given to `forwardRef` for `d` (MDXCreateElement);
the lookup is `resolve` and the `return` expression is `finish`. -/
def d (env : HEnv) (h : Store) (ctx : HVal) (e t : HVal) :
    Except HError (HVal × Store) := do
  let components ← get h e "components"
  let mdxType ← get h e "mdxType"
  let originalType ← get h e "originalType"
  let parentName ← get h e "parentName"
  let (rest, h) := a h e ["components", "mdxType", "originalType", "parentName"]
  let (merged, h) ← p env h ctx components
  let m ← resolve h merged mdxType parentName originalType
  pure (finish h m components rest t)

/-- Source: `function f(e,t)` (exported as `kt`); `r` is `arguments`. -/
def f (h : Store) (r : List HVal) : HVal × Store :=
  let e := r.getD 0 .undefined
  let t := r.getD 1 .undefined
  let mdxType := jsAnd t (getProp h t "mdxType")
  if typeof e = "string" ∨ truthy mdxType = true then
    let (config, h) := alloc h (.obj [])
    let h := (keys h t).foldl (fun h u => put h config u (getProp h t u)) h
    let h := put h config "originalType" e
    let h := put h config "mdxType" (if typeof e = "string" then e else mdxType)
    createElement h ([.mdxCreateElement, config] ++ r.drop 2)
  else createElement h r

end Chunk5923.H3905

/-! ### Module 7285 of chunk 5923, on the store -/

namespace Chunk5923.H7285

open Heap

/-- Source: the argument expressions after the props in the layout call of `f`. -/
def body : List Expr :=
  [
  .kt [.str "p", .null, .str "Represents a type of color."],
  .kt [.str "h2", .lit [("id", "enumeration-members")], .str "Enumeration Members"],
  .kt [.str "h3", .lit [("id", "solid")], .str "Solid"],
  .kt [.str "p",
    .null,
    .str "\u2022 ",
    .kt [.str "strong", .lit [("parentName", "p")], .str "Solid"]],
  .kt [.str "p", .null, .str "Solid color"],
  .kt [.str "hr", .null],
  .kt [.str "h3", .lit [("id", "verticalgradient")], .str "VerticalGradient"],
  .kt [.str "p",
    .null,
    .str "\u2022 ",
    .kt [.str "strong", .lit [("parentName", "p")], .str "VerticalGradient"]],
  .kt [.str "p", .null, .str "Vertical gradient color"]]

/-- Source: `function f(e)` (the default export); `d` is the module variable that holds the
object with the `toc`. -/
def f (h : Store) (d e : HVal) : Except HError (HVal × Store) := do
  let t ← get h e "components"
  let (r, h) := Z3366 h e ["components"]
  let (target, h) := alloc h (.obj [])
  let (last, h) := alloc h (.obj [("components", t), ("mdxType", .str "MDXLayout")])
  let (config, h) := Z7462 h target [d, r, last]
  let (children, h) := evalList Chunk5923.H3905.f body h
  pure (Chunk5923.H3905.f h ([.str "wrapper", config] ++ children))

end Chunk5923.H7285

namespace Chunk5923

open Heap

/-- React renders the layout of the page of module 7285 on the store: the page function,
then the MDXCreateElement element it returns. -/
def renderLayoutH (env : HEnv) (h : Store) (d ctx props : HVal) :
    Except HError (HVal × Store) := do
  let (el, h) ← H7285.f h d props
  renderStep (fun h e t => H3905.d env h ctx e t) H3905.wrapper env h el

/-- React renders the page of module 7285 on the store: the layout, then the element of
the layout component. -/
def renderPageH (env : HEnv) (h : Store) (d ctx props : HVal) :
    Except HError (HVal × Store) := do
  let (el, h) ← renderLayoutH env h d ctx props
  renderStep (fun h e t => H3905.d env h ctx e t) H3905.wrapper env h el

end Chunk5923
/-! ### Module 3905 of chunk 8648, on the store -/

namespace Chunk8648.H3905

open Heap

/-- Source: `function n(e,t,r)`. -/
def n (h : Store) (e : HVal) (t : String) (r : HVal) : Store :=
  if hasProp h e t then defineProperty h e t r else put h e t r

/-- Source: `function i(e,t)`. -/
def i (h : Store) (e : HVal) (_t : Bool) : List String := keys h e

/-- One round of the loop of `l`, for the argument at index `t`; a `null` or `undefined`
argument is replaced by a new empty object. -/
def lArg (h : Store) (e : HVal) (t : Nat) (arg : HVal) : Store :=
  let (r, h) := if !isNullish arg then (arg, h) else alloc h (.obj [])
  if t % 2 = 1 then (i h r true).foldl (fun h k => n h e k (getProp h r k)) h
  else defineProperties h e r

/-- The loop `for (var t = 1; t < arguments.length; t++)` of `l`. -/
def lLoop : Store → HVal → Nat → List HVal → Store
  | h, _, _, [] => h
  | h, e, t, arg :: rest => lLoop (lArg h e t arg) e (t + 1) rest

/-- Source: `function l(e)`, object spread into the cell of `e`; it returns `e`. -/
def l (h : Store) (e : HVal) (args : List HVal) : HVal × Store := (e, lLoop h e 1 args)

/-- Source: `function o(e,t)`, a new object with the properties of `e` whose keys are
not in `t`. -/
def o (h : Store) (e : HVal) (t : List String) : HVal × Store :=
  if isNullish e then alloc h (.obj [])
  else
    let (o, h) := alloc h (.obj [])
    (o, (keys h e).foldl (fun h r => if r ∈ t then h else put h o r (getProp h e r)) h)

/-- Source: `d.wrapper`. -/
def wrapper (h : Store) (e : HVal) : Except HError (HVal × Store) := do
  let t ← get h e "children"
  let (config, h) := alloc h (.obj [])
  pure (createElement h [.fragment, config, t])

/-- Source: `d`, the default components (a constant object, kept as a list). -/
def d : HProps := [("inlineCode", .str "code"), ("wrapper", .wrapperFn)]

/-- Source: `s="mdxType"`. -/
def s : String := "mdxType"

/-- The call `e(t)` of a value with `typeof e == "function"`. -/
def callFn (env : HEnv) (h : Store) (e t : HVal) : Except HError (HVal × Store) :=
  match e with
  | .fn k => env k t h
  | .wrapperFn => wrapper h t
  | _ => .error .typeError

/-- Source: `c`, the merge routine (useMDXComponents). -/
def c (env : HEnv) (h : Store) (ctx : HVal) (e : HVal) : Except HError (HVal × Store) :=
  let t := ctx
  if truthy e then
    if typeof e = "function" then callFn env h e t
    else
      let (o, h) := alloc h (.obj [])
      let (o, h) := l h o [t]
      .ok (l h o [e])
  else .ok (t, h)

/-- Source: the expression `d[parentName + "." + mdxType] || d[mdxType] || defaults[mdxType]
|| originalType` in the render function of MDXCreateElement. -/
def resolve (h : Store) (merged mdxType parentName originalType : HVal) :
    Except HError HVal := do
  let m1 ← getMember h merged (toStr parentName ++ "." ++ toStr mdxType)
  if truthy m1 then pure m1 else do
    let m2 ← getMember h merged (toStr mdxType)
    if truthy m2 then pure m2 else pure (jsOr (memberOf d (toStr mdxType)) originalType)

/-- Source: the `return` expression of the render function of MDXCreateElement: the props
are spread into new objects and the element is created. -/
def finish (h : Store) (m components rest t : HVal) : HVal × Store :=
  if truthy components then
    let (o1, h) := alloc h (.obj [("ref", t)])
    let (o1, h) := l h o1 [rest]
    let (o2, h) := alloc h (.obj [])
    let (o3, h) := alloc h (.obj [("components", components)])
    let (config, h) := l h o1 [o2, o3]
    createElement h [m, config]
  else
    let (o1, h) := alloc h (.obj [("ref", t)])
    let (config, h) := l h o1 [rest]
    createElement h [m, config]

/-- Source: the render function given to `forwardRef` for `u` (MDXCreateElement);
the lookup is `resolve` and the `return` expression is `finish`. -/
def u (env : HEnv) (h : Store) (ctx : HVal) (e t : HVal) :
    Except HError (HVal × Store) := do
  let components ← get h e "components"
  let mdxType ← get h e "mdxType"
  let originalType ← get h e "originalType"
  let parentName ← get h e "parentName"
  let (rest, h) := o h e ["components", "mdxType", "originalType", "parentName"]
  let (merged, h) ← c env h ctx components
  let m ← resolve h merged mdxType parentName originalType
  pure (finish h m components rest t)

/-- Source: `function f(e,t)` (exported as `kt`); `r` is `arguments`. -/
def f (h : Store) (r : List HVal) : HVal × Store :=
  let e := r.getD 0 .undefined
  let t := r.getD 1 .undefined
  let mdxType := jsAnd t (getProp h t "mdxType")
  if typeof e = "string" ∨ truthy mdxType = true then
    let (config, h) := alloc h (.obj [])
    let h := (keys h t).foldl (fun h u => put h config u (getProp h t u)) h
    let h := put h config "originalType" e
    let h := put h config s (if typeof e = "string" then e else mdxType)
    createElement h ([.mdxCreateElement, config] ++ r.drop 2)
  else createElement h r

end Chunk8648.H3905

/-! ### Module 27877 of chunk 8648, on the store -/

namespace Chunk8648.H27877

open Heap

/-- Source: the argument expressions after the props in the layout call of `d`. -/
def body : List Expr :=
  [
  .kt [.str "p", .null, .str "Structure describing a single item of data for bar series"],
  .kt [.str "h2", .lit [("id", "hierarchy")], .str "Hierarchy"],
  .kt [.str "ul",
    .null,
    .kt [.str "li",
      .lit [("parentName", "ul")],
      .kt [.str "p",
        .lit [("parentName", "li")],
        .kt [.str "a",
          .lit [("parentName", "p"), ("href", "/lightweight-charts/docs/4.0/api/interfaces/OhlcData")],
          .kt [.str "inlineCode", .lit [("parentName", "a")], .str "OhlcData"]]],
      .kt [.str "p",
        .lit [("parentName", "li")],
        .str "\u21b3 ",
        .kt [.str "strong",
          .lit [("parentName", "p")],
          .kt [.str "inlineCode", .lit [("parentName", "strong")], .str "BarData"]]]]],
  .kt [.str "h2", .lit [("id", "properties")], .str "Properties"],
  .kt [.str "h3", .lit [("id", "color")], .str "color"],
  .kt [.str "p",
    .null,
    .str "\u2022 ",
    .kt [.str "inlineCode", .lit [("parentName", "p")], .str "Optional"],
    .str " ",
    .kt [.str "strong", .lit [("parentName", "p")], .str "color"],
    .str ": ",
    .kt [.str "inlineCode", .lit [("parentName", "p")], .str "string"]],
  .kt [.str "p",
    .null,
    .str "Optional color value for certain data item. If missed, color from options is used"],
  .kt [.str "hr", .null],
  .kt [.str "h3", .lit [("id", "time")], .str "time"],
  .kt [.str "p",
    .null,
    .str "\u2022 ",
    .kt [.str "strong", .lit [("parentName", "p")], .str "time"],
    .str ": ",
    .kt [.str "a",
      .lit [("parentName", "p"), ("href", "/lightweight-charts/docs/4.0/api/#time")],
      .kt [.str "inlineCode", .lit [("parentName", "a")], .str "Time"]]],
  .kt [.str "p", .null, .str "The bar time."],
  .kt [.str "h4", .lit [("id", "inherited-from")], .str "Inherited from"],
  .kt [.str "p",
    .null,
    .kt [.str "a",
      .lit [("parentName", "p"), ("href", "/lightweight-charts/docs/4.0/api/interfaces/OhlcData")],
      .str "OhlcData"],
    .str ".",
    .kt [.str "a",
      .lit [("parentName", "p"), ("href", "/lightweight-charts/docs/4.0/api/interfaces/OhlcData#time")],
      .str "time"]],
  .kt [.str "hr", .null],
  .kt [.str "h3", .lit [("id", "open")], .str "open"],
  .kt [.str "p",
    .null,
    .str "\u2022 ",
    .kt [.str "strong", .lit [("parentName", "p")], .str "open"],
    .str ": ",
    .kt [.str "inlineCode", .lit [("parentName", "p")], .str "number"]],
  .kt [.str "p", .null, .str "The open price."],
  .kt [.str "h4", .lit [("id", "inherited-from-1")], .str "Inherited from"],
  .kt [.str "p",
    .null,
    .kt [.str "a",
      .lit [("parentName", "p"), ("href", "/lightweight-charts/docs/4.0/api/interfaces/OhlcData")],
      .str "OhlcData"],
    .str ".",
    .kt [.str "a",
      .lit [("parentName", "p"), ("href", "/lightweight-charts/docs/4.0/api/interfaces/OhlcData#open")],
      .str "open"]],
  .kt [.str "hr", .null],
  .kt [.str "h3", .lit [("id", "high")], .str "high"],
  .kt [.str "p",
    .null,
    .str "\u2022 ",
    .kt [.str "strong", .lit [("parentName", "p")], .str "high"],
    .str ": ",
    .kt [.str "inlineCode", .lit [("parentName", "p")], .str "number"]],
  .kt [.str "p", .null, .str "The high price."],
  .kt [.str "h4", .lit [("id", "inherited-from-2")], .str "Inherited from"],
  .kt [.str "p",
    .null,
    .kt [.str "a",
      .lit [("parentName", "p"), ("href", "/lightweight-charts/docs/4.0/api/interfaces/OhlcData")],
      .str "OhlcData"],
    .str ".",
    .kt [.str "a",
      .lit [("parentName", "p"), ("href", "/lightweight-charts/docs/4.0/api/interfaces/OhlcData#high")],
      .str "high"]],
  .kt [.str "hr", .null],
  .kt [.str "h3", .lit [("id", "low")], .str "low"],
  .kt [.str "p",
    .null,
    .str "\u2022 ",
    .kt [.str "strong", .lit [("parentName", "p")], .str "low"],
    .str ": ",
    .kt [.str "inlineCode", .lit [("parentName", "p")], .str "number"]],
  .kt [.str "p", .null, .str "The low price."],
  .kt [.str "h4", .lit [("id", "inherited-from-3")], .str "Inherited from"],
  .kt [.str "p",
    .null,
    .kt [.str "a",
      .lit [("parentName", "p"), ("href", "/lightweight-charts/docs/4.0/api/interfaces/OhlcData")],
      .str "OhlcData"],
    .str ".",
    .kt [.str "a",
      .lit [("parentName", "p"), ("href", "/lightweight-charts/docs/4.0/api/interfaces/OhlcData#low")],
      .str "low"]],
  .kt [.str "hr", .null],
  .kt [.str "h3", .lit [("id", "close")], .str "close"],
  .kt [.str "p",
    .null,
    .str "\u2022 ",
    .kt [.str "strong", .lit [("parentName", "p")], .str "close"],
    .str ": ",
    .kt [.str "inlineCode", .lit [("parentName", "p")], .str "number"]],
  .kt [.str "p", .null, .str "The close price."],
  .kt [.str "h4", .lit [("id", "inherited-from-4")], .str "Inherited from"],
  .kt [.str "p",
    .null,
    .kt [.str "a",
      .lit [("parentName", "p"), ("href", "/lightweight-charts/docs/4.0/api/interfaces/OhlcData")],
      .str "OhlcData"],
    .str ".",
    .kt [.str "a",
      .lit [("parentName", "p"), ("href", "/lightweight-charts/docs/4.0/api/interfaces/OhlcData#close")],
      .str "close"]]]

/-- Source: `function d(e)` (the default export); `d` is the module variable that holds the
object with the `toc`. -/
def d (h : Store) (d e : HVal) : Except HError (HVal × Store) := do
  let t ← get h e "components"
  let (r, h) := restWithout h e ["components"]
  let (target, h) := alloc h (.obj [])
  let (last, h) := alloc h (.obj [("components", t), ("mdxType", .str "MDXLayout")])
  let (config, h) := Z7462 h target [d, r, last]
  let (children, h) := evalList Chunk8648.H3905.f body h
  pure (Chunk8648.H3905.f h ([.str "wrapper", config] ++ children))

end Chunk8648.H27877

namespace Chunk8648

open Heap

/-- React renders the layout of the page of module 27877 on the store: the page function,
then the MDXCreateElement element it returns. -/
def renderLayoutH (env : HEnv) (h : Store) (d ctx props : HVal) :
    Except HError (HVal × Store) := do
  let (el, h) ← H27877.d h d props
  renderStep (fun h e t => H3905.u env h ctx e t) H3905.wrapper env h el

/-- React renders the page of module 27877 on the store: the layout, then the element of
the layout component. -/
def renderPageH (env : HEnv) (h : Store) (d ctx props : HVal) :
    Except HError (HVal × Store) := do
  let (el, h) ← renderLayoutH env h d ctx props
  renderStep (fun h e t => H3905.u env h ctx e t) H3905.wrapper env h el

end Chunk8648
/-! ### Module 3905 of chunk 6262, on the store -/

namespace Chunk6262.H3905

open Heap

/-- Source: `function n(e,t,r)`. -/
def n (h : Store) (e : HVal) (t : String) (r : HVal) : Store :=
  if hasProp h e t then defineProperty h e t r else put h e t r

/-- Source: `function i(e,t)`. -/
def i (h : Store) (e : HVal) (_t : Bool) : List String := keys h e

/-- One round of the loop of `l`, for the argument at index `t`; a `null` or `undefined`
argument is replaced by a new empty object. -/
def lArg (h : Store) (e : HVal) (t : Nat) (arg : HVal) : Store :=
  let (r, h) := if !isNullish arg then (arg, h) else alloc h (.obj [])
  if t % 2 = 1 then (i h r true).foldl (fun h k => n h e k (getProp h r k)) h
  else defineProperties h e r

/-- The loop `for (var t = 1; t < arguments.length; t++)` of `l`. -/
def lLoop : Store → HVal → Nat → List HVal → Store
  | h, _, _, [] => h
  | h, e, t, arg :: rest => lLoop (lArg h e t arg) e (t + 1) rest

/-- Source: `function l(e)`, object spread into the cell of `e`; it returns `e`. -/
def l (h : Store) (e : HVal) (args : List HVal) : HVal × Store := (e, lLoop h e 1 args)

/-- Source: `function o(e,t)`, a new object with the properties of `e` whose keys are
not in `t`. -/
def o (h : Store) (e : HVal) (t : List String) : HVal × Store :=
  if isNullish e then alloc h (.obj [])
  else
    let (o, h) := alloc h (.obj [])
    (o, (keys h e).foldl (fun h r => if r ∈ t then h else put h o r (getProp h e r)) h)

/-- Source: `d.wrapper`. -/
def wrapper (h : Store) (e : HVal) : Except HError (HVal × Store) := do
  let t ← get h e "children"
  let (config, h) := alloc h (.obj [])
  pure (createElement h [.fragment, config, t])

/-- Source: `d`, the default components (a constant object, kept as a list). -/
def d : HProps := [("inlineCode", .str "code"), ("wrapper", .wrapperFn)]

/-- Source: `c="mdxType"`. -/
def c : String := "mdxType"

/-- The call `e(t)` of a value with `typeof e == "function"`. -/
def callFn (env : HEnv) (h : Store) (e t : HVal) : Except HError (HVal × Store) :=
  match e with
  | .fn k => env k t h
  | .wrapperFn => wrapper h t
  | _ => .error .typeError

/-- Source: `u`, the merge routine (useMDXComponents). -/
def u (env : HEnv) (h : Store) (ctx : HVal) (e : HVal) : Except HError (HVal × Store) :=
  let t := ctx
  if truthy e then
    if typeof e = "function" then callFn env h e t
    else
      let (o, h) := alloc h (.obj [])
      let (o, h) := l h o [t]
      .ok (l h o [e])
  else .ok (t, h)

/-- Source: the expression `d[parentName + "." + mdxType] || d[mdxType] || defaults[mdxType]
|| originalType` in the render function of MDXCreateElement. -/
def resolve (h : Store) (merged mdxType parentName originalType : HVal) :
    Except HError HVal := do
  let m1 ← getMember h merged (toStr parentName ++ "." ++ toStr mdxType)
  if truthy m1 then pure m1 else do
    let m2 ← getMember h merged (toStr mdxType)
    if truthy m2 then pure m2 else pure (jsOr (memberOf d (toStr mdxType)) originalType)

/-- Source: the `return` expression of the render function of MDXCreateElement: the props
are spread into new objects and the element is created. -/
def finish (h : Store) (m components rest t : HVal) : HVal × Store :=
  if truthy components then
    let (o1, h) := alloc h (.obj [("ref", t)])
    let (o1, h) := l h o1 [rest]
    let (o2, h) := alloc h (.obj [])
    let (o3, h) := alloc h (.obj [("components", components)])
    let (config, h) := l h o1 [o2, o3]
    createElement h [m, config]
  else
    let (o1, h) := alloc h (.obj [("ref", t)])
    let (config, h) := l h o1 [rest]
    createElement h [m, config]

/-- Source: the render function given to `forwardRef` for `m` (MDXCreateElement);
the lookup is `resolve` and the `return` expression is `finish`. -/
def m (env : HEnv) (h : Store) (ctx : HVal) (e t : HVal) :
    Except HError (HVal × Store) := do
  let components ← get h e "components"
  let mdxType ← get h e "mdxType"
  let originalType ← get h e "originalType"
  let parentName ← get h e "parentName"
  let (rest, h) := o h e ["components", "mdxType", "originalType", "parentName"]
  let (merged, h) ← u env h ctx components
  let m ← resolve h merged mdxType parentName originalType
  pure (finish h m components rest t)

/-- Source: `function f(e,t)` (exported as `kt`); `r` is `arguments`. -/
def f (h : Store) (r : List HVal) : HVal × Store :=
  let e := r.getD 0 .undefined
  let t := r.getD 1 .undefined
  let mdxType := jsAnd t (getProp h t "mdxType")
  if typeof e = "string" ∨ truthy mdxType = true then
    let (config, h) := alloc h (.obj [])
    let h := (keys h t).foldl (fun h u => put h config u (getProp h t u)) h
    let h := put h config "originalType" e
    let h := put h config c (if typeof e = "string" then e else mdxType)
    createElement h ([.mdxCreateElement, config] ++ r.drop 2)
  else createElement h r

end Chunk6262.H3905

/-! ### Module 5796 of chunk 6262, on the store -/

namespace Chunk6262.H5796

open Heap

/-- Source: the argument expressions after the props in the layout call of `d`. -/
def body : List Expr :=
  [
  .kt [.str "p", .null, .str "Structure describing a single item of data for area series"],
  .kt [.str "h2", .lit [("id", "hierarchy")], .str "Hierarchy"],
  .kt [.str "ul",
    .null,
    .kt [.str "li",
      .lit [("parentName", "ul")],
      .kt [.str "p",
        .lit [("parentName", "li")],
        .kt [.str "a",
          .lit [("parentName", "p"), ("href", "/lightweight-charts/docs/next/api/interfaces/SingleValueData")],
          .kt [.str "inlineCode", .lit [("parentName", "a")], .str "SingleValueData"]]],
      .kt [.str "p",
        .lit [("parentName", "li")],
        .str "\u21b3 ",
        .kt [.str "strong",
          .lit [("parentName", "p")],
          .kt [.str "inlineCode", .lit [("parentName", "strong")], .str "AreaData"]]]]],
  .kt [.str "h2", .lit [("id", "properties")], .str "Properties"],
  .kt [.str "h3", .lit [("id", "linecolor")], .str "lineColor"],
  .kt [.str "p",
    .null,
    .str "\u2022 ",
    .kt [.str "inlineCode", .lit [("parentName", "p")], .str "Optional"],
    .str " ",
    .kt [.str "strong", .lit [("parentName", "p")], .str "lineColor"],
    .str ": ",
    .kt [.str "inlineCode", .lit [("parentName", "p")], .str "string"]],
  .kt [.str "p",
    .null,
    .str "Optional line color value for certain data item. If missed, color from options is used"],
  .kt [.str "hr", .null],
  .kt [.str "h3", .lit [("id", "topcolor")], .str "topColor"],
  .kt [.str "p",
    .null,
    .str "\u2022 ",
    .kt [.str "inlineCode", .lit [("parentName", "p")], .str "Optional"],
    .str " ",
    .kt [.str "strong", .lit [("parentName", "p")], .str "topColor"],
    .str ": ",
    .kt [.str "inlineCode", .lit [("parentName", "p")], .str "string"]],
  .kt [.str "p",
    .null,
    .str "Optional top color value for certain data item. If missed, color from options is used"],
  .kt [.str "hr", .null],
  .kt [.str "h3", .lit [("id", "bottomcolor")], .str "bottomColor"],
  .kt [.str "p",
    .null,
    .str "\u2022 ",
    .kt [.str "inlineCode", .lit [("parentName", "p")], .str "Optional"],
    .str " ",
    .kt [.str "strong", .lit [("parentName", "p")], .str "bottomColor"],
    .str ": ",
    .kt [.str "inlineCode", .lit [("parentName", "p")], .str "string"]],
  .kt [.str "p",
    .null,
    .str "Optional bottom color value for certain data item. If missed, color from options is used"],
  .kt [.str "hr", .null],
  .kt [.str "h3", .lit [("id", "value")], .str "value"],
  .kt [.str "p",
    .null,
    .str "\u2022 ",
    .kt [.str "strong", .lit [("parentName", "p")], .str "value"],
    .str ": ",
    .kt [.str "inlineCode", .lit [("parentName", "p")], .str "number"]],
  .kt [.str "p", .null, .str "Price value of the data."],
  .kt [.str "h4", .lit [("id", "inherited-from")], .str "Inherited from"],
  .kt [.str "p",
    .null,
    .kt [.str "a",
      .lit [("parentName", "p"), ("href", "/lightweight-charts/docs/next/api/interfaces/SingleValueData")],
      .str "SingleValueData"],
    .str ".",
    .kt [.str "a",
      .lit [("parentName", "p"), ("href", "/lightweight-charts/docs/next/api/interfaces/SingleValueData#value")],
      .str "value"]],
  .kt [.str "hr", .null],
  .kt [.str "h3", .lit [("id", "time")], .str "time"],
  .kt [.str "p",
    .null,
    .str "\u2022 ",
    .kt [.str "strong", .lit [("parentName", "p")], .str "time"],
    .str ": ",
    .kt [.str "a",
      .lit [("parentName", "p"), ("href", "/lightweight-charts/docs/next/api/#time")],
      .kt [.str "inlineCode", .lit [("parentName", "a")], .str "Time"]]],
  .kt [.str "p", .null, .str "The time of the data."],
  .kt [.str "h4", .lit [("id", "inherited-from-1")], .str "Inherited from"],
  .kt [.str "p",
    .null,
    .kt [.str "a",
      .lit [("parentName", "p"), ("href", "/lightweight-charts/docs/next/api/interfaces/SingleValueData")],
      .str "SingleValueData"],
    .str ".",
    .kt [.str "a",
      .lit [("parentName", "p"), ("href", "/lightweight-charts/docs/next/api/interfaces/SingleValueData#time")],
      .str "time"]],
  .kt [.str "hr", .null],
  .kt [.str "h3", .lit [("id", "customvalues")], .str "customValues"],
  .kt [.str "p",
    .null,
    .str "\u2022 ",
    .kt [.str "inlineCode", .lit [("parentName", "p")], .str "Optional"],
    .str " ",
    .kt [.str "strong", .lit [("parentName", "p")], .str "customValues"],
    .str ": ",
    .kt [.str "inlineCode", .lit [("parentName", "p")], .str "Record"],
    .str "<",
    .kt [.str "inlineCode", .lit [("parentName", "p")], .str "string"],
    .str ", ",
    .kt [.str "inlineCode", .lit [("parentName", "p")], .str "unknown"],
    .str ">"],
  .kt [.str "p",
    .null,
    .str "Additional custom values which will be ignored by the library, but\ncould be used by plugins."],
  .kt [.str "h4", .lit [("id", "inherited-from-2")], .str "Inherited from"],
  .kt [.str "p",
    .null,
    .kt [.str "a",
      .lit [("parentName", "p"), ("href", "/lightweight-charts/docs/next/api/interfaces/SingleValueData")],
      .str "SingleValueData"],
    .str ".",
    .kt [.str "a",
      .lit [("parentName", "p"), ("href", "/lightweight-charts/docs/next/api/interfaces/SingleValueData#customvalues")],
      .str "customValues"]]]

/-- Source: `function d(e)` (the default export); `d` is the module variable that holds the
object with the `toc`. -/
def d (h : Store) (d e : HVal) : Except HError (HVal × Store) := do
  let t ← get h e "components"
  let (r, h) := restWithout h e ["components"]
  let (target, h) := alloc h (.obj [])
  let (last, h) := alloc h (.obj [("components", t), ("mdxType", .str "MDXLayout")])
  let (config, h) := Z7462 h target [d, r, last]
  let (children, h) := evalList Chunk6262.H3905.f body h
  pure (Chunk6262.H3905.f h ([.str "wrapper", config] ++ children))

end Chunk6262.H5796

namespace Chunk6262

open Heap

/-- React renders the layout of the page of module 5796 on the store: the page function,
then the MDXCreateElement element it returns. -/
def renderLayoutH (env : HEnv) (h : Store) (d ctx props : HVal) :
    Except HError (HVal × Store) := do
  let (el, h) ← H5796.d h d props
  renderStep (fun h e t => H3905.m env h ctx e t) H3905.wrapper env h el

/-- React renders the page of module 5796 on the store: the layout, then the element of
the layout component. -/
def renderPageH (env : HEnv) (h : Store) (d ctx props : HVal) :
    Except HError (HVal × Store) := do
  let (el, h) ← renderLayoutH env h d ctx props
  renderStep (fun h e t => H3905.m env h ctx e t) H3905.wrapper env h el

end Chunk6262

/-! ### Concrete stores used to exercise the theorems -/

namespace Example

open Heap

/-- An environment whose functions return their argument and leave the store as it is. -/
def envId : HEnv := fun _ v h => .ok (v, h)

/-- A store with the object holding an empty `toc`, the `toc` array, a props object and an
inherited collection. -/
def store : Store :=
  [.obj [("toc", .ref 1)], .arr [], .obj [("title", .str "x")], .obj [("h2", .fn 1)]]

end Example

/-! ### Relocation of the cells allocated by a call -/

namespace Heap

/-- The value `v` with every reference to an address from `n` on moved up by `k`. -/
def shiftV (n k : Nat) : HVal → HVal
  | .ref a => .ref (if a < n then a else a + k)
  | v => v

/-- The properties `ps` with their values moved by `shiftV`. -/
def shiftProps (n k : Nat) (ps : HProps) : HProps := ps.map (fun kv => (kv.1, shiftV n k kv.2))

/-- The cell `c` with the values in it moved by `shiftV`. -/
def shiftCell (n k : Nat) : Cell → Cell
  | .obj ps => .obj (shiftProps n k ps)
  | .arr items => .arr (items.map (shiftV n k))
  | .elem type config children =>
    .elem (shiftV n k type) (shiftV n k config) (children.map (shiftV n k))

/-- The store `h` with the cells `ext` inserted at address `n`: the cells of `h` below `n`
stay, the cells of `h` from `n` on move up by the length of `ext`, and the references in them
move with them. -/
def reloc (n : Nat) (ext h : Store) : Store :=
  h.take n ++ ext ++ (h.drop n).map (shiftCell n ext.length)

/-- The value `v` does not refer to a cell from address `n` on. -/
def ValidV (n : Nat) : HVal → Prop
  | .ref a => a < n
  | _ => True

/-- No value in the cell `c` refers to a cell from address `n` on. -/
def ValidCell (n : Nat) : Cell → Prop
  | .obj ps => ∀ kv ∈ ps, ValidV n kv.2
  | .arr items => ∀ v ∈ items, ValidV n v
  | .elem type config children => ValidV n type ∧ ValidV n config ∧ ∀ v ∈ children, ValidV n v

/-- The cells of `h` below address `n` only refer to cells below `n`. -/
def ClosedBelow (n : Nat) (h : Store) : Prop :=
  ∀ a c, a < n → h[a]? = some c → ValidCell n c

/-- The store `h` has at least `n` cells, and those below `n` only refer to cells below
`n`. -/
def Good (n : Nat) (h : Store) : Prop := n ≤ h.length ∧ ClosedBelow n h

/-- The functions supplied from outside do not depend on where the cells allocated after
address `n` are: on the relocated store and argument they return the relocated result. -/
def EnvReloc (env : HEnv) : Prop :=
  ∀ n ext i v h r h2, Good n h → env i v h = .ok (r, h2) →
    env i (shiftV n (List.length ext) v) (reloc n ext h)
      = .ok (shiftV n (List.length ext) r, reloc n ext h2)

/-- The outcome `out` of a second call, made on the store `h1` that a first call left when
started on `h0` with result `r1`, is an exact copy of the first: the same result and the same
new cells, moved up by the number of cells the first call allocated, on top of `h1`. -/
def CopyOf (h0 : Store) (r1 : HVal) (h1 : Store) (out : Except HError (HVal × Store)) : Prop :=
  out = .ok (shiftV h0.length (h1.length - h0.length) r1,
    h1 ++ (h1.drop h0.length).map (shiftCell h0.length (h1.length - h0.length)))

end Heap

/-! ## Lemmas on own properties -/

namespace JS

theorem getOwn_setOwn (ps : Props) (k : String) (x : Val) (key : String) :
    getOwn (setOwn ps k x) key = if k = key then x else getOwn ps key := by
  induction ps with
  | nil => simp [setOwn, getOwn]
  | cons hd tl ih =>
    obtain ⟨k0, v0⟩ := hd
    by_cases h0 : k0 = k
    · subst h0
      by_cases h1 : k0 = key <;> simp [setOwn, getOwn, h1]
    · by_cases h1 : k0 = key
      · subst h1
        simp [setOwn, getOwn, h0, Ne.symm h0]
      · simp [setOwn, getOwn, h0, h1, ih]

theorem hasOwn_setOwn (ps : Props) (k : String) (x : Val) (key : String) :
    hasOwn (setOwn ps k x) key = (decide (k = key) || hasOwn ps key) := by
  induction ps with
  | nil => by_cases h : k = key <;> simp [setOwn, hasOwn, h]
  | cons hd tl ih =>
    obtain ⟨k0, v0⟩ := hd
    by_cases h0 : k0 = k
    · subst h0
      by_cases h1 : k0 = key <;> simp [setOwn, hasOwn, h1]
    · by_cases h1 : k0 = key
      · subst h1
        simp [setOwn, hasOwn, h0]
      · simp [setOwn, hasOwn, h0, h1, ih]

theorem mem_keys_obj (ps : Props) (key : String) :
    key ∈ keys (.obj ps) ↔ hasOwn ps key = true := by
  induction ps with
  | nil => simp [keys, ownProps, hasOwn]
  | cons hd tl ih =>
    obtain ⟨k0, v0⟩ := hd
    simp only [keys, ownProps, List.map_cons, List.mem_cons, hasOwn] at ih ⊢
    by_cases h1 : k0 = key
    · simp [h1]
    · simp [h1, Ne.symm h1, ih]

theorem getOwn_copyStep (g : String → Val) (excl : List String) (acc : Props)
    (k key : String) :
    getOwn (if k ∈ excl then acc else setOwn acc k (g k)) key
      = if k = key ∧ key ∉ excl then g key else getOwn acc key := by
  by_cases he : k ∈ excl
  · by_cases hkk : k = key
    · subst hkk; simp [he]
    · simp [he, hkk]
  · by_cases hkk : k = key
    · subst hkk; simp [he, getOwn_setOwn]
    · simp [he, hkk, getOwn_setOwn]

theorem hasOwn_copyStep (g : String → Val) (excl : List String) (acc : Props)
    (k key : String) :
    hasOwn (if k ∈ excl then acc else setOwn acc k (g k)) key
      = (decide (k = key ∧ key ∉ excl) || hasOwn acc key) := by
  by_cases he : k ∈ excl
  · by_cases hkk : k = key
    · subst hkk; simp [he]
    · simp [he, hkk]
  · by_cases hkk : k = key
    · subst hkk; simp [he, hasOwn_setOwn]
    · simp [he, hkk, hasOwn_setOwn]

/-- Copying, in the order of `ks`, the values `g k` of the keys outside `excl`. -/
theorem getOwn_foldl_copy (g : String → Val) (excl ks : List String) (acc : Props)
    (key : String) :
    getOwn (ks.foldl (fun acc k => if k ∈ excl then acc else setOwn acc k (g k)) acc) key
      = if key ∈ ks ∧ key ∉ excl then g key else getOwn acc key := by
  induction ks generalizing acc with
  | nil => simp
  | cons k ks ih =>
    rw [List.foldl_cons, ih, getOwn_copyStep]
    by_cases hkk : k = key
    · subst hkk
      by_cases hk : k ∈ ks <;> by_cases he : k ∈ excl <;> simp [hk, he]
    · have hkk2 : ¬ key = k := fun h => hkk h.symm
      by_cases hk : key ∈ ks <;> by_cases he : key ∈ excl <;> simp [hk, he, hkk, hkk2]

theorem hasOwn_foldl_copy (g : String → Val) (excl ks : List String) (acc : Props)
    (key : String) :
    hasOwn (ks.foldl (fun acc k => if k ∈ excl then acc else setOwn acc k (g k)) acc) key
      = (decide (key ∈ ks ∧ key ∉ excl) || hasOwn acc key) := by
  induction ks generalizing acc with
  | nil => simp
  | cons k ks ih =>
    rw [List.foldl_cons, ih, hasOwn_copyStep]
    by_cases hkk : k = key
    · subst hkk
      by_cases hk : k ∈ ks <;> by_cases he : k ∈ excl <;> simp [hk, he]
    · have hkk2 : ¬ key = k := fun h => hkk h.symm
      by_cases hk : key ∈ ks <;> by_cases he : key ∈ excl <;> simp [hk, he, hkk, hkk2]

/-- Copying every key of `ks`. -/
theorem getOwn_foldl_all (g : String → Val) (ks : List String) (acc : Props) (key : String) :
    getOwn (ks.foldl (fun acc k => setOwn acc k (g k)) acc) key
      = if key ∈ ks then g key else getOwn acc key := by
  have h := getOwn_foldl_copy g [] ks acc key
  simpa using h

theorem hasOwn_foldl_all (g : String → Val) (ks : List String) (acc : Props) (key : String) :
    hasOwn (ks.foldl (fun acc k => setOwn acc k (g k)) acc) key
      = (decide (key ∈ ks) || hasOwn acc key) := by
  have h := hasOwn_foldl_copy g [] ks acc key
  simpa using h

end JS

/-! ## Lemmas on the overlay -/

namespace Spec

open JS

theorem getOwn_overlayOne (target : Props) (source : Val) (key : String) :
    getOwn (overlayOne target source) key
      = if key ∈ keys source then getProp source key else getOwn target key := by
  unfold overlayOne
  exact getOwn_foldl_all (fun k => getProp source k) (keys source) target key

theorem hasOwn_overlayOne (target : Props) (source : Val) (key : String) :
    hasOwn (overlayOne target source) key
      = (decide (key ∈ keys source) || hasOwn target key) := by
  unfold overlayOne
  exact hasOwn_foldl_all (fun k => getProp source k) (keys source) target key

theorem getOwn_without (source : Val) (excluded : List String) (key : String) :
    getOwn (without source excluded) key
      = if key ∈ keys source ∧ key ∉ excluded then getProp source key else .undefined := by
  unfold without
  exact getOwn_foldl_copy (fun k => getProp source k) excluded (keys source) [] key

theorem hasOwn_without (source : Val) (excluded : List String) (key : String) :
    hasOwn (without source excluded) key
      = decide (key ∈ keys source ∧ key ∉ excluded) := by
  unfold without
  rw [hasOwn_foldl_copy (fun k => getProp source k) excluded (keys source) [] key]
  simp [hasOwn]

theorem overlayOne_nullish (target : Props) (arg : Val) :
    overlayOne target (if (!isNullish arg) = true then arg else .obj []) = overlayOne target arg := by
  cases arg <;> simp [isNullish, overlayOne, keys, ownProps]

theorem isOverlay_overlay (t e : Props) :
    IsOverlay t e (overlay [] [.obj t, .obj e]) := by
  simp only [overlay, List.foldl_cons, List.foldl_nil]
  refine ⟨?_, ?_, ?_⟩
  · intro k hk
    have hm : k ∈ keys (.obj e) := (mem_keys_obj e k).2 hk
    simp [getOwn_overlayOne, hasOwn_overlayOne, hm, getProp, ownProps]
  · intro k hk he
    have hm : k ∈ keys (.obj t) := (mem_keys_obj t k).2 hk
    have hn : ¬ k ∈ keys (.obj e) := fun h => by
      have := (mem_keys_obj e k).1 h
      simp [he] at this
    simp [getOwn_overlayOne, hasOwn_overlayOne, hm, hn, getProp, ownProps]
  · intro k hk
    simp only [hasOwn_overlayOne, Bool.or_eq_true, decide_eq_true_eq, mem_keys_obj] at hk
    rcases hk with h | h | h
    · exact Or.inr h
    · exact Or.inl h
    · simp [hasOwn] at h

end Spec

/-! ## The three copies of module 3905 against the overlay -/

namespace Chunk5923.M3905

open JS Spec

theorem defprop_eq_5923 (e : Props) (t : String) (r : Val) : o e t r = setOwn e t r := by
  unfold o defineProperty put; split <;> rfl

theorem lArg_eq_5923 (e : Props) (t : Nat) (arg : Val) : lArg e t arg = overlayOne e arg := by
  unfold lArg
  simp only [i, defineProperties, defprop_eq_5923]
  split <;> exact overlayOne_nullish e arg

theorem lLoop_eq_5923 (e : Props) (t : Nat) (args : List Val) :
    lLoop e t args = overlay e args := by
  induction args generalizing e t with
  | nil => rfl
  | cons x xs ih => simp [lLoop, ih, lArg_eq_5923, overlay]

theorem l_eq_5923 (e : Props) (args : List Val) : l e args = overlay e args :=
  lLoop_eq_5923 e 1 args

theorem omit_eq_5923 (e : Val) (t : List String) : a e t = without e t := by
  unfold a without put
  cases e <;> simp [isNullish, keys, ownProps]

end Chunk5923.M3905

namespace Chunk8648.M3905

open JS Spec

theorem defprop_eq_8648 (e : Props) (t : String) (r : Val) : n e t r = setOwn e t r := by
  unfold n defineProperty put; split <;> rfl

theorem lArg_eq_8648 (e : Props) (t : Nat) (arg : Val) : lArg e t arg = overlayOne e arg := by
  unfold lArg
  simp only [i, defineProperties, defprop_eq_8648]
  split <;> exact overlayOne_nullish e arg

theorem lLoop_eq_8648 (e : Props) (t : Nat) (args : List Val) :
    lLoop e t args = overlay e args := by
  induction args generalizing e t with
  | nil => rfl
  | cons x xs ih => simp [lLoop, ih, lArg_eq_8648, overlay]

theorem l_eq_8648 (e : Props) (args : List Val) : l e args = overlay e args :=
  lLoop_eq_8648 e 1 args

theorem omit_eq_8648 (e : Val) (t : List String) : o e t = without e t := by
  unfold o without put
  cases e <;> simp [isNullish, keys, ownProps]

end Chunk8648.M3905

namespace Chunk6262.M3905

open JS Spec

theorem defprop_eq_6262 (e : Props) (t : String) (r : Val) : n e t r = setOwn e t r := by
  unfold n defineProperty put; split <;> rfl

theorem lArg_eq_6262 (e : Props) (t : Nat) (arg : Val) : lArg e t arg = overlayOne e arg := by
  unfold lArg
  simp only [i, defineProperties, defprop_eq_6262]
  split <;> exact overlayOne_nullish e arg

theorem lLoop_eq_6262 (e : Props) (t : Nat) (args : List Val) :
    lLoop e t args = overlay e args := by
  induction args generalizing e t with
  | nil => rfl
  | cons x xs ih => simp [lLoop, ih, lArg_eq_6262, overlay]

theorem l_eq_6262 (e : Props) (args : List Val) : l e args = overlay e args :=
  lLoop_eq_6262 e 1 args

theorem omit_eq_6262 (e : Val) (t : List String) : o e t = without e t := by
  unfold o without put
  cases e <;> simp [isNullish, keys, ownProps]

end Chunk6262.M3905

/-! ## The merge routine -/

open JS in
theorem merge_obj_5923 (env : FnEnv) (t : Val) (e : Props) :
    Chunk5923.M3905.p env t (.obj e) = .ok (.obj (Spec.overlay [] [t, .obj e])) := by
  simp [Chunk5923.M3905.p, truthy, typeof, Chunk5923.M3905.l_eq_5923, Spec.overlay]

open JS in
theorem merge_obj_8648 (env : FnEnv) (t : Val) (e : Props) :
    Chunk8648.M3905.c env t (.obj e) = .ok (.obj (Spec.overlay [] [t, .obj e])) := by
  simp [Chunk8648.M3905.c, truthy, typeof, Chunk8648.M3905.l_eq_8648, Spec.overlay]

open JS in
theorem merge_obj_6262 (env : FnEnv) (t : Val) (e : Props) :
    Chunk6262.M3905.u env t (.obj e) = .ok (.obj (Spec.overlay [] [t, .obj e])) := by
  simp [Chunk6262.M3905.u, truthy, typeof, Chunk6262.M3905.l_eq_6262, Spec.overlay]

open JS in
/-- C1: for an inherited collection `t` and a page-local collection `e` given as an object,
the merge routine of each of the three copies of module 3905 returns the overlay of `e` over
`t`: every key of `e` with the value of `e`, every key of `t` not in `e` with the value of `t`,
and no other key; on a key of both, the page-local value wins. -/
theorem merge_favors_page_local (env : FnEnv) (t e : Props) :
    (∃ r, Chunk5923.M3905.p env (.obj t) (.obj e) = .ok (.obj r) ∧ Spec.IsOverlay t e r) ∧
    (∃ r, Chunk8648.M3905.c env (.obj t) (.obj e) = .ok (.obj r) ∧ Spec.IsOverlay t e r) ∧
    (∃ r, Chunk6262.M3905.u env (.obj t) (.obj e) = .ok (.obj r) ∧ Spec.IsOverlay t e r) :=
  ⟨⟨_, merge_obj_5923 env (.obj t) e, Spec.isOverlay_overlay t e⟩,
   ⟨_, merge_obj_8648 env (.obj t) e, Spec.isOverlay_overlay t e⟩,
   ⟨_, merge_obj_6262 env (.obj t) e, Spec.isOverlay_overlay t e⟩⟩

/-! ## Component lookup in MDXCreateElement -/

namespace JS

theorem get_obj (ps : Props) (key : String) : get (.obj ps) key = .ok (getOwn ps key) := rfl

theorem getMember_obj (ps : Props) (key : String) :
    getMember (.obj ps) key = .ok (member (.obj ps) key) := rfl

theorem ne_of_dot (nm s t : String) (h : ¬ '.' ∈ nm.data) : ¬ nm = s ++ "." ++ t := by
  intro he
  apply h
  rw [he]
  simp [String.data_append]

/-- A qualified name `s.t` is not the name of a member of `Object.prototype`. -/
theorem qualified_not_member (s t : String) :
    hasOwn objectPrototype (s ++ "." ++ t) = false := by
  simp only [objectPrototype, hasOwn]
  rw [if_neg (ne_of_dot _ s t (by decide)), if_neg (ne_of_dot _ s t (by decide)),
    if_neg (ne_of_dot _ s t (by decide)), if_neg (ne_of_dot _ s t (by decide)),
    if_neg (ne_of_dot _ s t (by decide)), if_neg (ne_of_dot _ s t (by decide)),
    if_neg (ne_of_dot _ s t (by decide)), if_neg (ne_of_dot _ s t (by decide)),
    if_neg (ne_of_dot _ s t (by decide)), if_neg (ne_of_dot _ s t (by decide)),
    if_neg (ne_of_dot _ s t (by decide)), if_neg (ne_of_dot _ s t (by decide))]

theorem getOwn_of_hasOwn_false (ps : Props) (k : String) (h : hasOwn ps k = false) :
    getOwn ps k = .undefined := by
  induction ps with
  | nil => rfl
  | cons hd tl ih =>
    obtain ⟨k0, v0⟩ := hd
    by_cases h0 : k0 = k
    · simp [hasOwn, h0] at h
    · simp [hasOwn, h0] at h
      simp [getOwn, h0, ih h]

/-- Under a name that `Object.prototype` does not define, the read through the prototype is
the read of the own property. -/
theorem member_of_not_proto (ps : Props) (k : String) (h : hasOwn objectPrototype k = false) :
    member (.obj ps) k = getOwn ps k := by
  unfold member
  simp only [ownProps]
  by_cases ho : hasOwn ps k = true
  · simp [ho]
  · have hf : hasOwn ps k = false := by simpa using ho
    simp [hf, getOwn_of_hasOwn_false _ _ hf, getOwn_of_hasOwn_false _ _ h]

theorem member_qualified (ps : Props) (s t : String) :
    member (.obj ps) (s ++ "." ++ t) = getOwn ps (s ++ "." ++ t) :=
  member_of_not_proto ps _ (qualified_not_member s t)

theorem truthy_getOwn_of_all (ps : Props) (k : String)
    (hall : ∀ kv ∈ ps, truthy kv.2 = true) (h : hasOwn ps k = true) :
    truthy (getOwn ps k) = true := by
  induction ps with
  | nil => simp [hasOwn] at h
  | cons hd tl ih =>
    obtain ⟨k0, v0⟩ := hd
    by_cases h0 : k0 = k
    · simpa [getOwn, h0] using hall (k0, v0) (List.mem_cons_self _ _)
    · simp only [hasOwn, h0, if_false] at h
      simp only [getOwn, h0, if_false]
      exact ih (fun kv hkv => hall kv (List.mem_cons_of_mem _ hkv)) h

/-- Every member of `Object.prototype` is truthy. -/
theorem truthy_objectPrototype (k : String) (h : hasOwn objectPrototype k = true) :
    truthy (getOwn objectPrototype k) = true :=
  truthy_getOwn_of_all objectPrototype k (by simp [objectPrototype, truthy]) h

theorem elemType_createElement (m c : Val) (rest : List Val) :
    Spec.elemType (createElement (m :: c :: rest)) = m := rfl

end JS

open JS in
theorem render_eq_5923 (env : FnEnv) (ctx : Val) (e : Props) (t : Val) (dc : Props)
    (h : Chunk5923.M3905.p env ctx (getOwn e "components") = .ok (.obj dc)) :
    Chunk5923.M3905.d env ctx (.obj e) t = .ok (createElement
      [Spec.lookup dc (getOwn e "mdxType") (getOwn e "parentName") (getOwn e "originalType"),
       .obj (if truthy (getOwn e "components") = true then
          Spec.overlay [("ref", t)]
            [.obj (Spec.without (.obj e) ["components", "mdxType", "originalType", "parentName"]),
             .obj [], .obj [("components", getOwn e "components")]]
        else
          Spec.overlay [("ref", t)]
            [.obj (Spec.without (.obj e)
              ["components", "mdxType", "originalType", "parentName"])])]) := by
  simp only [Chunk5923.M3905.d, get_obj, getMember_obj, bind, Except.bind, h, pure,
    Except.pure, Chunk5923.M3905.l_eq_5923, Chunk5923.M3905.omit_eq_5923]
  simp only [Spec.lookup, Spec.firstTruthy, Spec.defaults, Chunk5923.M3905.s, jsOr,
    Spec.overlay, List.foldl_cons, List.foldl_nil]
  by_cases h1 : truthy (member (.obj dc)
      (toStr (getOwn e "parentName") ++ "." ++ toStr (getOwn e "mdxType"))) = true <;>
    by_cases h2 : truthy (member (.obj dc) (toStr (getOwn e "mdxType"))) = true <;>
    by_cases hc : truthy (getOwn e "components") = true <;>
    simp [h1, h2, hc]

open JS in
theorem render_eq_8648 (env : FnEnv) (ctx : Val) (e : Props) (t : Val) (dc : Props)
    (h : Chunk8648.M3905.c env ctx (getOwn e "components") = .ok (.obj dc)) :
    Chunk8648.M3905.u env ctx (.obj e) t = .ok (createElement
      [Spec.lookup dc (getOwn e "mdxType") (getOwn e "parentName") (getOwn e "originalType"),
       .obj (if truthy (getOwn e "components") = true then
          Spec.overlay [("ref", t)]
            [.obj (Spec.without (.obj e) ["components", "mdxType", "originalType", "parentName"]),
             .obj [], .obj [("components", getOwn e "components")]]
        else
          Spec.overlay [("ref", t)]
            [.obj (Spec.without (.obj e)
              ["components", "mdxType", "originalType", "parentName"])])]) := by
  simp only [Chunk8648.M3905.u, get_obj, getMember_obj, bind, Except.bind, h, pure,
    Except.pure, Chunk8648.M3905.l_eq_8648, Chunk8648.M3905.omit_eq_8648]
  simp only [Spec.lookup, Spec.firstTruthy, Spec.defaults, Chunk8648.M3905.d, jsOr,
    Spec.overlay, List.foldl_cons, List.foldl_nil]
  by_cases h1 : truthy (member (.obj dc)
      (toStr (getOwn e "parentName") ++ "." ++ toStr (getOwn e "mdxType"))) = true <;>
    by_cases h2 : truthy (member (.obj dc) (toStr (getOwn e "mdxType"))) = true <;>
    by_cases hc : truthy (getOwn e "components") = true <;>
    simp [h1, h2, hc]

open JS in
theorem render_eq_6262 (env : FnEnv) (ctx : Val) (e : Props) (t : Val) (dc : Props)
    (h : Chunk6262.M3905.u env ctx (getOwn e "components") = .ok (.obj dc)) :
    Chunk6262.M3905.m env ctx (.obj e) t = .ok (createElement
      [Spec.lookup dc (getOwn e "mdxType") (getOwn e "parentName") (getOwn e "originalType"),
       .obj (if truthy (getOwn e "components") = true then
          Spec.overlay [("ref", t)]
            [.obj (Spec.without (.obj e) ["components", "mdxType", "originalType", "parentName"]),
             .obj [], .obj [("components", getOwn e "components")]]
        else
          Spec.overlay [("ref", t)]
            [.obj (Spec.without (.obj e)
              ["components", "mdxType", "originalType", "parentName"])])]) := by
  simp only [Chunk6262.M3905.m, get_obj, getMember_obj, bind, Except.bind, h, pure,
    Except.pure, Chunk6262.M3905.l_eq_6262, Chunk6262.M3905.omit_eq_6262]
  simp only [Spec.lookup, Spec.firstTruthy, Spec.defaults, Chunk6262.M3905.d, jsOr,
    Spec.overlay, List.foldl_cons, List.foldl_nil]
  by_cases h1 : truthy (member (.obj dc)
      (toStr (getOwn e "parentName") ++ "." ++ toStr (getOwn e "mdxType"))) = true <;>
    by_cases h2 : truthy (member (.obj dc) (toStr (getOwn e "mdxType"))) = true <;>
    by_cases hc : truthy (getOwn e "components") = true <;>
    simp [h1, h2, hc]

open JS in
theorem firstTruthy_defaults (k : String) (o : Val) :
    Spec.firstTruthy [member (.obj Spec.defaults) k] o =
      if k = "inlineCode" then .str "code" else if k = "wrapper" then .wrapperFn
      else if hasOwn objectPrototype k = true then getOwn objectPrototype k else o := by
  by_cases h3 : "inlineCode" = k
  · subst h3; rfl
  · by_cases h4 : "wrapper" = k
    · subst h4; rfl
    · have h3b : ¬ k = "inlineCode" := fun h => h3 h.symm
      have h4b : ¬ k = "wrapper" := fun h => h4 h.symm
      have hm : member (.obj Spec.defaults) k = getOwn objectPrototype k := by
        simp [member, ownProps, Spec.defaults, hasOwn, h3, h4]
      rw [hm, if_neg h3b, if_neg h4b]
      by_cases hp : hasOwn objectPrototype k = true
      · simp [Spec.firstTruthy, hp, truthy_objectPrototype k hp]
      · have hf : hasOwn objectPrototype k = false := by simpa using hp
        simp [Spec.firstTruthy, hf, getOwn_of_hasOwn_false _ _ hf, truthy]

open JS in
/-- The lookup, read by read: the qualified name is never inherited, the name itself is read
through the prototype, and after the two built-in defaults come the members that the
defaults inherit. -/
theorem lookup_cascade (dc : Props) (n p o : Val) :
    Spec.lookup dc n p o =
      (if truthy (getOwn dc (toStr p ++ "." ++ toStr n)) = true then
          getOwn dc (toStr p ++ "." ++ toStr n)
       else if truthy (member (.obj dc) (toStr n)) = true then member (.obj dc) (toStr n)
       else if toStr n = "inlineCode" then .str "code"
       else if toStr n = "wrapper" then .wrapperFn
       else if hasOwn objectPrototype (toStr n) = true then getOwn objectPrototype (toStr n)
       else o) := by
  have hd := firstTruthy_defaults (toStr n) o
  simp only [Spec.lookup, Spec.firstTruthy, member_qualified] at hd ⊢
  rw [hd]

open JS in
/-- Counterexample to C2 as stated: the tag `toString` with an empty merged collection.  The
name is no entry of the collection and has no built-in default, yet the element is not
rendered with the original type: the read `d["toString"]` yields the function that every
plain object inherits from `Object.prototype`. -/
theorem inherited_member_counterexample :
    hasOwn ([] : Props) "undefined.toString" = false ∧ hasOwn ([] : Props) "toString" = false ∧
    hasOwn Spec.defaults "toString" = false ∧
    getOwn Example.propsToString "originalType" = .str "toString" ∧
    Chunk5923.M3905.p Example.envUndefined (.obj [])
        (getOwn Example.propsToString "components") = .ok (.obj []) ∧
    (Chunk5923.M3905.d Example.envUndefined (.obj []) (.obj Example.propsToString) .null).map
        Spec.elemType = .ok (getOwn objectPrototype "toString") ∧
    (Chunk6262.M3905.m Example.envUndefined (.obj []) (.obj Example.propsToString) .null).map
        Spec.elemType = .ok (getOwn objectPrototype "toString") ∧
    getOwn objectPrototype "toString" = .fn 9008 ∧
    Val.fn 9008 ≠ .str "toString" :=
  ⟨rfl, rfl, rfl, rfl, rfl, rfl, rfl, rfl, by simp⟩

open JS in
/-- C2, amended: in each copy of module 3905, for names (`mdxType`, `parentName`) that are
strings or absent, `components` that is absent, an object or a function, an inherited value
that is a plain object, `null` or `undefined`, and a merged collection `dc` that is a plain
object, the render function of MDXCreateElement returns an element whose type is the first truthy value among
`dc[parentName + "." + mdxType]`, `dc[mdxType]`, `defaults[mdxType]` and the original type,
each read going through the prototype: it yields the own entry when there is one and the
member of `Object.prototype` of that name otherwise.  The own entries of the defaults are
exactly `inlineCode: "code"` and `wrapper: the pass-through wrapper`.  Hence a name that
`Object.prototype` does not define and that has no truthy entry in `dc` falls back to its
built-in default when there is one and to the original type otherwise, and a name that
`Object.prototype` defines (`toString`, `constructor`, ...) and that `dc` has no entry for
resolves to the inherited member, not to the original type. -/
theorem lookup_first_truthy (env : FnEnv) (ctx : Val) (e : Props) (t : Val) (dc : Props)
    (hn : Spec.IsName (getOwn e "mdxType")) (hp : Spec.IsName (getOwn e "parentName"))
    (hc : Spec.IsComponents (getOwn e "components")) (hx : Spec.IsProps ctx)
    (h1 : Chunk5923.M3905.p env ctx (getOwn e "components") = .ok (.obj dc))
    (h2 : Chunk8648.M3905.c env ctx (getOwn e "components") = .ok (.obj dc))
    (h3 : Chunk6262.M3905.u env ctx (getOwn e "components") = .ok (.obj dc)) :
    (∃ el, Chunk5923.M3905.d env ctx (.obj e) t = .ok el ∧ Spec.elemType el =
      Spec.lookup dc (getOwn e "mdxType") (getOwn e "parentName") (getOwn e "originalType")) ∧
    (∃ el, Chunk8648.M3905.u env ctx (.obj e) t = .ok el ∧ Spec.elemType el =
      Spec.lookup dc (getOwn e "mdxType") (getOwn e "parentName") (getOwn e "originalType")) ∧
    (∃ el, Chunk6262.M3905.m env ctx (.obj e) t = .ok el ∧ Spec.elemType el =
      Spec.lookup dc (getOwn e "mdxType") (getOwn e "parentName") (getOwn e "originalType")) ∧
    Chunk5923.M3905.s = Spec.defaults ∧ Chunk8648.M3905.d = Spec.defaults ∧
    Chunk6262.M3905.d = Spec.defaults ∧
    Spec.lookup dc (getOwn e "mdxType") (getOwn e "parentName") (getOwn e "originalType") =
      (if truthy (getOwn dc (toStr (getOwn e "parentName") ++ "." ++
            toStr (getOwn e "mdxType"))) = true then
          getOwn dc (toStr (getOwn e "parentName") ++ "." ++ toStr (getOwn e "mdxType"))
       else if truthy (member (.obj dc) (toStr (getOwn e "mdxType"))) = true then
          member (.obj dc) (toStr (getOwn e "mdxType"))
       else if toStr (getOwn e "mdxType") = "inlineCode" then .str "code"
       else if toStr (getOwn e "mdxType") = "wrapper" then .wrapperFn
       else if hasOwn objectPrototype (toStr (getOwn e "mdxType")) = true then
          getOwn objectPrototype (toStr (getOwn e "mdxType"))
       else getOwn e "originalType") ∧
    member (.obj dc) (toStr (getOwn e "mdxType")) =
      (if hasOwn dc (toStr (getOwn e "mdxType")) = true then
          getOwn dc (toStr (getOwn e "mdxType"))
       else getOwn objectPrototype (toStr (getOwn e "mdxType"))) ∧
    (hasOwn objectPrototype (toStr (getOwn e "mdxType")) = false →
      Spec.lookup dc (getOwn e "mdxType") (getOwn e "parentName") (getOwn e "originalType") =
        (if truthy (getOwn dc (toStr (getOwn e "parentName") ++ "." ++
              toStr (getOwn e "mdxType"))) = true then
            getOwn dc (toStr (getOwn e "parentName") ++ "." ++ toStr (getOwn e "mdxType"))
         else if truthy (getOwn dc (toStr (getOwn e "mdxType"))) = true then
            getOwn dc (toStr (getOwn e "mdxType"))
         else if toStr (getOwn e "mdxType") = "inlineCode" then .str "code"
         else if toStr (getOwn e "mdxType") = "wrapper" then .wrapperFn
         else getOwn e "originalType")) ∧
    (hasOwn objectPrototype (toStr (getOwn e "mdxType")) = true →
      hasOwn dc (toStr (getOwn e "mdxType")) = false →
      truthy (getOwn dc (toStr (getOwn e "parentName") ++ "." ++
        toStr (getOwn e "mdxType"))) = false →
      Spec.lookup dc (getOwn e "mdxType") (getOwn e "parentName") (getOwn e "originalType") =
        getOwn objectPrototype (toStr (getOwn e "mdxType")) ∧
      truthy (getOwn objectPrototype (toStr (getOwn e "mdxType"))) = true) := by
  have _ := hn
  have _ := hp
  have _ := hc
  have _ := hx
  refine ⟨⟨_, render_eq_5923 env ctx e t dc h1, rfl⟩, ⟨_, render_eq_8648 env ctx e t dc h2, rfl⟩,
    ⟨_, render_eq_6262 env ctx e t dc h3, rfl⟩, rfl, rfl, rfl, lookup_cascade _ _ _ _, rfl,
    ?_, ?_⟩
  · intro hnp
    rw [lookup_cascade, member_of_not_proto dc _ hnp]
    simp [hnp]
  · intro hpm hown hq
    have ht := truthy_objectPrototype _ hpm
    have hm : member (.obj dc) (toStr (getOwn e "mdxType"))
        = getOwn objectPrototype (toStr (getOwn e "mdxType")) := by
      simp [member, ownProps, hown]
    refine ⟨?_, ht⟩
    rw [lookup_cascade, hm]
    simp [hq, ht]

open JS in
/-- Witness of C2: with no page-local components and an inherited entry `p.inlineCode`, the
element for `inlineCode` inside `p` is rendered with that entry. -/
theorem lookup_first_truthy_witness :
    Spec.IsName (getOwn Example.propsInlineCode "mdxType") ∧
    Spec.IsName (getOwn Example.propsInlineCode "parentName") ∧
    Spec.IsComponents (getOwn Example.propsInlineCode "components") ∧
    Spec.IsProps Example.ctxQualified ∧
    Chunk5923.M3905.p Example.envUndefined Example.ctxQualified
        (getOwn Example.propsInlineCode "components")
      = .ok (.obj [("p.inlineCode", .fn 0), ("h2", .fn 1)]) ∧
    ∃ el, Chunk5923.M3905.d Example.envUndefined Example.ctxQualified
        (.obj Example.propsInlineCode) .null = .ok el ∧ Spec.elemType el = .fn 0 :=
  ⟨Or.inr ⟨_, rfl⟩, Or.inr ⟨_, rfl⟩, Or.inl rfl, Or.inr ⟨_, rfl⟩, rfl,
    (lookup_first_truthy Example.envUndefined Example.ctxQualified Example.propsInlineCode
      .null [("p.inlineCode", .fn 0), ("h2", .fn 1)] (Or.inr ⟨_, rfl⟩) (Or.inr ⟨_, rfl⟩)
      (Or.inl rfl) (Or.inr ⟨_, rfl⟩) rfl rfl rfl).1⟩

/-! ## Element creation through `kt` -/

namespace JS

theorem jsAnd_of_truthy (a b : Val) (h : truthy (jsAnd a b) = true) : jsAnd a b = b := by
  unfold jsAnd at h ⊢
  split
  · rfl
  · rename_i hn
    simp [hn] at h

theorem getOwn_of_not_hasOwn (ps : Props) (k : String) (h : hasOwn ps k = false) :
    getOwn ps k = .undefined := by
  induction ps with
  | nil => rfl
  | cons hd tl ih =>
    obtain ⟨k0, v0⟩ := hd
    by_cases h0 : k0 = k
    · simp [hasOwn, h0] at h
    · simp [hasOwn, h0] at h
      simp [getOwn, h0, ih h]

end JS

namespace Spec

open JS

theorem mem_keys (v : Val) (k : String) : k ∈ keys v ↔ hasOwn (ownProps v) k = true := by
  cases v
  case obj ps => exact mem_keys_obj ps k
  all_goals simp [keys, ownProps, hasOwn]

theorem hasOwn_copyAll (t : Val) (k : String) :
    hasOwn (overlayOne [] t) k = hasOwn (ownProps t) k := by
  rw [hasOwn_overlayOne]
  by_cases hh : hasOwn (ownProps t) k = true
  · simp [hh, (mem_keys t k).2 hh]
  · have hn : ¬ k ∈ keys t := fun hm => hh ((mem_keys t k).1 hm)
    simp [hn, hh, hasOwn]

theorem getOwn_copyAll (t : Val) (k : String) :
    getOwn (overlayOne [] t) k = getProp t k := by
  rw [getOwn_overlayOne]
  by_cases hm : k ∈ keys t
  · simp [hm]
  · have hh : hasOwn (ownProps t) k = false := by
      cases h : hasOwn (ownProps t) k
      · rfl
      · exact absurd ((mem_keys t k).2 h) hm
    simp [hm, getOwn, getProp, getOwn_of_not_hasOwn _ _ hh]

theorem ktResult_of_eq (e t : Val) (cs : List Val) (r : Val)
    (h : r = if typeof e = "string" ∨ truthy (jsAnd t (getProp t "mdxType")) = true then
        .elem .mdxCreateElement (.obj (ktConfig e t)) cs
      else createElement (e :: t :: cs)) :
    KtResult e t cs r := by
  by_cases hc : typeof e = "string" ∨ truthy (jsAnd t (getProp t "mdxType")) = true
  · rw [if_pos hc] at h
    refine Or.inl ⟨hc, ktConfig e t, h, ?_, ?_, ?_, ?_, ?_⟩
    · simp [ktConfig, getOwn_setOwn]
    · by_cases hs : typeof e = "string"
      · simp [ktConfig, getOwn_setOwn, hs]
      · have ht : truthy (jsAnd t (getProp t "mdxType")) = true := hc.resolve_left hs
        simp [ktConfig, getOwn_setOwn, hs, jsAnd_of_truthy t _ ht]
    · simp [ktConfig, hasOwn_setOwn]
    · simp [ktConfig, hasOwn_setOwn]
    · intro k h1 h2
      have h1b : ¬ "originalType" = k := fun h => h1 h.symm
      have h2b : ¬ "mdxType" = k := fun h => h2 h.symm
      simp [ktConfig, hasOwn_setOwn, getOwn_setOwn, h1b, h2b, hasOwn_copyAll, getOwn_copyAll]
  · rw [if_neg hc] at h
    have hs : ¬ typeof e = "string" := fun h => hc (Or.inl h)
    have ht : truthy (jsAnd t (getProp t "mdxType")) = false := by
      cases h : truthy (jsAnd t (getProp t "mdxType"))
      · rfl
      · exact absurd (Or.inr h) hc
    exact Or.inr ⟨⟨hs, ht⟩, h⟩

end Spec

open JS in
theorem kt_eq_5923 (e t : Val) (cs : List Val) :
    Chunk5923.M3905.f (e :: t :: cs) =
      if typeof e = "string" ∨ truthy (jsAnd t (getProp t "mdxType")) = true then
        .elem .mdxCreateElement (.obj (Spec.ktConfig e t)) cs
      else createElement (e :: t :: cs) := rfl

open JS in
theorem kt_eq_8648 (e t : Val) (cs : List Val) :
    Chunk8648.M3905.f (e :: t :: cs) =
      if typeof e = "string" ∨ truthy (jsAnd t (getProp t "mdxType")) = true then
        .elem .mdxCreateElement (.obj (Spec.ktConfig e t)) cs
      else createElement (e :: t :: cs) := rfl

open JS in
theorem kt_eq_6262 (e t : Val) (cs : List Val) :
    Chunk6262.M3905.f (e :: t :: cs) =
      if typeof e = "string" ∨ truthy (jsAnd t (getProp t "mdxType")) = true then
        .elem .mdxCreateElement (.obj (Spec.ktConfig e t)) cs
      else createElement (e :: t :: cs) := rfl

/-! ## The page functions -/

open JS in
theorem page_eq_5923 (d : Val) (ps : Props) :
    Chunk5923.M7285.fWith d (.obj ps) = .ok (Spec.pageElem d ps Chunk5923.M7285.body) := rfl

open JS in
theorem page_eq_8648 (d : Val) (ps : Props) :
    Chunk8648.M27877.dWith d (.obj ps) = .ok (Spec.pageElem d ps Chunk8648.M27877.body) := rfl

open JS in
theorem page_eq_6262 (d : Val) (ps : Props) :
    Chunk6262.M5796.dWith d (.obj ps) = .ok (Spec.pageElem d ps Chunk6262.M5796.body) := rfl

/-! ## Rendering a page through the default wrapper -/

namespace Spec

open JS

theorem getProp_of_not_mem_keys (v : Val) (k : String) (h : ¬ k ∈ keys v) :
    getProp v k = .undefined := by
  have hh : hasOwn (ownProps v) k = false := by
    cases h2 : hasOwn (ownProps v) k
    · rfl
    · exact absurd ((mem_keys v k).2 h2) h
  exact getOwn_of_not_hasOwn _ _ hh

theorem getOwn_without_of_not_mem (source : Val) (excluded : List String) (k : String)
    (h : ¬ k ∈ excluded) : getOwn (without source excluded) k = getProp source k := by
  rw [getOwn_without]
  by_cases hm : k ∈ keys source
  · simp [hm, h]
  · simp [hm, getProp_of_not_mem_keys source k hm]

theorem getOwn_without_of_mem (source : Val) (excluded : List String) (k : String)
    (h : k ∈ excluded) : getOwn (without source excluded) k = .undefined := by
  rw [getOwn_without]
  simp [h]

theorem getOwn_overlayOne_obj (target src : Props) (k : String) :
    getOwn (overlayOne target (.obj src)) k
      = if hasOwn src k = true then getOwn src k else getOwn target k := by
  rw [getOwn_overlayOne]
  by_cases hh : hasOwn src k = true
  · simp [hh, (mem_keys_obj src k).2 hh, getProp, ownProps]
  · have hn : ¬ k ∈ keys (.obj src) := fun hm => hh ((mem_keys_obj src k).1 hm)
    simp [hn, hh]

theorem propsOf_many (ty cfg c1 c2 : Val) (cs : List Val) (k : String) :
    getOwn (React.propsOf (.elem ty cfg (c1 :: c2 :: cs))) k
      = if k = "children" then .arr (c1 :: c2 :: cs)
        else getOwn (without cfg ["key", "ref", "__self", "__source"]) k := by
  have h : React.propsOf (.elem ty cfg (c1 :: c2 :: cs))
      = setOwn (without cfg ["key", "ref", "__self", "__source"]) "children"
          (.arr (c1 :: c2 :: cs)) := rfl
  rw [h, getOwn_setOwn]
  by_cases hk : k = "children"
  · subst hk; simp
  · have hk2 : ¬ "children" = k := fun h => hk h.symm
    simp [hk, hk2]

theorem propsOf_none (ty cfg : Val) (k : String) :
    getOwn (React.propsOf (.elem ty cfg [])) k
      = getOwn (without cfg ["key", "ref", "__self", "__source"]) k := rfl

theorem getOwn_layoutProps (tocv : Val) (ps : Props) (k : String)
    (h1 : k ≠ "toc") (h2 : k ≠ "mdxType") :
    getOwn (layoutProps (.obj [("toc", tocv)]) ps) k = getOwn ps k := by
  have h1b : ¬ "toc" = k := fun h => h1 h.symm
  have h2b : ¬ "mdxType" = k := fun h => h2 h.symm
  simp only [layoutProps, overlay, List.foldl_cons, List.foldl_nil, getOwn_overlayOne_obj]
  by_cases hc : k = "components"
  · subst hc
    simp [hasOwn, getOwn]
  · have hcb : ¬ "components" = k := fun h => hc h.symm
    have hex : ¬ k ∈ ["components"] := by simp [hc]
    simp only [hasOwn, hcb, h2b, h1b, if_false, Bool.false_eq_true, getOwn]
    rw [hasOwn_without, getOwn_without_of_not_mem _ _ _ hex]
    by_cases hm : k ∈ keys (.obj ps)
    · simp [hm, hc, getProp, ownProps]
    · simp [hm, hc]
      have := getProp_of_not_mem_keys (.obj ps) k hm
      simpa [getProp, ownProps] using this.symm

theorem getOwn_ktConfig (e t : Val) (k : String) (h1 : k ≠ "originalType")
    (h2 : k ≠ "mdxType") : getOwn (ktConfig e t) k = getProp t k := by
  have h1b : ¬ "originalType" = k := fun h => h1 h.symm
  have h2b : ¬ "mdxType" = k := fun h => h2 h.symm
  simp [ktConfig, getOwn_setOwn, h1b, h2b, getOwn_copyAll]

theorem getOwn_overlayOne_fresh (target src : Props) (k : String)
    (h : getOwn target k = .undefined) :
    getOwn (overlayOne target (.obj src)) k = getOwn src k := by
  rw [getOwn_overlayOne_obj]
  by_cases hh : hasOwn src k = true
  · simp [hh]
  · have hf : hasOwn src k = false := by simpa using hh
    simp [hh, h, getOwn_of_not_hasOwn src k hf]

/-- The props React hands to the component chosen by MDXCreateElement keep the children. -/
theorem children_forwarded (t comps : Val) (P : Props) :
    getOwn (without (.obj (if truthy comps = true then
        overlay [("ref", t)]
          [.obj (without (.obj P) ["components", "mdxType", "originalType", "parentName"]),
           .obj [], .obj [("components", comps)]]
      else
        overlay [("ref", t)]
          [.obj (without (.obj P) ["components", "mdxType", "originalType", "parentName"])]))
      ["key", "ref", "__self", "__source"]) "children" = getOwn P "children" := by
  have hW : getOwn (without (.obj P) ["components", "mdxType", "originalType", "parentName"])
      "children" = getOwn P "children" := by
    rw [getOwn_without_of_not_mem _ _ _ (by decide)]; rfl
  have hR : getOwn [("ref", t)] "children" = .undefined := by simp [getOwn]
  rw [getOwn_without_of_not_mem _ _ _ (by decide)]
  split
  · simp only [overlay, List.foldl_cons, List.foldl_nil, getProp, ownProps]
    rw [getOwn_overlayOne_obj, getOwn_overlayOne_obj, getOwn_overlayOne_fresh _ _ _ hR, hW]
    simp [hasOwn]
  · simp only [overlay, List.foldl_cons, List.foldl_nil, getProp, ownProps]
    rw [getOwn_overlayOne_fresh _ _ _ hR, hW]

/-- The props React hands to MDXCreateElement for the element a page function returns. -/
theorem pageProps (tocv : Val) (ps : Props) (c1 c2 : Val) (cs : List Val) :
    getOwn (React.propsOf (pageElem (.obj [("toc", tocv)]) ps (c1 :: c2 :: cs))) "children"
      = .arr (c1 :: c2 :: cs) ∧
    getOwn (React.propsOf (pageElem (.obj [("toc", tocv)]) ps (c1 :: c2 :: cs))) "mdxType"
      = .str "wrapper" ∧
    getOwn (React.propsOf (pageElem (.obj [("toc", tocv)]) ps (c1 :: c2 :: cs))) "originalType"
      = .str "wrapper" ∧
    getOwn (React.propsOf (pageElem (.obj [("toc", tocv)]) ps (c1 :: c2 :: cs))) "components"
      = getOwn ps "components" ∧
    getOwn (React.propsOf (pageElem (.obj [("toc", tocv)]) ps (c1 :: c2 :: cs))) "parentName"
      = getOwn ps "parentName" := by
  unfold pageElem
  refine ⟨?_, ?_, ?_, ?_, ?_⟩
  · rw [propsOf_many]; simp
  · rw [propsOf_many, if_neg (by decide), getOwn_without_of_not_mem _ _ _ (by decide)]
    simp [getProp, ownProps, ktConfig, getOwn_setOwn, typeof]
  · rw [propsOf_many, if_neg (by decide), getOwn_without_of_not_mem _ _ _ (by decide)]
    simp [getProp, ownProps, ktConfig, getOwn_setOwn]
  · rw [propsOf_many, if_neg (by decide), getOwn_without_of_not_mem _ _ _ (by decide)]
    simp only [getProp, ownProps]
    rw [getOwn_ktConfig _ _ _ (by decide) (by decide)]
    simp only [getProp, ownProps]
    exact getOwn_layoutProps tocv ps "components" (by decide) (by decide)
  · rw [propsOf_many, if_neg (by decide), getOwn_without_of_not_mem _ _ _ (by decide)]
    simp only [getProp, ownProps]
    rw [getOwn_ktConfig _ _ _ (by decide) (by decide)]
    simp only [getProp, ownProps]
    exact getOwn_layoutProps tocv ps "parentName" (by decide) (by decide)

end Spec

open JS in
theorem lookup_wrapper_default (dc : Props) (pn : Val)
    (hq : truthy (getOwn dc (toStr pn ++ "." ++ "wrapper")) = false)
    (hw : truthy (getOwn dc "wrapper") = false) :
    Spec.lookup dc (.str "wrapper") pn (.str "wrapper") = .wrapperFn := by
  have ht : toStr (.str "wrapper") = "wrapper" := rfl
  have hv : member (.obj Spec.defaults) "wrapper" = .wrapperFn := rfl
  have hm1 := member_qualified dc (toStr pn) "wrapper"
  have hm2 : member (.obj dc) "wrapper" = getOwn dc "wrapper" :=
    member_of_not_proto dc _ (by decide)
  simp only [Spec.lookup, Spec.firstTruthy, ht, hm1, hm2, hq, hw, hv]
  simp [truthy]

open JS in
theorem layout_fallback_5923 (tocv : Val) (env : FnEnv) (ctx : Val) (ps dc : Props)
    (hm : Chunk5923.M3905.p env ctx (getOwn ps "components") = .ok (.obj dc))
    (hq : truthy (getOwn dc (toStr (getOwn ps "parentName") ++ "." ++ "wrapper")) = false)
    (hw : truthy (getOwn dc "wrapper") = false) :
    ∃ cfg, Chunk5923.renderLayoutWith (.obj [("toc", tocv)]) env ctx (.obj ps)
        = .ok (.elem .wrapperFn (.obj cfg) []) ∧
      getOwn (React.propsOf (.elem .wrapperFn (.obj cfg) [])) "children"
        = .arr Chunk5923.M7285.body := by
  obtain ⟨c1, c2, cs, hb⟩ : ∃ c1 c2 cs, Chunk5923.M7285.body = c1 :: c2 :: cs :=
    ⟨_, _, _, rfl⟩
  obtain ⟨hch, hmt, hot, hco, hpn⟩ := Spec.pageProps tocv ps c1 c2 cs
  unfold Chunk5923.renderLayoutWith
  rw [page_eq_5923, hb]
  simp only [bind, Except.bind, Spec.pageElem, React.renderStep]
  rw [← hco] at hm
  have hr := render_eq_5923 env ctx _ (React.refOf (Spec.pageElem (.obj [("toc", tocv)]) ps
    (c1 :: c2 :: cs))) dc hm
  simp only [Spec.pageElem] at hr hmt hot hpn hch
  rw [hr, hmt, hot, hpn, lookup_wrapper_default dc _ hq hw]
  refine ⟨_, rfl, ?_⟩
  rw [Spec.propsOf_none, Spec.children_forwarded, hch]

open JS in
theorem render_fallback_5923 (tocv : Val) (env : FnEnv) (ctx : Val) (ps dc : Props)
    (hm : Chunk5923.M3905.p env ctx (getOwn ps "components") = .ok (.obj dc))
    (hq : truthy (getOwn dc (toStr (getOwn ps "parentName") ++ "." ++ "wrapper")) = false)
    (hw : truthy (getOwn dc "wrapper") = false) :
    Chunk5923.renderPageWith (.obj [("toc", tocv)]) env ctx (.obj ps)
      = .ok (.elem .fragment (.obj []) [.arr Chunk5923.M7285.body]) := by
  obtain ⟨cfg, h1, h2⟩ := layout_fallback_5923 tocv env ctx ps dc hm hq hw
  unfold Chunk5923.renderPageWith
  rw [h1]
  simp only [bind, Except.bind, React.renderStep, Chunk5923.M3905.wrapper, get_obj, pure,
    Except.pure, h2]
  rfl

open JS in
theorem layout_fallback_8648 (tocv : Val) (env : FnEnv) (ctx : Val) (ps dc : Props)
    (hm : Chunk8648.M3905.c env ctx (getOwn ps "components") = .ok (.obj dc))
    (hq : truthy (getOwn dc (toStr (getOwn ps "parentName") ++ "." ++ "wrapper")) = false)
    (hw : truthy (getOwn dc "wrapper") = false) :
    ∃ cfg, Chunk8648.renderLayoutWith (.obj [("toc", tocv)]) env ctx (.obj ps)
        = .ok (.elem .wrapperFn (.obj cfg) []) ∧
      getOwn (React.propsOf (.elem .wrapperFn (.obj cfg) [])) "children"
        = .arr Chunk8648.M27877.body := by
  obtain ⟨c1, c2, cs, hb⟩ : ∃ c1 c2 cs, Chunk8648.M27877.body = c1 :: c2 :: cs :=
    ⟨_, _, _, rfl⟩
  obtain ⟨hch, hmt, hot, hco, hpn⟩ := Spec.pageProps tocv ps c1 c2 cs
  unfold Chunk8648.renderLayoutWith
  rw [page_eq_8648, hb]
  simp only [bind, Except.bind, Spec.pageElem, React.renderStep]
  rw [← hco] at hm
  have hr := render_eq_8648 env ctx _ (React.refOf (Spec.pageElem (.obj [("toc", tocv)]) ps
    (c1 :: c2 :: cs))) dc hm
  simp only [Spec.pageElem] at hr hmt hot hpn hch
  rw [hr, hmt, hot, hpn, lookup_wrapper_default dc _ hq hw]
  refine ⟨_, rfl, ?_⟩
  rw [Spec.propsOf_none, Spec.children_forwarded, hch]

open JS in
theorem render_fallback_8648 (tocv : Val) (env : FnEnv) (ctx : Val) (ps dc : Props)
    (hm : Chunk8648.M3905.c env ctx (getOwn ps "components") = .ok (.obj dc))
    (hq : truthy (getOwn dc (toStr (getOwn ps "parentName") ++ "." ++ "wrapper")) = false)
    (hw : truthy (getOwn dc "wrapper") = false) :
    Chunk8648.renderPageWith (.obj [("toc", tocv)]) env ctx (.obj ps)
      = .ok (.elem .fragment (.obj []) [.arr Chunk8648.M27877.body]) := by
  obtain ⟨cfg, h1, h2⟩ := layout_fallback_8648 tocv env ctx ps dc hm hq hw
  unfold Chunk8648.renderPageWith
  rw [h1]
  simp only [bind, Except.bind, React.renderStep, Chunk8648.M3905.wrapper, get_obj, pure,
    Except.pure, h2]
  rfl

open JS in
theorem layout_fallback_6262 (tocv : Val) (env : FnEnv) (ctx : Val) (ps dc : Props)
    (hm : Chunk6262.M3905.u env ctx (getOwn ps "components") = .ok (.obj dc))
    (hq : truthy (getOwn dc (toStr (getOwn ps "parentName") ++ "." ++ "wrapper")) = false)
    (hw : truthy (getOwn dc "wrapper") = false) :
    ∃ cfg, Chunk6262.renderLayoutWith (.obj [("toc", tocv)]) env ctx (.obj ps)
        = .ok (.elem .wrapperFn (.obj cfg) []) ∧
      getOwn (React.propsOf (.elem .wrapperFn (.obj cfg) [])) "children"
        = .arr Chunk6262.M5796.body := by
  obtain ⟨c1, c2, cs, hb⟩ : ∃ c1 c2 cs, Chunk6262.M5796.body = c1 :: c2 :: cs :=
    ⟨_, _, _, rfl⟩
  obtain ⟨hch, hmt, hot, hco, hpn⟩ := Spec.pageProps tocv ps c1 c2 cs
  unfold Chunk6262.renderLayoutWith
  rw [page_eq_6262, hb]
  simp only [bind, Except.bind, Spec.pageElem, React.renderStep]
  rw [← hco] at hm
  have hr := render_eq_6262 env ctx _ (React.refOf (Spec.pageElem (.obj [("toc", tocv)]) ps
    (c1 :: c2 :: cs))) dc hm
  simp only [Spec.pageElem] at hr hmt hot hpn hch
  rw [hr, hmt, hot, hpn, lookup_wrapper_default dc _ hq hw]
  refine ⟨_, rfl, ?_⟩
  rw [Spec.propsOf_none, Spec.children_forwarded, hch]

open JS in
theorem render_fallback_6262 (tocv : Val) (env : FnEnv) (ctx : Val) (ps dc : Props)
    (hm : Chunk6262.M3905.u env ctx (getOwn ps "components") = .ok (.obj dc))
    (hq : truthy (getOwn dc (toStr (getOwn ps "parentName") ++ "." ++ "wrapper")) = false)
    (hw : truthy (getOwn dc "wrapper") = false) :
    Chunk6262.renderPageWith (.obj [("toc", tocv)]) env ctx (.obj ps)
      = .ok (.elem .fragment (.obj []) [.arr Chunk6262.M5796.body]) := by
  obtain ⟨cfg, h1, h2⟩ := layout_fallback_6262 tocv env ctx ps dc hm hq hw
  unfold Chunk6262.renderPageWith
  rw [h1]
  simp only [bind, Except.bind, React.renderStep, Chunk6262.M3905.wrapper, get_obj, pure,
    Except.pure, h2]
  rfl


/-! ## Dispatch: completion and errors -/

open JS in
theorem merge_ok_5923 (env : FnEnv) (ctx comps : Val)
    (h : (truthy comps = false ∧ ∃ c, ctx = .obj c) ∨ (∃ ps, comps = .obj ps) ∨
      (∃ i ps, comps = .fn i ∧ env i ctx = .ok (.obj ps))) :
    ∃ dc, Chunk5923.M3905.p env ctx comps = .ok (.obj dc) := by
  rcases h with ⟨hf, c, rfl⟩ | ⟨ps, rfl⟩ | ⟨i, ps, rfl, hcall⟩
  · exact ⟨c, by simp [Chunk5923.M3905.p, hf]⟩
  · exact ⟨_, merge_obj_5923 env ctx ps⟩
  · exact ⟨ps, by simp [Chunk5923.M3905.p, truthy, typeof, Chunk5923.M3905.callFn, hcall]⟩

open JS in
theorem render_ok_5923 (env : FnEnv) (ctx : Val) (e : Props) (t : Val)
    (h : (truthy (getOwn e "components") = false ∧ ∃ c, ctx = .obj c) ∨
      (∃ ps, getOwn e "components" = .obj ps) ∨
      (∃ i ps, getOwn e "components" = .fn i ∧ env i ctx = .ok (.obj ps))) :
    ∃ dc, Chunk5923.M3905.p env ctx (getOwn e "components") = .ok (.obj dc) ∧
      ∃ el, Chunk5923.M3905.d env ctx (.obj e) t = .ok el ∧ Spec.elemType el =
        Spec.lookup dc (getOwn e "mdxType") (getOwn e "parentName") (getOwn e "originalType") := by
  obtain ⟨dc, hm⟩ := merge_ok_5923 env ctx _ h
  exact ⟨dc, hm, _, render_eq_5923 env ctx e t dc hm, rfl⟩

open JS in
theorem render_nullish_5923 (env : FnEnv) (ctx : Val) (e : Props) (t v : Val)
    (hm : Chunk5923.M3905.p env ctx (getOwn e "components") = .ok v)
    (hv : isNullish v = true) :
    Chunk5923.M3905.d env ctx (.obj e) t = .error .typeError := by
  simp [Chunk5923.M3905.d, get_obj, bind, Except.bind, hm, getMember, hv]

open JS in
theorem render_raises_5923 (env : FnEnv) (ctx : Val) (e : Props) (t : Val) (err : JsError)
    (hm : Chunk5923.M3905.p env ctx (getOwn e "components") = .error err) :
    Chunk5923.M3905.d env ctx (.obj e) t = .error err := by
  simp [Chunk5923.M3905.d, get_obj, bind, Except.bind, hm]

open JS in
theorem merge_fn_5923 (env : FnEnv) (ctx : Val) (i : Nat) :
    Chunk5923.M3905.p env ctx (.fn i) = env i ctx := by
  simp [Chunk5923.M3905.p, truthy, typeof, Chunk5923.M3905.callFn]

open JS in
theorem merge_falsy_5923 (env : FnEnv) (ctx comps : Val) (h : truthy comps = false) :
    Chunk5923.M3905.p env ctx comps = .ok ctx := by
  simp [Chunk5923.M3905.p, h]

open JS in
theorem merge_ok_8648 (env : FnEnv) (ctx comps : Val)
    (h : (truthy comps = false ∧ ∃ c, ctx = .obj c) ∨ (∃ ps, comps = .obj ps) ∨
      (∃ i ps, comps = .fn i ∧ env i ctx = .ok (.obj ps))) :
    ∃ dc, Chunk8648.M3905.c env ctx comps = .ok (.obj dc) := by
  rcases h with ⟨hf, c, rfl⟩ | ⟨ps, rfl⟩ | ⟨i, ps, rfl, hcall⟩
  · exact ⟨c, by simp [Chunk8648.M3905.c, hf]⟩
  · exact ⟨_, merge_obj_8648 env ctx ps⟩
  · exact ⟨ps, by simp [Chunk8648.M3905.c, truthy, typeof, Chunk8648.M3905.callFn, hcall]⟩

open JS in
theorem render_ok_8648 (env : FnEnv) (ctx : Val) (e : Props) (t : Val)
    (h : (truthy (getOwn e "components") = false ∧ ∃ c, ctx = .obj c) ∨
      (∃ ps, getOwn e "components" = .obj ps) ∨
      (∃ i ps, getOwn e "components" = .fn i ∧ env i ctx = .ok (.obj ps))) :
    ∃ dc, Chunk8648.M3905.c env ctx (getOwn e "components") = .ok (.obj dc) ∧
      ∃ el, Chunk8648.M3905.u env ctx (.obj e) t = .ok el ∧ Spec.elemType el =
        Spec.lookup dc (getOwn e "mdxType") (getOwn e "parentName") (getOwn e "originalType") := by
  obtain ⟨dc, hm⟩ := merge_ok_8648 env ctx _ h
  exact ⟨dc, hm, _, render_eq_8648 env ctx e t dc hm, rfl⟩

open JS in
theorem render_nullish_8648 (env : FnEnv) (ctx : Val) (e : Props) (t v : Val)
    (hm : Chunk8648.M3905.c env ctx (getOwn e "components") = .ok v)
    (hv : isNullish v = true) :
    Chunk8648.M3905.u env ctx (.obj e) t = .error .typeError := by
  simp [Chunk8648.M3905.u, get_obj, bind, Except.bind, hm, getMember, hv]

open JS in
theorem render_raises_8648 (env : FnEnv) (ctx : Val) (e : Props) (t : Val) (err : JsError)
    (hm : Chunk8648.M3905.c env ctx (getOwn e "components") = .error err) :
    Chunk8648.M3905.u env ctx (.obj e) t = .error err := by
  simp [Chunk8648.M3905.u, get_obj, bind, Except.bind, hm]

open JS in
theorem merge_fn_8648 (env : FnEnv) (ctx : Val) (i : Nat) :
    Chunk8648.M3905.c env ctx (.fn i) = env i ctx := by
  simp [Chunk8648.M3905.c, truthy, typeof, Chunk8648.M3905.callFn]

open JS in
theorem merge_falsy_8648 (env : FnEnv) (ctx comps : Val) (h : truthy comps = false) :
    Chunk8648.M3905.c env ctx comps = .ok ctx := by
  simp [Chunk8648.M3905.c, h]

open JS in
theorem merge_ok_6262 (env : FnEnv) (ctx comps : Val)
    (h : (truthy comps = false ∧ ∃ c, ctx = .obj c) ∨ (∃ ps, comps = .obj ps) ∨
      (∃ i ps, comps = .fn i ∧ env i ctx = .ok (.obj ps))) :
    ∃ dc, Chunk6262.M3905.u env ctx comps = .ok (.obj dc) := by
  rcases h with ⟨hf, c, rfl⟩ | ⟨ps, rfl⟩ | ⟨i, ps, rfl, hcall⟩
  · exact ⟨c, by simp [Chunk6262.M3905.u, hf]⟩
  · exact ⟨_, merge_obj_6262 env ctx ps⟩
  · exact ⟨ps, by simp [Chunk6262.M3905.u, truthy, typeof, Chunk6262.M3905.callFn, hcall]⟩

open JS in
theorem render_ok_6262 (env : FnEnv) (ctx : Val) (e : Props) (t : Val)
    (h : (truthy (getOwn e "components") = false ∧ ∃ c, ctx = .obj c) ∨
      (∃ ps, getOwn e "components" = .obj ps) ∨
      (∃ i ps, getOwn e "components" = .fn i ∧ env i ctx = .ok (.obj ps))) :
    ∃ dc, Chunk6262.M3905.u env ctx (getOwn e "components") = .ok (.obj dc) ∧
      ∃ el, Chunk6262.M3905.m env ctx (.obj e) t = .ok el ∧ Spec.elemType el =
        Spec.lookup dc (getOwn e "mdxType") (getOwn e "parentName") (getOwn e "originalType") := by
  obtain ⟨dc, hm⟩ := merge_ok_6262 env ctx _ h
  exact ⟨dc, hm, _, render_eq_6262 env ctx e t dc hm, rfl⟩

open JS in
theorem render_nullish_6262 (env : FnEnv) (ctx : Val) (e : Props) (t v : Val)
    (hm : Chunk6262.M3905.u env ctx (getOwn e "components") = .ok v)
    (hv : isNullish v = true) :
    Chunk6262.M3905.m env ctx (.obj e) t = .error .typeError := by
  simp [Chunk6262.M3905.m, get_obj, bind, Except.bind, hm, getMember, hv]

open JS in
theorem render_raises_6262 (env : FnEnv) (ctx : Val) (e : Props) (t : Val) (err : JsError)
    (hm : Chunk6262.M3905.u env ctx (getOwn e "components") = .error err) :
    Chunk6262.M3905.m env ctx (.obj e) t = .error err := by
  simp [Chunk6262.M3905.m, get_obj, bind, Except.bind, hm]

open JS in
theorem merge_fn_6262 (env : FnEnv) (ctx : Val) (i : Nat) :
    Chunk6262.M3905.u env ctx (.fn i) = env i ctx := by
  simp [Chunk6262.M3905.u, truthy, typeof, Chunk6262.M3905.callFn]

open JS in
theorem merge_falsy_6262 (env : FnEnv) (ctx comps : Val) (h : truthy comps = false) :
    Chunk6262.M3905.u env ctx comps = .ok ctx := by
  simp [Chunk6262.M3905.u, h]

/-! ## The claims on rendering, dispatch, tables of contents and element creation -/

open JS in
/-- Counterexample to C3 as stated: an inherited collection with no entry for `wrapper` but
with an entry for `undefined.wrapper`, the name of the layout qualified by the absent parent
name.  The layout resolves to that entry, not to the built-in wrapper, and the page renders to
what that component returns. -/
theorem qualified_layout_entry_counterexample :
    hasOwn [("undefined.wrapper", Val.fn 3)] "wrapper" = false ∧
    Chunk5923.M3905.p Example.envCollection (.obj [("undefined.wrapper", .fn 3)])
        (getOwn [] "components") = .ok (.obj [("undefined.wrapper", .fn 3)]) ∧
    (Chunk5923.renderLayoutWith Chunk5923.M7285.d Example.envCollection
        (.obj [("undefined.wrapper", .fn 3)]) (.obj [])).map Spec.elemType = .ok (.fn 3) ∧
    Chunk5923.renderPage Example.envCollection (.obj [("undefined.wrapper", .fn 3)]) (.obj [])
      = .ok (.obj [("h1", .fn 7)]) :=
  ⟨rfl, rfl, rfl, rfl⟩

open JS in
/-- C3, amended: for each of the three pages, when the merged component collection has no
truthy entry for the layout name (neither `wrapper` nor `wrapper` qualified by a parent name
passed in the props), the layout resolves to the built-in pass-through wrapper and the page renders to a
fragment whose children are exactly the body elements of the page, in their order, whatever
the props, the `components` and the inherited collection are otherwise. -/
theorem identity_rendering_on_fallback (env : FnEnv) (ctx : Val) (ps dc : Props)
    (h1 : Chunk5923.M3905.p env ctx (getOwn ps "components") = .ok (.obj dc))
    (h2 : Chunk8648.M3905.c env ctx (getOwn ps "components") = .ok (.obj dc))
    (h3 : Chunk6262.M3905.u env ctx (getOwn ps "components") = .ok (.obj dc))
    (hq : truthy (getOwn dc (toStr (getOwn ps "parentName") ++ "." ++ "wrapper")) = false)
    (hw : truthy (getOwn dc "wrapper") = false) :
    ((∃ cfg, Chunk5923.renderLayoutWith Chunk5923.M7285.d env ctx (.obj ps)
        = .ok (.elem .wrapperFn (.obj cfg) [])) ∧
      Chunk5923.renderPage env ctx (.obj ps)
        = .ok (.elem .fragment (.obj []) [.arr Chunk5923.M7285.body])) ∧
    ((∃ cfg, Chunk8648.renderLayoutWith Chunk8648.M27877.h env ctx (.obj ps)
        = .ok (.elem .wrapperFn (.obj cfg) [])) ∧
      Chunk8648.renderPage env ctx (.obj ps)
        = .ok (.elem .fragment (.obj []) [.arr Chunk8648.M27877.body])) ∧
    ((∃ cfg, Chunk6262.renderLayoutWith Chunk6262.M5796.s env ctx (.obj ps)
        = .ok (.elem .wrapperFn (.obj cfg) [])) ∧
      Chunk6262.renderPage env ctx (.obj ps)
        = .ok (.elem .fragment (.obj []) [.arr Chunk6262.M5796.body])) := by
  refine ⟨⟨?_, ?_⟩, ⟨?_, ?_⟩, ⟨?_, ?_⟩⟩
  · obtain ⟨cfg, h, _⟩ := layout_fallback_5923 Chunk5923.M7285.s env ctx ps dc h1 hq hw
    exact ⟨cfg, h⟩
  · exact render_fallback_5923 Chunk5923.M7285.s env ctx ps dc h1 hq hw
  · obtain ⟨cfg, h, _⟩ := layout_fallback_8648 Chunk8648.M27877.c env ctx ps dc h2 hq hw
    exact ⟨cfg, h⟩
  · exact render_fallback_8648 Chunk8648.M27877.c env ctx ps dc h2 hq hw
  · obtain ⟨cfg, h, _⟩ := layout_fallback_6262 Chunk6262.M5796.u env ctx ps dc h3 hq hw
    exact ⟨cfg, h⟩
  · exact render_fallback_6262 Chunk6262.M5796.u env ctx ps dc h3 hq hw

open JS in
/-- Witness of C3: the `ColorType` page with only headings in the inherited collection. -/
theorem identity_rendering_on_fallback_witness :
    Chunk5923.M3905.p Example.envUndefined (.obj Example.ctxHeadings)
        (getOwn Example.propsPage "components") = .ok (.obj Example.ctxHeadings) ∧
    Chunk5923.renderPage Example.envUndefined (.obj Example.ctxHeadings)
        (.obj Example.propsPage)
      = .ok (.elem .fragment (.obj []) [.arr Chunk5923.M7285.body]) :=
  ⟨rfl, (identity_rendering_on_fallback Example.envUndefined (.obj Example.ctxHeadings)
    Example.propsPage Example.ctxHeadings rfl rfl rfl rfl rfl).1.2⟩

open JS in
/-- Counterexample to C4 as stated: with a `components` function that returns `undefined`,
and with no `components` and the inherited value `null`, MDXCreateElement raises a
`TypeError` when it reads the merged collection. -/
theorem dispatch_raises_counterexample :
    Chunk5923.M3905.d Example.envUndefined (.obj []) (.obj Example.propsFnComponents) .null
      = .error .typeError ∧
    Chunk5923.M3905.d Example.envUndefined .null
      (.obj [("originalType", .str "h1"), ("mdxType", .str "h1")]) .null
      = .error .typeError :=
  ⟨rfl, rfl⟩

open JS in
/-- C4, amended: for names (`mdxType`, `parentName`) that are strings or absent and an
inherited value that is a plain object, `null` or `undefined`, in each copy of module 3905:
(1) when `components` is falsy and the inherited value is a plain object, or `components` is
an object, or `components` is a function whose call returns a plain object,
the merge routine returns a collection and the render function of MDXCreateElement returns an
element, whose type is the looked-up component, a name that is not found only changing that
type; (2) when the merged collection is `null` or `undefined`, because `components` is falsy
and the inherited value is so or because `components` is a function that returns so, the
render function raises a `TypeError`; (3) when `components` is a function whose call throws,
the merge routine and the render function end with what the function threw. -/
theorem dispatch_completes (env : FnEnv) (ctx : Val) (e : Props) (t : Val)
    (hn : Spec.IsName (getOwn e "mdxType")) (hp : Spec.IsName (getOwn e "parentName"))
    (hx : Spec.IsProps ctx) :
    (((truthy (getOwn e "components") = false ∧ ∃ c, ctx = .obj c) ∨
        (∃ ps, getOwn e "components" = .obj ps) ∨
        (∃ i ps, getOwn e "components" = .fn i ∧ env i ctx = .ok (.obj ps))) →
      (∃ dc, Chunk5923.M3905.p env ctx (getOwn e "components") = .ok (.obj dc) ∧
        ∃ el, Chunk5923.M3905.d env ctx (.obj e) t = .ok el ∧ Spec.elemType el =
          Spec.lookup dc (getOwn e "mdxType") (getOwn e "parentName")
            (getOwn e "originalType")) ∧
      (∃ dc, Chunk8648.M3905.c env ctx (getOwn e "components") = .ok (.obj dc) ∧
        ∃ el, Chunk8648.M3905.u env ctx (.obj e) t = .ok el ∧ Spec.elemType el =
          Spec.lookup dc (getOwn e "mdxType") (getOwn e "parentName")
            (getOwn e "originalType")) ∧
      (∃ dc, Chunk6262.M3905.u env ctx (getOwn e "components") = .ok (.obj dc) ∧
        ∃ el, Chunk6262.M3905.m env ctx (.obj e) t = .ok el ∧ Spec.elemType el =
          Spec.lookup dc (getOwn e "mdxType") (getOwn e "parentName")
            (getOwn e "originalType"))) ∧
    (((truthy (getOwn e "components") = false ∧ isNullish ctx = true) ∨
        (∃ i v, getOwn e "components" = .fn i ∧ env i ctx = .ok v ∧ isNullish v = true)) →
      Chunk5923.M3905.d env ctx (.obj e) t = .error .typeError ∧
      Chunk8648.M3905.u env ctx (.obj e) t = .error .typeError ∧
      Chunk6262.M3905.m env ctx (.obj e) t = .error .typeError) ∧
    (∀ i err, getOwn e "components" = .fn i → env i ctx = .error err →
      (Chunk5923.M3905.p env ctx (getOwn e "components") = .error err ∧
        Chunk5923.M3905.d env ctx (.obj e) t = .error err) ∧
      (Chunk8648.M3905.c env ctx (getOwn e "components") = .error err ∧
        Chunk8648.M3905.u env ctx (.obj e) t = .error err) ∧
      (Chunk6262.M3905.u env ctx (getOwn e "components") = .error err ∧
        Chunk6262.M3905.m env ctx (.obj e) t = .error err)) := by
  have _ := hn
  have _ := hp
  have _ := hx
  refine ⟨fun h => ⟨render_ok_5923 env ctx e t h, render_ok_8648 env ctx e t h,
    render_ok_6262 env ctx e t h⟩, ?_, ?_⟩
  · rintro (⟨hf, hctx⟩ | ⟨i, v, hc, hcall, hv⟩)
    · exact ⟨render_nullish_5923 env ctx e t ctx (merge_falsy_5923 env ctx _ hf) hctx,
        render_nullish_8648 env ctx e t ctx (merge_falsy_8648 env ctx _ hf) hctx,
        render_nullish_6262 env ctx e t ctx (merge_falsy_6262 env ctx _ hf) hctx⟩
    · have m1 : Chunk5923.M3905.p env ctx (getOwn e "components") = .ok v := by
        rw [hc, merge_fn_5923, hcall]
      have m2 : Chunk8648.M3905.c env ctx (getOwn e "components") = .ok v := by
        rw [hc, merge_fn_8648, hcall]
      have m3 : Chunk6262.M3905.u env ctx (getOwn e "components") = .ok v := by
        rw [hc, merge_fn_6262, hcall]
      exact ⟨render_nullish_5923 env ctx e t v m1 hv, render_nullish_8648 env ctx e t v m2 hv,
        render_nullish_6262 env ctx e t v m3 hv⟩
  · intro i err hc hcall
    have m1 : Chunk5923.M3905.p env ctx (getOwn e "components") = .error err := by
      rw [hc, merge_fn_5923, hcall]
    have m2 : Chunk8648.M3905.c env ctx (getOwn e "components") = .error err := by
      rw [hc, merge_fn_8648, hcall]
    have m3 : Chunk6262.M3905.u env ctx (getOwn e "components") = .error err := by
      rw [hc, merge_fn_6262, hcall]
    exact ⟨⟨m1, render_raises_5923 env ctx e t err m1⟩,
      ⟨m2, render_raises_8648 env ctx e t err m2⟩, ⟨m3, render_raises_6262 env ctx e t err m3⟩⟩

open JS in
/-- Witness of C4, amended: a `components` function that returns a collection, one that
returns `undefined`, and one that throws. -/
theorem dispatch_completes_witness :
    Spec.IsName (getOwn Example.propsFnComponents "mdxType") ∧
    Spec.IsName (getOwn Example.propsFnComponents "parentName") ∧
    Spec.IsProps (.obj []) ∧
    (∃ dc, Chunk5923.M3905.p Example.envCollection (.obj [])
        (getOwn Example.propsFnComponents "components") = .ok (.obj dc) ∧
      ∃ el, Chunk5923.M3905.d Example.envCollection (.obj [])
          (.obj Example.propsFnComponents) .null = .ok el ∧
        Spec.elemType el = Spec.lookup dc (getOwn Example.propsFnComponents "mdxType")
          (getOwn Example.propsFnComponents "parentName")
          (getOwn Example.propsFnComponents "originalType")) ∧
    Chunk5923.M3905.d Example.envUndefined (.obj []) (.obj Example.propsFnComponents) .null
      = .error .typeError ∧
    Chunk5923.M3905.d Example.envThrows (.obj []) (.obj Example.propsFnComponents) .null
      = .error (.thrown (.str "boom")) :=
  ⟨Or.inr ⟨_, rfl⟩, Or.inl rfl, Or.inr ⟨_, rfl⟩,
    ((dispatch_completes Example.envCollection (.obj []) Example.propsFnComponents .null
      (Or.inr ⟨_, rfl⟩) (Or.inl rfl) (Or.inr ⟨_, rfl⟩)).1
        (Or.inr (Or.inr ⟨0, [("h1", .fn 7)], rfl, rfl⟩))).1,
    ((dispatch_completes Example.envUndefined (.obj []) Example.propsFnComponents .null
      (Or.inr ⟨_, rfl⟩) (Or.inl rfl) (Or.inr ⟨_, rfl⟩)).2.1
        (Or.inr ⟨0, .undefined, rfl, rfl, rfl⟩)).1,
    ((dispatch_completes Example.envThrows (.obj []) Example.propsFnComponents .null
      (Or.inr ⟨_, rfl⟩) (Or.inl rfl) (Or.inr ⟨_, rfl⟩)).2.2 0 (.thrown (.str "boom"))
        rfl rfl).1.2⟩

namespace Spec

open JS

theorem getOwn_layoutProps_toc (tocv : Val) (ps : Props) :
    getOwn (layoutProps (.obj [("toc", tocv)]) ps) "toc"
      = if hasOwn ps "toc" = true then getOwn ps "toc" else tocv := by
  simp only [layoutProps, overlay, List.foldl_cons, List.foldl_nil, getOwn_overlayOne_obj]
  have hex : ¬ "toc" ∈ ["components"] := by decide
  rw [hasOwn_without, getOwn_without_of_not_mem _ _ _ hex]
  by_cases hh : hasOwn ps "toc" = true
  · have hm : "toc" ∈ keys (.obj ps) := (mem_keys_obj ps "toc").2 hh
    simp [hasOwn, hm, hh, getProp, ownProps]
  · have hm : ¬ "toc" ∈ keys (.obj ps) := fun h => hh ((mem_keys_obj ps "toc").1 h)
    simp [hasOwn, hm, hh, getOwn]

/-- The props object of the layout element of a page, key by key. -/
theorem pageConfig (tocv : Val) (ps : Props) :
    getOwn (ktConfig (.str "wrapper") (.obj (layoutProps (.obj [("toc", tocv)]) ps))) "toc"
      = (if hasOwn ps "toc" = true then getOwn ps "toc" else tocv) ∧
    ∀ k, k ≠ "toc" →
      getOwn (ktConfig (.str "wrapper") (.obj (layoutProps (.obj [("toc", tocv)]) ps))) k
        = if k = "originalType" ∨ k = "mdxType" then .str "wrapper" else getOwn ps k := by
  constructor
  · rw [getOwn_ktConfig _ _ _ (by decide) (by decide)]
    exact getOwn_layoutProps_toc tocv ps
  · intro k hk
    by_cases h1 : k = "originalType"
    · subst h1; simp [ktConfig, getOwn_setOwn]
    · by_cases h2 : k = "mdxType"
      · subst h2; simp [ktConfig, getOwn_setOwn, typeof]
      · rw [getOwn_ktConfig _ _ _ h1 h2]
        simp only [h1, h2, or_self, if_false, getProp, ownProps]
        exact getOwn_layoutProps tocv ps k hk h2

end Spec

open JS in
/-- C5: for every value of the table of contents held by the page record, the empty list
included, and for every props object, one that supplies an empty `toc` included, each of the
three page functions returns an element without error; its children are the body elements of
the page whatever the table of contents is; the `toc` is only forwarded in the props of the
layout (the props' own `toc` when there is one, the record's otherwise), and no other key of
these props depends on it. -/
theorem empty_toc_renders (tocv : Val) (ps : Props) :
    (∃ cfg, Chunk5923.M7285.fWith (.obj [("toc", tocv)]) (.obj ps)
        = .ok (.elem .mdxCreateElement (.obj cfg) Chunk5923.M7285.body) ∧
      getOwn cfg "toc" = (if hasOwn ps "toc" = true then getOwn ps "toc" else tocv) ∧
      ∀ k, k ≠ "toc" → getOwn cfg k =
        if k = "originalType" ∨ k = "mdxType" then .str "wrapper" else getOwn ps k) ∧
    (∃ cfg, Chunk8648.M27877.dWith (.obj [("toc", tocv)]) (.obj ps)
        = .ok (.elem .mdxCreateElement (.obj cfg) Chunk8648.M27877.body) ∧
      getOwn cfg "toc" = (if hasOwn ps "toc" = true then getOwn ps "toc" else tocv) ∧
      ∀ k, k ≠ "toc" → getOwn cfg k =
        if k = "originalType" ∨ k = "mdxType" then .str "wrapper" else getOwn ps k) ∧
    (∃ cfg, Chunk6262.M5796.dWith (.obj [("toc", tocv)]) (.obj ps)
        = .ok (.elem .mdxCreateElement (.obj cfg) Chunk6262.M5796.body) ∧
      getOwn cfg "toc" = (if hasOwn ps "toc" = true then getOwn ps "toc" else tocv) ∧
      ∀ k, k ≠ "toc" → getOwn cfg k =
        if k = "originalType" ∨ k = "mdxType" then .str "wrapper" else getOwn ps k) ∧
    (∃ cfg, Chunk5923.M7285.fWith (.obj [("toc", .arr [])]) (.obj ps)
        = .ok (.elem .mdxCreateElement (.obj cfg) Chunk5923.M7285.body)) ∧
    (∃ cfg, Chunk8648.M27877.dWith (.obj [("toc", .arr [])]) (.obj ps)
        = .ok (.elem .mdxCreateElement (.obj cfg) Chunk8648.M27877.body)) ∧
    (∃ cfg, Chunk6262.M5796.dWith (.obj [("toc", .arr [])]) (.obj ps)
        = .ok (.elem .mdxCreateElement (.obj cfg) Chunk6262.M5796.body)) :=
  ⟨⟨_, page_eq_5923 _ ps, (Spec.pageConfig tocv ps).1, (Spec.pageConfig tocv ps).2⟩,
   ⟨_, page_eq_8648 _ ps, (Spec.pageConfig tocv ps).1, (Spec.pageConfig tocv ps).2⟩,
   ⟨_, page_eq_6262 _ ps, (Spec.pageConfig tocv ps).1, (Spec.pageConfig tocv ps).2⟩,
   ⟨_, page_eq_5923 _ ps⟩, ⟨_, page_eq_8648 _ ps⟩, ⟨_, page_eq_6262 _ ps⟩⟩

open JS in
/-- C8: for each of the three pages, the exported `toc` equals, entry for entry and in the
same order, the list of the triples (heading text, id, level) of the `h2`, `h3` and `h4`
elements created in the body of the page, with level 2, 3 and 4. -/
theorem toc_lists_the_headings :
    Val.arr (Spec.headingsOfList Chunk5923.M7285.body) = Chunk5923.M7285.s ∧
    Val.arr (Spec.headingsOfList Chunk8648.M27877.body) = Chunk8648.M27877.c ∧
    Val.arr (Spec.headingsOfList Chunk6262.M5796.body) = Chunk6262.M5796.u :=
  ⟨by rfl, by rfl, by rfl⟩

open JS in
/-- C9: the three bundled copies of module 3905 behave equally: on every input their merge
routines return the same result, their MDXCreateElement render functions return the same
element (same component, same props), their `kt` helpers build the same element, and their
providers and default wrappers agree as well. -/
theorem copies_behave_equally :
    (∀ env ctx e, Chunk8648.M3905.c env ctx e = Chunk5923.M3905.p env ctx e ∧
      Chunk6262.M3905.u env ctx e = Chunk5923.M3905.p env ctx e) ∧
    (∀ env ctx e t, Chunk8648.M3905.u env ctx e t = Chunk5923.M3905.d env ctx e t ∧
      Chunk6262.M3905.m env ctx e t = Chunk5923.M3905.d env ctx e t) ∧
    (∀ r, Chunk8648.M3905.f r = Chunk5923.M3905.f r ∧
      Chunk6262.M3905.f r = Chunk5923.M3905.f r) ∧
    (∀ env ctx e, Chunk8648.M3905.h env ctx e = Chunk5923.M3905.c env ctx e ∧
      Chunk6262.M3905.s env ctx e = Chunk5923.M3905.c env ctx e) ∧
    (∀ e, Chunk8648.M3905.wrapper e = Chunk5923.M3905.wrapper e ∧
      Chunk6262.M3905.wrapper e = Chunk5923.M3905.wrapper e) ∧
    (∀ e args, Chunk8648.M3905.l e args = Chunk5923.M3905.l e args ∧
      Chunk6262.M3905.l e args = Chunk5923.M3905.l e args) ∧
    Chunk8648.M3905.d = Chunk5923.M3905.s ∧ Chunk6262.M3905.d = Chunk5923.M3905.s :=
  ⟨fun _ _ _ => ⟨rfl, rfl⟩, fun _ _ _ _ => ⟨rfl, rfl⟩, fun _ => ⟨rfl, rfl⟩,
   fun _ _ _ => ⟨rfl, rfl⟩, fun _ => ⟨rfl, rfl⟩,
   fun e args => ⟨by rw [Chunk8648.M3905.l_eq_8648, Chunk5923.M3905.l_eq_5923],
     by rw [Chunk6262.M3905.l_eq_6262, Chunk5923.M3905.l_eq_5923]⟩, rfl, rfl⟩

namespace Spec

open JS

theorem assign_eq (acc : Props) (k : String) (x : Val) (h : hasOwn acc "__proto__" = false) :
    assign acc k x = if k ∈ ["__proto__"] then acc else setOwn acc k x := by
  unfold assign
  by_cases hk : k = "__proto__"
  · subst hk; simp [h]
  · simp [hk]

/-- From an object without an own `__proto__`, the loop of exact assignments copies every
key but `__proto__`. -/
theorem foldl_assign (g : String → Val) (ks : List String) (acc : Props)
    (h : hasOwn acc "__proto__" = false) :
    ks.foldl (fun acc u => assign acc u (g u)) acc
      = ks.foldl (fun acc k => if k ∈ ["__proto__"] then acc else setOwn acc k (g k)) acc := by
  induction ks generalizing acc with
  | nil => rfl
  | cons k ks ih =>
    simp only [List.foldl_cons]
    rw [assign_eq acc k (g k) h]
    apply ih
    rw [hasOwn_copyStep]
    simp [h]

/-- Without an excluded key among them, the keys are all copied. -/
theorem foldl_copy_all (g : String → Val) (excl ks : List String) (acc : Props)
    (h : ∀ k ∈ ks, ¬ k ∈ excl) :
    ks.foldl (fun acc k => if k ∈ excl then acc else setOwn acc k (g k)) acc
      = ks.foldl (fun acc k => setOwn acc k (g k)) acc := by
  induction ks generalizing acc with
  | nil => rfl
  | cons k ks ih =>
    simp only [List.foldl_cons]
    rw [if_neg (h k (List.mem_cons_self _ _))]
    exact ih _ (fun k2 hk2 => h k2 (List.mem_cons_of_mem _ hk2))

theorem ktConfigExact_eq (e t : Val) (h : hasOwn (ownProps t) "__proto__" = false) :
    ktConfigExact e t = ktConfig e t := by
  have hw : without t ["__proto__"] = overlayOne [] t := by
    unfold without overlayOne
    apply foldl_copy_all
    intro k hk hmem
    have hk2 : k = "__proto__" := by simpa using hmem
    subst hk2
    have := (mem_keys t "__proto__").1 hk
    simp [h] at this
  simp only [ktConfigExact, ktConfig, hw]

theorem ktExact_of_eq (e t : Val) (cs : List Val) (r : Val)
    (h : r = if typeof e = "string" ∨ truthy (jsAnd t (getProp t "mdxType")) = true then
        .elem .mdxCreateElement (.obj (ktConfigExact e t)) cs
      else createElement (e :: t :: cs)) :
    KtExact e t cs r := by
  by_cases hc : typeof e = "string" ∨ truthy (jsAnd t (getProp t "mdxType")) = true
  · rw [if_pos hc] at h
    refine Or.inl ⟨hc, ktConfigExact e t, h, ?_, ?_, ?_, ?_, ?_, ?_⟩
    · simp [ktConfigExact, getOwn_setOwn]
    · by_cases hs : typeof e = "string"
      · simp [ktConfigExact, getOwn_setOwn, hs]
      · have ht : truthy (jsAnd t (getProp t "mdxType")) = true := hc.resolve_left hs
        simp [ktConfigExact, getOwn_setOwn, hs, jsAnd_of_truthy t _ ht]
    · simp [ktConfigExact, hasOwn_setOwn]
    · simp [ktConfigExact, hasOwn_setOwn]
    · simp [ktConfigExact, hasOwn_setOwn, hasOwn_without]
    · intro k h1 h2 h3
      have h1b : ¬ "originalType" = k := fun h => h1 h.symm
      have h2b : ¬ "mdxType" = k := fun h => h2 h.symm
      have hex : ¬ k ∈ ["__proto__"] := by simp [h3]
      constructor
      · simp only [ktConfigExact, hasOwn_setOwn, h1b, h2b, decide_False, Bool.false_or,
          hasOwn_without]
        by_cases hm : k ∈ keys t
        · simp [hm, h3, (mem_keys t k).1 hm]
        · have hf : hasOwn (ownProps t) k = false := by
            cases hh : hasOwn (ownProps t) k
            · rfl
            · exact absurd ((mem_keys t k).2 hh) hm
          simp [hm, hf]
      · simp only [ktConfigExact, getOwn_setOwn, h1b, h2b, if_false]
        exact getOwn_without_of_not_mem t _ k hex
  · rw [if_neg hc] at h
    have hs : ¬ typeof e = "string" := fun h => hc (Or.inl h)
    have ht : truthy (jsAnd t (getProp t "mdxType")) = false := by
      cases h : truthy (jsAnd t (getProp t "mdxType"))
      · rfl
      · exact absurd (Or.inr h) hc
    exact Or.inr ⟨⟨hs, ht⟩, h⟩

end Spec

open JS in
theorem ktExact_eq_5923 (e t : Val) (cs : List Val) :
    Chunk5923.M3905.fExact (e :: t :: cs) =
      if typeof e = "string" ∨ truthy (jsAnd t (getProp t "mdxType")) = true then
        .elem .mdxCreateElement (.obj (Spec.ktConfigExact e t)) cs
      else createElement (e :: t :: cs) := by
  have hf := Spec.foldl_assign (fun u => getProp t u) (keys t) [] rfl
  unfold Chunk5923.M3905.fExact
  simp only [List.getD_cons_zero, List.getD_cons_succ, hf]
  rfl

open JS in
theorem kt_exact_5923 (e t : Val) (cs : List Val)
    (h : hasOwn (ownProps t) "__proto__" = false) :
    Chunk5923.M3905.f (e :: t :: cs) = Chunk5923.M3905.fExact (e :: t :: cs) := by
  rw [ktExact_eq_5923, kt_eq_5923, Spec.ktConfigExact_eq e t h]

open JS in
theorem ktExact_eq_8648 (e t : Val) (cs : List Val) :
    Chunk8648.M3905.fExact (e :: t :: cs) =
      if typeof e = "string" ∨ truthy (jsAnd t (getProp t "mdxType")) = true then
        .elem .mdxCreateElement (.obj (Spec.ktConfigExact e t)) cs
      else createElement (e :: t :: cs) := by
  have hf := Spec.foldl_assign (fun u => getProp t u) (keys t) [] rfl
  unfold Chunk8648.M3905.fExact
  simp only [List.getD_cons_zero, List.getD_cons_succ, hf]
  rfl

open JS in
theorem kt_exact_8648 (e t : Val) (cs : List Val)
    (h : hasOwn (ownProps t) "__proto__" = false) :
    Chunk8648.M3905.f (e :: t :: cs) = Chunk8648.M3905.fExact (e :: t :: cs) := by
  rw [ktExact_eq_8648, kt_eq_8648, Spec.ktConfigExact_eq e t h]

open JS in
theorem ktExact_eq_6262 (e t : Val) (cs : List Val) :
    Chunk6262.M3905.fExact (e :: t :: cs) =
      if typeof e = "string" ∨ truthy (jsAnd t (getProp t "mdxType")) = true then
        .elem .mdxCreateElement (.obj (Spec.ktConfigExact e t)) cs
      else createElement (e :: t :: cs) := by
  have hf := Spec.foldl_assign (fun u => getProp t u) (keys t) [] rfl
  unfold Chunk6262.M3905.fExact
  simp only [List.getD_cons_zero, List.getD_cons_succ, hf]
  rfl

open JS in
theorem kt_exact_6262 (e t : Val) (cs : List Val)
    (h : hasOwn (ownProps t) "__proto__" = false) :
    Chunk6262.M3905.f (e :: t :: cs) = Chunk6262.M3905.fExact (e :: t :: cs) := by
  rw [ktExact_eq_6262, kt_eq_6262, Spec.ktConfigExact_eq e t h]

open JS in
/-- Counterexample to C10 as stated: props with an own property `__proto__`.  With the string
type `p`, `kt` creates an MDXCreateElement element whose props do not have that own property:
the assignment `a["__proto__"] = ...` of the loop runs the setter that the fresh object
inherits and defines nothing. -/
theorem kt_own_proto_counterexample :
    typeof (.str "p") = "string" ∧
    hasOwn (ownProps Example.propsProto) "__proto__" = true ∧
    Chunk5923.M3905.fExact [.str "p", Example.propsProto] = .elem .mdxCreateElement
      (.obj [("id", .str "a"), ("originalType", .str "p"), ("mdxType", .str "p")]) [] ∧
    Chunk8648.M3905.fExact [.str "p", Example.propsProto] = .elem .mdxCreateElement
      (.obj [("id", .str "a"), ("originalType", .str "p"), ("mdxType", .str "p")]) [] ∧
    Chunk6262.M3905.fExact [.str "p", Example.propsProto] = .elem .mdxCreateElement
      (.obj [("id", .str "a"), ("originalType", .str "p"), ("mdxType", .str "p")]) [] ∧
    hasOwn [("id", Val.str "a"), ("originalType", .str "p"), ("mdxType", .str "p")]
      "__proto__" = false :=
  ⟨rfl, rfl, rfl, rfl, rfl, rfl⟩

open JS in
/-- C10, amended: in each copy of module 3905, for props `t` that are a plain object, `null`
or `undefined`, and whose own `__proto__`, when there is one, holds a plain object, `null` or
`undefined`, `kt(e, t, ...cs)` with `e` a string or `t` carrying a truthy `mdxType` creates
an MDXCreateElement element whose props are the own properties of `t` other than
`__proto__`, with `originalType` set to `e` and `mdxType` set to `e` when `e` is a string and
to `t.mdxType` otherwise, and whose children are `cs`; otherwise it is `createElement(e, t,
...cs)`.  For props without an own `__proto__` this is the element with all the own
properties of `t`.  Hence the layout element of each page carries `mdxType: "wrapper"` and not
`"MDXLayout"`. -/
theorem kt_element_creation (e t : Val) (cs : List Val) (ps : Props)
    (ht : Spec.IsProps t) (hv : Spec.IsProps (getProp t "__proto__")) :
    Spec.KtExact e t cs (Chunk5923.M3905.fExact (e :: t :: cs)) ∧
    Spec.KtExact e t cs (Chunk8648.M3905.fExact (e :: t :: cs)) ∧
    Spec.KtExact e t cs (Chunk6262.M3905.fExact (e :: t :: cs)) ∧
    (hasOwn (ownProps t) "__proto__" = false →
      Spec.KtResult e t cs (Chunk5923.M3905.fExact (e :: t :: cs)) ∧
      Spec.KtResult e t cs (Chunk8648.M3905.fExact (e :: t :: cs)) ∧
      Spec.KtResult e t cs (Chunk6262.M3905.fExact (e :: t :: cs)) ∧
      Chunk5923.M3905.f (e :: t :: cs) = Chunk5923.M3905.fExact (e :: t :: cs) ∧
      Chunk8648.M3905.f (e :: t :: cs) = Chunk8648.M3905.fExact (e :: t :: cs) ∧
      Chunk6262.M3905.f (e :: t :: cs) = Chunk6262.M3905.fExact (e :: t :: cs)) ∧
    (∃ cfg, Chunk5923.M7285.f (.obj ps)
        = .ok (.elem .mdxCreateElement (.obj cfg) Chunk5923.M7285.body) ∧
      getOwn cfg "mdxType" = .str "wrapper" ∧ getOwn cfg "originalType" = .str "wrapper") ∧
    (∃ cfg, Chunk8648.M27877.d (.obj ps)
        = .ok (.elem .mdxCreateElement (.obj cfg) Chunk8648.M27877.body) ∧
      getOwn cfg "mdxType" = .str "wrapper" ∧ getOwn cfg "originalType" = .str "wrapper") ∧
    (∃ cfg, Chunk6262.M5796.d (.obj ps)
        = .ok (.elem .mdxCreateElement (.obj cfg) Chunk6262.M5796.body) ∧
      getOwn cfg "mdxType" = .str "wrapper" ∧ getOwn cfg "originalType" = .str "wrapper") := by
  have _ := ht
  have _ := hv
  refine ⟨Spec.ktExact_of_eq e t cs _ (ktExact_eq_5923 e t cs),
    Spec.ktExact_of_eq e t cs _ (ktExact_eq_8648 e t cs),
    Spec.ktExact_of_eq e t cs _ (ktExact_eq_6262 e t cs), ?_,
    ⟨_, page_eq_5923 _ ps, by simp [Spec.ktConfig, getOwn_setOwn, typeof],
      by simp [Spec.ktConfig, getOwn_setOwn]⟩,
    ⟨_, page_eq_8648 _ ps, by simp [Spec.ktConfig, getOwn_setOwn, typeof],
      by simp [Spec.ktConfig, getOwn_setOwn]⟩,
    ⟨_, page_eq_6262 _ ps, by simp [Spec.ktConfig, getOwn_setOwn, typeof],
      by simp [Spec.ktConfig, getOwn_setOwn]⟩⟩
  intro hp
  have e1 := kt_exact_5923 e t cs hp
  have e2 := kt_exact_8648 e t cs hp
  have e3 := kt_exact_6262 e t cs hp
  exact ⟨Spec.ktResult_of_eq e t cs _ (e1 ▸ kt_eq_5923 e t cs),
    Spec.ktResult_of_eq e t cs _ (e2 ▸ kt_eq_8648 e t cs),
    Spec.ktResult_of_eq e t cs _ (e3 ▸ kt_eq_6262 e t cs), e1, e2, e3⟩

open JS in
/-- Witness of C10, amended: the props of the counterexample, which own `__proto__` and
`id`. -/
theorem kt_element_creation_witness :
    Spec.IsProps Example.propsProto ∧
    Spec.IsProps (getProp Example.propsProto "__proto__") ∧
    Spec.KtExact (.str "p") Example.propsProto []
      (Chunk5923.M3905.fExact [.str "p", Example.propsProto]) :=
  ⟨Or.inr ⟨_, rfl⟩, Or.inr ⟨_, rfl⟩,
    (kt_element_creation (.str "p") Example.propsProto [] Example.propsPage
      (Or.inr ⟨_, rfl⟩) (Or.inr ⟨_, rfl⟩)).1⟩

/-! ## Frame lemmas on the store -/

namespace Heap

theorem length_update (h : Store) (a : Nat) (g : Cell → Cell) :
    (update h a g).length = h.length := by
  induction h generalizing a with
  | nil => rfl
  | cons c cs ih => cases a <;> simp [update, ih]

theorem getElem?_update_ne (h : Store) (a b : Nat) (g : Cell → Cell) (hab : a ≠ b) :
    (update h a g)[b]? = h[b]? := by
  induction h generalizing a b with
  | nil => rfl
  | cons c cs ih =>
    cases a with
    | zero =>
      cases b with
      | zero => exact absurd rfl hab
      | succ b => simp [update]
    | succ a =>
      cases b with
      | zero => simp [update]
      | succ b => simp [update, ih a b (fun h => hab (by rw [h]))]

theorem getElem?_update_eq (h : Store) (a : Nat) (g : Cell → Cell) :
    (update h a g)[a]? = (h[a]?).map g := by
  induction h generalizing a with
  | nil => rfl
  | cons c cs ih => cases a <;> simp [update, ih]

theorem frame_refl (n : Nat) (h : Store) : Frame n h h := ⟨Nat.le_refl _, fun _ _ => rfl⟩

theorem frame_trans {n : Nat} {h1 h2 h3 : Store} (h12 : Frame n h1 h2) (h23 : Frame n h2 h3) :
    Frame n h1 h3 :=
  ⟨Nat.le_trans h12.1 h23.1, fun a ha => (h23.2 a ha).trans (h12.2 a ha)⟩

theorem frame_append (n : Nat) (h ext : Store) (hn : n ≤ h.length) : Frame n h (h ++ ext) := by
  refine ⟨by simp, fun a ha => ?_⟩
  exact List.getElem?_append_left (Nat.lt_of_lt_of_le ha hn)

theorem frame_alloc (n : Nat) (h : Store) (c : Cell) (hn : n ≤ h.length) :
    Frame n h (alloc h c).2 := frame_append n h [c] hn

theorem fresh_alloc (n : Nat) (h : Store) (c : Cell) (hn : n ≤ h.length) :
    Fresh n (alloc h c).1 := by
  intro a ha
  simp only [alloc, HVal.ref.injEq] at ha
  omega

theorem frame_put (n : Nat) (h : Store) (o : HVal) (key : String) (x : HVal)
    (ho : Fresh n o) : Frame n h (put h o key x) := by
  cases o
  case ref a =>
    have hna : n ≤ a := ho a rfl
    refine ⟨by simp [put, length_update], fun b hb => ?_⟩
    exact getElem?_update_ne h a b _ (by omega)
  all_goals exact frame_refl n h

theorem frame_foldl {β : Type} (n : Nat) (step : Store → β → Store)
    (hstep : ∀ h b, Frame n h (step h b)) (bs : List β) (h : Store) :
    Frame n h (bs.foldl step h) := by
  induction bs generalizing h with
  | nil => exact frame_refl n h
  | cons b bs ih => exact frame_trans (hstep h b) (ih (step h b))

theorem frame_copy (n : Nat) (o : HVal) (ho : Fresh n o) (excluded : List String)
    (src : HVal) (ks : List String) (h : Store) :
    Frame n h (ks.foldl
      (fun h k => if k ∈ excluded then h else put h o k (getProp h src k)) h) :=
  frame_foldl n _ (fun h k => by
    by_cases hk : k ∈ excluded
    · simp only [hk, if_true]; exact frame_refl n h
    · simp only [hk, if_false]; exact frame_put n h o k _ ho) ks h

theorem frame_copyAll (n : Nat) (o : HVal) (ho : Fresh n o) (src : HVal) (ks : List String)
    (h : Store) :
    Frame n h (ks.foldl (fun h k => put h o k (getProp h src k)) h) :=
  frame_foldl n _ (fun h k => frame_put n h o k _ ho) ks h

theorem frame_defineProperties (n : Nat) (h : Store) (o r : HVal) (ho : Fresh n o) :
    Frame n h (defineProperties h o r) := frame_copyAll n o ho r _ h

theorem frame_createElement (n : Nat) (h : Store) (args : List HVal) (hn : n ≤ h.length) :
    Frame n h (createElement h args).2 := frame_alloc n h _ hn

theorem fresh_ref (n a : Nat) (hn : n ≤ a) : Fresh n (.ref a) := by
  intro b hb
  simp only [HVal.ref.injEq] at hb
  omega

theorem frame_restWithout (n : Nat) (h : Store) (e : HVal) (excluded : List String)
    (hn : n ≤ h.length) :
    Frame n h (restWithout h e excluded).2 ∧ Fresh n (restWithout h e excluded).1 := by
  refine ⟨?_, fresh_ref n _ hn⟩
  exact frame_trans (frame_append n h [.obj []] hn)
    (frame_copy n _ (fresh_ref n _ hn) excluded e _ _)

theorem frame_Z3366 (n : Nat) (h : Store) (e : HVal) (excluded : List String)
    (hn : n ≤ h.length) :
    Frame n h (Z3366 h e excluded).2 ∧ Fresh n (Z3366 h e excluded).1 := by
  by_cases hnull : isNullish e = true
  · simp only [Z3366, alloc, hnull, if_true]
    exact ⟨frame_append n h _ hn, fresh_ref n _ hn⟩
  · simp only [Z3366, alloc, hnull]
    exact ⟨frame_trans (frame_append n h [.obj []] hn)
      (frame_copy n _ (fresh_ref n _ hn) excluded e _ _), fresh_ref n _ hn⟩

theorem frame_Z7462 (n : Nat) (h : Store) (target : HVal) (sources : List HVal)
    (ht : Fresh n target) : Frame n h (Z7462 h target sources).2 :=
  frame_foldl n _ (fun h source => frame_copyAll n target ht source _ h) sources h

end Heap

namespace Heap

theorem Frame.le {n : Nat} {h h' : Store} (hf : Frame n h h') (hn : n ≤ h.length) :
    n ≤ h'.length := Nat.le_trans hn hf.1

theorem Frame.step {n : Nat} {h s s2 : Store} (hn : n ≤ h.length) (hf : Frame n h s)
    (hg : n ≤ s.length → Frame n s s2) : Frame n h s2 :=
  frame_trans hf (hg (hf.le hn))

mutual
theorem frame_eval (n : Nat) (kt : Store → List HVal → HVal × Store)
    (hkt : ∀ h r, n ≤ h.length → Frame n h (kt h r).2) :
    ∀ (e : Expr) (h : Store), n ≤ h.length → Frame n h (eval kt e h).2
  | .str _, h, _ => frame_refl n h
  | .null, h, _ => frame_refl n h
  | .lit _, h, hn => frame_append n h _ hn
  | .kt args, h, hn => by
    have h1 := frame_evalList n kt hkt args h hn
    simp only [eval]
    exact frame_trans h1 (hkt _ _ (h1.le hn))
theorem frame_evalList (n : Nat) (kt : Store → List HVal → HVal × Store)
    (hkt : ∀ h r, n ≤ h.length → Frame n h (kt h r).2) :
    ∀ (es : List Expr) (h : Store), n ≤ h.length → Frame n h (evalList kt es h).2
  | [], h, _ => frame_refl n h
  | e :: es, h, hn => by
    have h1 := frame_eval n kt hkt e h hn
    have h2 := frame_evalList n kt hkt es _ (h1.le hn)
    simp only [evalList]
    exact frame_trans h1 h2
end

end Heap

namespace Heap

theorem frame_propsOf (n : Nat) (h : Store) (el : HVal) (hn : n ≤ h.length) :
    Frame n h (propsOf h el).2 := by
  unfold propsOf
  have hf : Fresh n (.ref h.length) := fresh_ref n _ hn
  cases el
  case ref a =>
    simp only [alloc]
    cases hc : h[a]? with
    | none => exact frame_append n h _ hn
    | some c =>
      cases c with
      | obj ps => exact frame_append n h _ hn
      | arr items => exact frame_append n h _ hn
      | elem type config children =>
        simp only
        have h1 : Frame n h (List.foldl
            (fun h_1 k => if k ∈ ["key", "ref", "__self", "__source"] then h_1
              else put h_1 (HVal.ref h.length) k (getProp h_1 config k))
            (h ++ [Cell.obj []]) (keys (h ++ [Cell.obj []]) config)) :=
          Frame.step hn (frame_append n h _ hn) (fun _ => frame_copy n _ hf _ config _ _)
        match children with
        | [] => exact h1
        | [c] => exact frame_trans h1 (frame_put n _ _ _ _ hf)
        | c1 :: c2 :: cs =>
          simp only
          refine Frame.step hn ?_ (fun _ => frame_put n _ _ _ _ hf)
          exact Frame.step hn h1 (fun hl => frame_append n _ _ hl)
  all_goals exact frame_append n h _ hn

theorem frame_renderStep (n : Nat)
    (mdx : Store → HVal → HVal → Except HError (HVal × Store))
    (wrapper : Store → HVal → Except HError (HVal × Store)) (env : HEnv)
    (hmdx : ∀ h e t r h2, n ≤ h.length → mdx h e t = .ok (r, h2) → Frame n h h2)
    (hwrapper : ∀ h e r h2, n ≤ h.length → wrapper h e = .ok (r, h2) → Frame n h h2)
    (henv : EnvFrame env) (h : Store) (el r : HVal) (h2 : Store) (hn : n ≤ h.length)
    (hr : renderStep mdx wrapper env h el = .ok (r, h2)) : Frame n h h2 := by
  unfold renderStep at hr
  have hp := frame_propsOf n h el hn
  split at hr
  · exact frame_trans hp (hmdx _ _ _ _ _ (hp.le hn) hr)
  · exact frame_trans hp (hwrapper _ _ _ _ (hp.le hn) hr)
  · exact frame_trans hp (henv n _ _ _ _ _ (hp.le hn) hr)
  · simp only [Except.ok.injEq, Prod.mk.injEq] at hr
    rw [← hr.2]
    exact frame_refl n h

end Heap

namespace Chunk5923

open Heap

theorem frame_defprop_5923 (n : Nat) (h : Store) (e : HVal) (t : String) (r : HVal)
    (he : Fresh n e) : Frame n h (H3905.o h e t r) := by
  unfold H3905.o defineProperty
  split <;> exact frame_put n h e t r he

theorem frame_lArg_5923 (n : Nat) (h : Store) (e : HVal) (t : Nat) (arg : HVal)
    (he : Fresh n e) (hn : n ≤ h.length) : Frame n h (H3905.lArg h e t arg) := by
  unfold H3905.lArg
  by_cases hnull : (!isNullish arg) = true
  · simp only [hnull, if_true]
    split
    · exact frame_foldl n _ (fun h k => frame_defprop_5923 n h e k _ he) _ h
    · exact frame_defineProperties n h e arg he
  · simp only [hnull, alloc]
    refine frame_trans (frame_append n h [.obj []] hn) ?_
    split
    · exact frame_foldl n _ (fun h k => frame_defprop_5923 n h e k _ he) _ _
    · exact frame_defineProperties n _ e _ he

theorem frame_lLoop_5923 (n : Nat) (e : HVal) (he : Fresh n e) (args : List HVal) :
    ∀ (h : Store) (t : Nat), n ≤ h.length → Frame n h (H3905.lLoop h e t args) := by
  induction args with
  | nil => intro h t _; exact frame_refl n h
  | cons x xs ih =>
    intro h t hn
    have h1 := frame_lArg_5923 n h e t x he hn
    exact frame_trans h1 (ih _ (t + 1) (h1.le hn))

theorem frame_l_5923 (n : Nat) (h : Store) (e : HVal) (args : List HVal) (he : Fresh n e)
    (hn : n ≤ h.length) : Frame n h (H3905.l h e args).2 :=
  frame_lLoop_5923 n e he args h 1 hn

theorem frame_omit_5923 (n : Nat) (h : Store) (e : HVal) (t : List String)
    (hn : n ≤ h.length) :
    Frame n h (H3905.a h e t).2 ∧ Fresh n (H3905.a h e t).1 := by
  by_cases hnull : isNullish e = true
  · simp only [H3905.a, alloc, hnull, if_true]
    exact ⟨frame_append n h _ hn, fresh_ref n _ hn⟩
  · simp only [H3905.a, alloc, hnull]
    exact ⟨frame_trans (frame_append n h [.obj []] hn)
      (frame_copy n _ (fresh_ref n _ hn) t e _ _), fresh_ref n _ hn⟩

theorem frame_wrapper_5923 (n : Nat) (h : Store) (e r : HVal) (h2 : Store)
    (hn : n ≤ h.length) (hr : H3905.wrapper h e = .ok (r, h2)) : Frame n h h2 := by
  unfold H3905.wrapper at hr
  cases hg : get h e "children" with
  | error err => simp [hg, bind, Except.bind] at hr
  | ok t =>
    simp only [hg, bind, Except.bind, pure, Except.pure, alloc, createElement,
      Except.ok.injEq, Prod.mk.injEq] at hr
    rw [← hr.2, List.append_assoc]
    exact frame_append n h _ hn

theorem frame_kt_5923 (n : Nat) (h : Store) (r : List HVal) (hn : n ≤ h.length) :
    Frame n h (H3905.f h r).2 := by
  unfold H3905.f
  simp only [alloc, createElement]
  split
  · have hfresh : Fresh n (.ref h.length) := fresh_ref n _ hn
    have h1 : Frame n h (h ++ [Cell.obj []]) := frame_append n h _ hn
    have h2 := frame_copyAll n (.ref h.length) hfresh (r.getD 1 .undefined)
      (keys (h ++ [Cell.obj []]) (r.getD 1 .undefined)) (h ++ [Cell.obj []])
    have key : ∀ (hx : Store) (c : Cell), Frame n h hx → Frame n h (hx ++ [c]) :=
      fun hx c hf => frame_trans hf (frame_append n hx _ (hf.le hn))
    apply key
    exact frame_trans (frame_trans (frame_trans h1 h2) (frame_put n _ _ _ _ hfresh))
      (frame_put n _ _ _ _ hfresh)
  · exact frame_append n h _ hn

theorem frame_merge_obj_5923 (n : Nat) (env : HEnv) (h : Store)
    (ctx e r : HVal) (h2 : Store) (hn : n ≤ h.length) (hf : typeof e ≠ "function")
    (hr : H3905.p env h ctx e = .ok (r, h2)) : Frame n h h2 := by
  unfold H3905.p at hr
  by_cases ht : truthy e = true
  · simp only [ht, hf, if_true, if_false, alloc, H3905.l, Except.ok.injEq,
      Prod.mk.injEq] at hr
    rw [← hr.2]
    have hfresh : Fresh n (.ref h.length) := fresh_ref n _ hn
    refine Frame.step hn ?_ (fun hl => frame_lLoop_5923 n _ hfresh _ _ 1 hl)
    refine Frame.step hn ?_ (fun hl => frame_lLoop_5923 n _ hfresh _ _ 1 hl)
    exact frame_append n h _ hn
  · simp only [ht] at hr
    simp only [Bool.false_eq_true, if_false, Except.ok.injEq, Prod.mk.injEq] at hr
    rw [← hr.2]
    exact frame_refl n h

theorem frame_merge_5923 (n : Nat) (env : HEnv) (henv : EnvFrame env) (h : Store)
    (ctx e r : HVal) (h2 : Store) (hn : n ≤ h.length)
    (hr : H3905.p env h ctx e = .ok (r, h2)) : Frame n h h2 := by
  by_cases hf : typeof e = "function"
  · unfold H3905.p at hr
    by_cases ht : truthy e = true
    · simp only [ht, hf, if_true] at hr
      unfold H3905.callFn at hr
      cases e <;> simp at hr
      · exact henv n _ _ _ _ _ hn hr
      · exact frame_wrapper_5923 n h ctx r h2 hn hr
    · simp only [ht] at hr
      simp only [Bool.false_eq_true, if_false, Except.ok.injEq, Prod.mk.injEq] at hr
      rw [← hr.2]
      exact frame_refl n h
  · exact frame_merge_obj_5923 n env h ctx e r h2 hn hf hr

theorem frame_page_5923 (n : Nat) (h : Store) (d e r : HVal) (h2 : Store)
    (hn : n ≤ h.length) (hr : H7285.f h d e = .ok (r, h2)) : Frame n h h2 := by
  unfold H7285.f at hr
  cases hg : get h e "components" with
  | error err => simp [hg, bind, Except.bind] at hr
  | ok t =>
    simp only [hg, bind, Except.bind, pure, Except.pure, Except.ok.injEq] at hr
    have e2 := congrArg Prod.snd hr
    simp only at e2
    rw [← e2]
    have hA := frame_Z3366 n h e ["components"] hn
    refine Frame.step hn ?_ (fun hl => frame_kt_5923 n _ _ hl)
    refine Frame.step hn ?_ (fun hl => frame_evalList n _
      (fun h r hn => frame_kt_5923 n h r hn) _ _ hl)
    refine Frame.step hn ?_ (fun _ => frame_Z7462 n _ _ _ (fresh_alloc n _ _ (hA.1.le hn)))
    refine Frame.step hn ?_ (fun hl => frame_alloc n _ _ hl)
    refine Frame.step hn ?_ (fun hl => frame_alloc n _ _ hl)
    exact hA.1

theorem frame_finish_5923 (n : Nat) (h : Store) (m components rest t : HVal)
    (hn : n ≤ h.length) : Frame n h (H3905.finish h m components rest t).2 := by
  unfold H3905.finish
  have hf : Fresh n (.ref h.length) := fresh_ref n _ hn
  simp only [alloc, H3905.l, createElement]
  split
  · refine Frame.step hn ?_ (fun hl => frame_append n _ _ hl)
    refine Frame.step hn ?_ (fun hl => frame_lLoop_5923 n _ hf _ _ 1 hl)
    refine Frame.step hn ?_ (fun hl => frame_append n _ _ hl)
    refine Frame.step hn ?_ (fun hl => frame_append n _ _ hl)
    refine Frame.step hn ?_ (fun hl => frame_lLoop_5923 n _ hf _ _ 1 hl)
    exact frame_append n _ _ hn
  · refine Frame.step hn ?_ (fun hl => frame_append n _ _ hl)
    refine Frame.step hn ?_ (fun hl => frame_lLoop_5923 n _ hf _ _ 1 hl)
    exact frame_append n _ _ hn

theorem frame_render_5923 (n : Nat) (env : HEnv) (henv : EnvFrame env) (h : Store)
    (ctx e t r : HVal) (h2 : Store) (hn : n ≤ h.length)
    (hr : H3905.d env h ctx e t = .ok (r, h2)) : Frame n h h2 := by
  unfold H3905.d at hr
  cases hg1 : get h e "components" with
  | error err => simp [hg1, bind, Except.bind] at hr
  | ok components =>
  cases hg2 : get h e "mdxType" with
  | error err => simp [hg1, hg2, bind, Except.bind] at hr
  | ok mdxType =>
  cases hg3 : get h e "originalType" with
  | error err => simp [hg1, hg2, hg3, bind, Except.bind] at hr
  | ok originalType =>
  cases hg4 : get h e "parentName" with
  | error err => simp [hg1, hg2, hg3, hg4, bind, Except.bind] at hr
  | ok parentName =>
  simp only [hg1, hg2, hg3, hg4, bind, Except.bind] at hr
  have hA := frame_omit_5923 n h e ["components", "mdxType", "originalType", "parentName"] hn
  cases hm : H3905.p env
      (H3905.a h e ["components", "mdxType", "originalType", "parentName"]).2 ctx
      components with
  | error err => simp [hm] at hr
  | ok pr =>
    obtain ⟨merged, hM⟩ := pr
    have hB := frame_merge_5923 n env henv _ ctx components merged hM (hA.1.le hn) hm
    have hAB := frame_trans hA.1 hB
    simp only [hm] at hr
    cases hres : H3905.resolve hM merged mdxType parentName originalType with
    | error err => simp [hres] at hr
    | ok m =>
      simp only [hres, pure, Except.pure, Except.ok.injEq] at hr
      have e2 := congrArg Prod.snd hr
      simp only at e2
      rw [← e2]
      exact Frame.step hn hAB (fun hl => frame_finish_5923 n _ _ _ _ _ hl)

theorem frame_renderLayout_5923 (n : Nat) (env : HEnv) (henv : EnvFrame env) (h : Store)
    (d ctx props r : HVal) (h2 : Store) (hn : n ≤ h.length)
    (hr : renderLayoutH env h d ctx props = .ok (r, h2)) : Frame n h h2 := by
  unfold renderLayoutH at hr
  cases hp : H7285.f h d props with
  | error err => simp [hp, bind, Except.bind] at hr
  | ok pr =>
    obtain ⟨el, h1⟩ := pr
    simp only [hp, bind, Except.bind] at hr
    have hA := frame_page_5923 n h d props el h1 hn hp
    refine frame_trans hA (frame_renderStep n _ _ env ?_ ?_ henv h1 el r h2 (hA.le hn) hr)
    · intro h e t r h2 hn hr
      exact frame_render_5923 n env henv h ctx e t r h2 hn hr
    · intro h e r h2 hn hr
      exact frame_wrapper_5923 n h e r h2 hn hr

theorem frame_renderPage_5923 (n : Nat) (env : HEnv) (henv : EnvFrame env) (h : Store)
    (d ctx props r : HVal) (h2 : Store) (hn : n ≤ h.length)
    (hr : renderPageH env h d ctx props = .ok (r, h2)) : Frame n h h2 := by
  unfold renderPageH at hr
  cases hp : renderLayoutH env h d ctx props with
  | error err => simp [hp, bind, Except.bind] at hr
  | ok pr =>
    obtain ⟨el, h1⟩ := pr
    simp only [hp, bind, Except.bind] at hr
    have hA := frame_renderLayout_5923 n env henv h d ctx props el h1 hn hp
    refine frame_trans hA (frame_renderStep n _ _ env ?_ ?_ henv h1 el r h2 (hA.le hn) hr)
    · intro h e t r h2 hn hr
      exact frame_render_5923 n env henv h ctx e t r h2 hn hr
    · intro h e r h2 hn hr
      exact frame_wrapper_5923 n h e r h2 hn hr

end Chunk5923

namespace Chunk8648

open Heap

theorem frame_defprop_8648 (n : Nat) (h : Store) (e : HVal) (t : String) (r : HVal)
    (he : Fresh n e) : Frame n h (H3905.n h e t r) := by
  unfold H3905.n defineProperty
  split <;> exact frame_put n h e t r he

theorem frame_lArg_8648 (n : Nat) (h : Store) (e : HVal) (t : Nat) (arg : HVal)
    (he : Fresh n e) (hn : n ≤ h.length) : Frame n h (H3905.lArg h e t arg) := by
  unfold H3905.lArg
  by_cases hnull : (!isNullish arg) = true
  · simp only [hnull, if_true]
    split
    · exact frame_foldl n _ (fun h k => frame_defprop_8648 n h e k _ he) _ h
    · exact frame_defineProperties n h e arg he
  · simp only [hnull, alloc]
    refine frame_trans (frame_append n h [.obj []] hn) ?_
    split
    · exact frame_foldl n _ (fun h k => frame_defprop_8648 n h e k _ he) _ _
    · exact frame_defineProperties n _ e _ he

theorem frame_lLoop_8648 (n : Nat) (e : HVal) (he : Fresh n e) (args : List HVal) :
    ∀ (h : Store) (t : Nat), n ≤ h.length → Frame n h (H3905.lLoop h e t args) := by
  induction args with
  | nil => intro h t _; exact frame_refl n h
  | cons x xs ih =>
    intro h t hn
    have h1 := frame_lArg_8648 n h e t x he hn
    exact frame_trans h1 (ih _ (t + 1) (h1.le hn))

theorem frame_l_8648 (n : Nat) (h : Store) (e : HVal) (args : List HVal) (he : Fresh n e)
    (hn : n ≤ h.length) : Frame n h (H3905.l h e args).2 :=
  frame_lLoop_8648 n e he args h 1 hn

theorem frame_omit_8648 (n : Nat) (h : Store) (e : HVal) (t : List String)
    (hn : n ≤ h.length) :
    Frame n h (H3905.o h e t).2 ∧ Fresh n (H3905.o h e t).1 := by
  by_cases hnull : isNullish e = true
  · simp only [H3905.o, alloc, hnull, if_true]
    exact ⟨frame_append n h _ hn, fresh_ref n _ hn⟩
  · simp only [H3905.o, alloc, hnull]
    exact ⟨frame_trans (frame_append n h [.obj []] hn)
      (frame_copy n _ (fresh_ref n _ hn) t e _ _), fresh_ref n _ hn⟩

theorem frame_wrapper_8648 (n : Nat) (h : Store) (e r : HVal) (h2 : Store)
    (hn : n ≤ h.length) (hr : H3905.wrapper h e = .ok (r, h2)) : Frame n h h2 := by
  unfold H3905.wrapper at hr
  cases hg : get h e "children" with
  | error err => simp [hg, bind, Except.bind] at hr
  | ok t =>
    simp only [hg, bind, Except.bind, pure, Except.pure, alloc, createElement,
      Except.ok.injEq, Prod.mk.injEq] at hr
    rw [← hr.2, List.append_assoc]
    exact frame_append n h _ hn

theorem frame_kt_8648 (n : Nat) (h : Store) (r : List HVal) (hn : n ≤ h.length) :
    Frame n h (H3905.f h r).2 := by
  unfold H3905.f
  simp only [alloc, createElement]
  split
  · have hfresh : Fresh n (.ref h.length) := fresh_ref n _ hn
    have h1 : Frame n h (h ++ [Cell.obj []]) := frame_append n h _ hn
    have h2 := frame_copyAll n (.ref h.length) hfresh (r.getD 1 .undefined)
      (keys (h ++ [Cell.obj []]) (r.getD 1 .undefined)) (h ++ [Cell.obj []])
    have key : ∀ (hx : Store) (c : Cell), Frame n h hx → Frame n h (hx ++ [c]) :=
      fun hx c hf => frame_trans hf (frame_append n hx _ (hf.le hn))
    apply key
    exact frame_trans (frame_trans (frame_trans h1 h2) (frame_put n _ _ _ _ hfresh))
      (frame_put n _ _ _ _ hfresh)
  · exact frame_append n h _ hn

theorem frame_merge_obj_8648 (n : Nat) (env : HEnv) (h : Store)
    (ctx e r : HVal) (h2 : Store) (hn : n ≤ h.length) (hf : typeof e ≠ "function")
    (hr : H3905.c env h ctx e = .ok (r, h2)) : Frame n h h2 := by
  unfold H3905.c at hr
  by_cases ht : truthy e = true
  · simp only [ht, hf, if_true, if_false, alloc, H3905.l, Except.ok.injEq,
      Prod.mk.injEq] at hr
    rw [← hr.2]
    have hfresh : Fresh n (.ref h.length) := fresh_ref n _ hn
    refine Frame.step hn ?_ (fun hl => frame_lLoop_8648 n _ hfresh _ _ 1 hl)
    refine Frame.step hn ?_ (fun hl => frame_lLoop_8648 n _ hfresh _ _ 1 hl)
    exact frame_append n h _ hn
  · simp only [ht] at hr
    simp only [Bool.false_eq_true, if_false, Except.ok.injEq, Prod.mk.injEq] at hr
    rw [← hr.2]
    exact frame_refl n h

theorem frame_merge_8648 (n : Nat) (env : HEnv) (henv : EnvFrame env) (h : Store)
    (ctx e r : HVal) (h2 : Store) (hn : n ≤ h.length)
    (hr : H3905.c env h ctx e = .ok (r, h2)) : Frame n h h2 := by
  by_cases hf : typeof e = "function"
  · unfold H3905.c at hr
    by_cases ht : truthy e = true
    · simp only [ht, hf, if_true] at hr
      unfold H3905.callFn at hr
      cases e <;> simp at hr
      · exact henv n _ _ _ _ _ hn hr
      · exact frame_wrapper_8648 n h ctx r h2 hn hr
    · simp only [ht] at hr
      simp only [Bool.false_eq_true, if_false, Except.ok.injEq, Prod.mk.injEq] at hr
      rw [← hr.2]
      exact frame_refl n h
  · exact frame_merge_obj_8648 n env h ctx e r h2 hn hf hr

theorem frame_page_8648 (n : Nat) (h : Store) (d e r : HVal) (h2 : Store)
    (hn : n ≤ h.length) (hr : H27877.d h d e = .ok (r, h2)) : Frame n h h2 := by
  unfold H27877.d at hr
  cases hg : get h e "components" with
  | error err => simp [hg, bind, Except.bind] at hr
  | ok t =>
    simp only [hg, bind, Except.bind, pure, Except.pure, Except.ok.injEq] at hr
    have e2 := congrArg Prod.snd hr
    simp only at e2
    rw [← e2]
    have hA := frame_restWithout n h e ["components"] hn
    refine Frame.step hn ?_ (fun hl => frame_kt_8648 n _ _ hl)
    refine Frame.step hn ?_ (fun hl => frame_evalList n _
      (fun h r hn => frame_kt_8648 n h r hn) _ _ hl)
    refine Frame.step hn ?_ (fun _ => frame_Z7462 n _ _ _ (fresh_alloc n _ _ (hA.1.le hn)))
    refine Frame.step hn ?_ (fun hl => frame_alloc n _ _ hl)
    refine Frame.step hn ?_ (fun hl => frame_alloc n _ _ hl)
    exact hA.1

theorem frame_finish_8648 (n : Nat) (h : Store) (m components rest t : HVal)
    (hn : n ≤ h.length) : Frame n h (H3905.finish h m components rest t).2 := by
  unfold H3905.finish
  have hf : Fresh n (.ref h.length) := fresh_ref n _ hn
  simp only [alloc, H3905.l, createElement]
  split
  · refine Frame.step hn ?_ (fun hl => frame_append n _ _ hl)
    refine Frame.step hn ?_ (fun hl => frame_lLoop_8648 n _ hf _ _ 1 hl)
    refine Frame.step hn ?_ (fun hl => frame_append n _ _ hl)
    refine Frame.step hn ?_ (fun hl => frame_append n _ _ hl)
    refine Frame.step hn ?_ (fun hl => frame_lLoop_8648 n _ hf _ _ 1 hl)
    exact frame_append n _ _ hn
  · refine Frame.step hn ?_ (fun hl => frame_append n _ _ hl)
    refine Frame.step hn ?_ (fun hl => frame_lLoop_8648 n _ hf _ _ 1 hl)
    exact frame_append n _ _ hn

theorem frame_render_8648 (n : Nat) (env : HEnv) (henv : EnvFrame env) (h : Store)
    (ctx e t r : HVal) (h2 : Store) (hn : n ≤ h.length)
    (hr : H3905.u env h ctx e t = .ok (r, h2)) : Frame n h h2 := by
  unfold H3905.u at hr
  cases hg1 : get h e "components" with
  | error err => simp [hg1, bind, Except.bind] at hr
  | ok components =>
  cases hg2 : get h e "mdxType" with
  | error err => simp [hg1, hg2, bind, Except.bind] at hr
  | ok mdxType =>
  cases hg3 : get h e "originalType" with
  | error err => simp [hg1, hg2, hg3, bind, Except.bind] at hr
  | ok originalType =>
  cases hg4 : get h e "parentName" with
  | error err => simp [hg1, hg2, hg3, hg4, bind, Except.bind] at hr
  | ok parentName =>
  simp only [hg1, hg2, hg3, hg4, bind, Except.bind] at hr
  have hA := frame_omit_8648 n h e ["components", "mdxType", "originalType", "parentName"] hn
  cases hm : H3905.c env
      (H3905.o h e ["components", "mdxType", "originalType", "parentName"]).2 ctx
      components with
  | error err => simp [hm] at hr
  | ok pr =>
    obtain ⟨merged, hM⟩ := pr
    have hB := frame_merge_8648 n env henv _ ctx components merged hM (hA.1.le hn) hm
    have hAB := frame_trans hA.1 hB
    simp only [hm] at hr
    cases hres : H3905.resolve hM merged mdxType parentName originalType with
    | error err => simp [hres] at hr
    | ok m =>
      simp only [hres, pure, Except.pure, Except.ok.injEq] at hr
      have e2 := congrArg Prod.snd hr
      simp only at e2
      rw [← e2]
      exact Frame.step hn hAB (fun hl => frame_finish_8648 n _ _ _ _ _ hl)

theorem frame_renderLayout_8648 (n : Nat) (env : HEnv) (henv : EnvFrame env) (h : Store)
    (d ctx props r : HVal) (h2 : Store) (hn : n ≤ h.length)
    (hr : renderLayoutH env h d ctx props = .ok (r, h2)) : Frame n h h2 := by
  unfold renderLayoutH at hr
  cases hp : H27877.d h d props with
  | error err => simp [hp, bind, Except.bind] at hr
  | ok pr =>
    obtain ⟨el, h1⟩ := pr
    simp only [hp, bind, Except.bind] at hr
    have hA := frame_page_8648 n h d props el h1 hn hp
    refine frame_trans hA (frame_renderStep n _ _ env ?_ ?_ henv h1 el r h2 (hA.le hn) hr)
    · intro h e t r h2 hn hr
      exact frame_render_8648 n env henv h ctx e t r h2 hn hr
    · intro h e r h2 hn hr
      exact frame_wrapper_8648 n h e r h2 hn hr

theorem frame_renderPage_8648 (n : Nat) (env : HEnv) (henv : EnvFrame env) (h : Store)
    (d ctx props r : HVal) (h2 : Store) (hn : n ≤ h.length)
    (hr : renderPageH env h d ctx props = .ok (r, h2)) : Frame n h h2 := by
  unfold renderPageH at hr
  cases hp : renderLayoutH env h d ctx props with
  | error err => simp [hp, bind, Except.bind] at hr
  | ok pr =>
    obtain ⟨el, h1⟩ := pr
    simp only [hp, bind, Except.bind] at hr
    have hA := frame_renderLayout_8648 n env henv h d ctx props el h1 hn hp
    refine frame_trans hA (frame_renderStep n _ _ env ?_ ?_ henv h1 el r h2 (hA.le hn) hr)
    · intro h e t r h2 hn hr
      exact frame_render_8648 n env henv h ctx e t r h2 hn hr
    · intro h e r h2 hn hr
      exact frame_wrapper_8648 n h e r h2 hn hr

end Chunk8648

namespace Chunk6262

open Heap

theorem frame_defprop_6262 (n : Nat) (h : Store) (e : HVal) (t : String) (r : HVal)
    (he : Fresh n e) : Frame n h (H3905.n h e t r) := by
  unfold H3905.n defineProperty
  split <;> exact frame_put n h e t r he

theorem frame_lArg_6262 (n : Nat) (h : Store) (e : HVal) (t : Nat) (arg : HVal)
    (he : Fresh n e) (hn : n ≤ h.length) : Frame n h (H3905.lArg h e t arg) := by
  unfold H3905.lArg
  by_cases hnull : (!isNullish arg) = true
  · simp only [hnull, if_true]
    split
    · exact frame_foldl n _ (fun h k => frame_defprop_6262 n h e k _ he) _ h
    · exact frame_defineProperties n h e arg he
  · simp only [hnull, alloc]
    refine frame_trans (frame_append n h [.obj []] hn) ?_
    split
    · exact frame_foldl n _ (fun h k => frame_defprop_6262 n h e k _ he) _ _
    · exact frame_defineProperties n _ e _ he

theorem frame_lLoop_6262 (n : Nat) (e : HVal) (he : Fresh n e) (args : List HVal) :
    ∀ (h : Store) (t : Nat), n ≤ h.length → Frame n h (H3905.lLoop h e t args) := by
  induction args with
  | nil => intro h t _; exact frame_refl n h
  | cons x xs ih =>
    intro h t hn
    have h1 := frame_lArg_6262 n h e t x he hn
    exact frame_trans h1 (ih _ (t + 1) (h1.le hn))

theorem frame_l_6262 (n : Nat) (h : Store) (e : HVal) (args : List HVal) (he : Fresh n e)
    (hn : n ≤ h.length) : Frame n h (H3905.l h e args).2 :=
  frame_lLoop_6262 n e he args h 1 hn

theorem frame_omit_6262 (n : Nat) (h : Store) (e : HVal) (t : List String)
    (hn : n ≤ h.length) :
    Frame n h (H3905.o h e t).2 ∧ Fresh n (H3905.o h e t).1 := by
  by_cases hnull : isNullish e = true
  · simp only [H3905.o, alloc, hnull, if_true]
    exact ⟨frame_append n h _ hn, fresh_ref n _ hn⟩
  · simp only [H3905.o, alloc, hnull]
    exact ⟨frame_trans (frame_append n h [.obj []] hn)
      (frame_copy n _ (fresh_ref n _ hn) t e _ _), fresh_ref n _ hn⟩

theorem frame_wrapper_6262 (n : Nat) (h : Store) (e r : HVal) (h2 : Store)
    (hn : n ≤ h.length) (hr : H3905.wrapper h e = .ok (r, h2)) : Frame n h h2 := by
  unfold H3905.wrapper at hr
  cases hg : get h e "children" with
  | error err => simp [hg, bind, Except.bind] at hr
  | ok t =>
    simp only [hg, bind, Except.bind, pure, Except.pure, alloc, createElement,
      Except.ok.injEq, Prod.mk.injEq] at hr
    rw [← hr.2, List.append_assoc]
    exact frame_append n h _ hn

theorem frame_kt_6262 (n : Nat) (h : Store) (r : List HVal) (hn : n ≤ h.length) :
    Frame n h (H3905.f h r).2 := by
  unfold H3905.f
  simp only [alloc, createElement]
  split
  · have hfresh : Fresh n (.ref h.length) := fresh_ref n _ hn
    have h1 : Frame n h (h ++ [Cell.obj []]) := frame_append n h _ hn
    have h2 := frame_copyAll n (.ref h.length) hfresh (r.getD 1 .undefined)
      (keys (h ++ [Cell.obj []]) (r.getD 1 .undefined)) (h ++ [Cell.obj []])
    have key : ∀ (hx : Store) (c : Cell), Frame n h hx → Frame n h (hx ++ [c]) :=
      fun hx c hf => frame_trans hf (frame_append n hx _ (hf.le hn))
    apply key
    exact frame_trans (frame_trans (frame_trans h1 h2) (frame_put n _ _ _ _ hfresh))
      (frame_put n _ _ _ _ hfresh)
  · exact frame_append n h _ hn

theorem frame_merge_obj_6262 (n : Nat) (env : HEnv) (h : Store)
    (ctx e r : HVal) (h2 : Store) (hn : n ≤ h.length) (hf : typeof e ≠ "function")
    (hr : H3905.u env h ctx e = .ok (r, h2)) : Frame n h h2 := by
  unfold H3905.u at hr
  by_cases ht : truthy e = true
  · simp only [ht, hf, if_true, if_false, alloc, H3905.l, Except.ok.injEq,
      Prod.mk.injEq] at hr
    rw [← hr.2]
    have hfresh : Fresh n (.ref h.length) := fresh_ref n _ hn
    refine Frame.step hn ?_ (fun hl => frame_lLoop_6262 n _ hfresh _ _ 1 hl)
    refine Frame.step hn ?_ (fun hl => frame_lLoop_6262 n _ hfresh _ _ 1 hl)
    exact frame_append n h _ hn
  · simp only [ht] at hr
    simp only [Bool.false_eq_true, if_false, Except.ok.injEq, Prod.mk.injEq] at hr
    rw [← hr.2]
    exact frame_refl n h

theorem frame_merge_6262 (n : Nat) (env : HEnv) (henv : EnvFrame env) (h : Store)
    (ctx e r : HVal) (h2 : Store) (hn : n ≤ h.length)
    (hr : H3905.u env h ctx e = .ok (r, h2)) : Frame n h h2 := by
  by_cases hf : typeof e = "function"
  · unfold H3905.u at hr
    by_cases ht : truthy e = true
    · simp only [ht, hf, if_true] at hr
      unfold H3905.callFn at hr
      cases e <;> simp at hr
      · exact henv n _ _ _ _ _ hn hr
      · exact frame_wrapper_6262 n h ctx r h2 hn hr
    · simp only [ht] at hr
      simp only [Bool.false_eq_true, if_false, Except.ok.injEq, Prod.mk.injEq] at hr
      rw [← hr.2]
      exact frame_refl n h
  · exact frame_merge_obj_6262 n env h ctx e r h2 hn hf hr

theorem frame_page_6262 (n : Nat) (h : Store) (d e r : HVal) (h2 : Store)
    (hn : n ≤ h.length) (hr : H5796.d h d e = .ok (r, h2)) : Frame n h h2 := by
  unfold H5796.d at hr
  cases hg : get h e "components" with
  | error err => simp [hg, bind, Except.bind] at hr
  | ok t =>
    simp only [hg, bind, Except.bind, pure, Except.pure, Except.ok.injEq] at hr
    have e2 := congrArg Prod.snd hr
    simp only at e2
    rw [← e2]
    have hA := frame_restWithout n h e ["components"] hn
    refine Frame.step hn ?_ (fun hl => frame_kt_6262 n _ _ hl)
    refine Frame.step hn ?_ (fun hl => frame_evalList n _
      (fun h r hn => frame_kt_6262 n h r hn) _ _ hl)
    refine Frame.step hn ?_ (fun _ => frame_Z7462 n _ _ _ (fresh_alloc n _ _ (hA.1.le hn)))
    refine Frame.step hn ?_ (fun hl => frame_alloc n _ _ hl)
    refine Frame.step hn ?_ (fun hl => frame_alloc n _ _ hl)
    exact hA.1

theorem frame_finish_6262 (n : Nat) (h : Store) (m components rest t : HVal)
    (hn : n ≤ h.length) : Frame n h (H3905.finish h m components rest t).2 := by
  unfold H3905.finish
  have hf : Fresh n (.ref h.length) := fresh_ref n _ hn
  simp only [alloc, H3905.l, createElement]
  split
  · refine Frame.step hn ?_ (fun hl => frame_append n _ _ hl)
    refine Frame.step hn ?_ (fun hl => frame_lLoop_6262 n _ hf _ _ 1 hl)
    refine Frame.step hn ?_ (fun hl => frame_append n _ _ hl)
    refine Frame.step hn ?_ (fun hl => frame_append n _ _ hl)
    refine Frame.step hn ?_ (fun hl => frame_lLoop_6262 n _ hf _ _ 1 hl)
    exact frame_append n _ _ hn
  · refine Frame.step hn ?_ (fun hl => frame_append n _ _ hl)
    refine Frame.step hn ?_ (fun hl => frame_lLoop_6262 n _ hf _ _ 1 hl)
    exact frame_append n _ _ hn

theorem frame_render_6262 (n : Nat) (env : HEnv) (henv : EnvFrame env) (h : Store)
    (ctx e t r : HVal) (h2 : Store) (hn : n ≤ h.length)
    (hr : H3905.m env h ctx e t = .ok (r, h2)) : Frame n h h2 := by
  unfold H3905.m at hr
  cases hg1 : get h e "components" with
  | error err => simp [hg1, bind, Except.bind] at hr
  | ok components =>
  cases hg2 : get h e "mdxType" with
  | error err => simp [hg1, hg2, bind, Except.bind] at hr
  | ok mdxType =>
  cases hg3 : get h e "originalType" with
  | error err => simp [hg1, hg2, hg3, bind, Except.bind] at hr
  | ok originalType =>
  cases hg4 : get h e "parentName" with
  | error err => simp [hg1, hg2, hg3, hg4, bind, Except.bind] at hr
  | ok parentName =>
  simp only [hg1, hg2, hg3, hg4, bind, Except.bind] at hr
  have hA := frame_omit_6262 n h e ["components", "mdxType", "originalType", "parentName"] hn
  cases hm : H3905.u env
      (H3905.o h e ["components", "mdxType", "originalType", "parentName"]).2 ctx
      components with
  | error err => simp [hm] at hr
  | ok pr =>
    obtain ⟨merged, hM⟩ := pr
    have hB := frame_merge_6262 n env henv _ ctx components merged hM (hA.1.le hn) hm
    have hAB := frame_trans hA.1 hB
    simp only [hm] at hr
    cases hres : H3905.resolve hM merged mdxType parentName originalType with
    | error err => simp [hres] at hr
    | ok m =>
      simp only [hres, pure, Except.pure, Except.ok.injEq] at hr
      have e2 := congrArg Prod.snd hr
      simp only at e2
      rw [← e2]
      exact Frame.step hn hAB (fun hl => frame_finish_6262 n _ _ _ _ _ hl)

theorem frame_renderLayout_6262 (n : Nat) (env : HEnv) (henv : EnvFrame env) (h : Store)
    (d ctx props r : HVal) (h2 : Store) (hn : n ≤ h.length)
    (hr : renderLayoutH env h d ctx props = .ok (r, h2)) : Frame n h h2 := by
  unfold renderLayoutH at hr
  cases hp : H5796.d h d props with
  | error err => simp [hp, bind, Except.bind] at hr
  | ok pr =>
    obtain ⟨el, h1⟩ := pr
    simp only [hp, bind, Except.bind] at hr
    have hA := frame_page_6262 n h d props el h1 hn hp
    refine frame_trans hA (frame_renderStep n _ _ env ?_ ?_ henv h1 el r h2 (hA.le hn) hr)
    · intro h e t r h2 hn hr
      exact frame_render_6262 n env henv h ctx e t r h2 hn hr
    · intro h e r h2 hn hr
      exact frame_wrapper_6262 n h e r h2 hn hr

theorem frame_renderPage_6262 (n : Nat) (env : HEnv) (henv : EnvFrame env) (h : Store)
    (d ctx props r : HVal) (h2 : Store) (hn : n ≤ h.length)
    (hr : renderPageH env h d ctx props = .ok (r, h2)) : Frame n h h2 := by
  unfold renderPageH at hr
  cases hp : renderLayoutH env h d ctx props with
  | error err => simp [hp, bind, Except.bind] at hr
  | ok pr =>
    obtain ⟨el, h1⟩ := pr
    simp only [hp, bind, Except.bind] at hr
    have hA := frame_renderLayout_6262 n env henv h d ctx props el h1 hn hp
    refine frame_trans hA (frame_renderStep n _ _ env ?_ ?_ henv h1 el r h2 (hA.le hn) hr)
    · intro h e t r h2 hn hr
      exact frame_render_6262 n env henv h ctx e t r h2 hn hr
    · intro h e r h2 hn hr
      exact frame_wrapper_6262 n h e r h2 hn hr

end Chunk6262


/-! ## Records and inputs are not mutated -/

theorem envFrame_envId : Heap.EnvFrame Example.envId := by
  intro n i v h r h2 _ hr
  simp only [Example.envId, Except.ok.injEq, Prod.mk.injEq] at hr
  rw [← hr.2]
  exact Heap.frame_refl n h

open Heap in
/-- C7: on the store, every cell that exists before the call is the same after it, so that
neither the static record of a page nor an input object is mutated: (a) for the rendering of
each page (the page function, and React rendering the layout after it when the functions
supplied from outside keep the existing cells), (b) for the merge routine of each copy of module 3905
on a `components` that is not a function, whose result on a truthy `components` is a new
object, and (c) for `kt` of each copy. -/
theorem records_and_inputs_never_mutated (env : HEnv) (h : Store)
    (d ctx props e : HVal) (args : List HVal) (he : typeof e ≠ "function") :
    (Frame h.length h (Chunk5923.H3905.f h args).2 ∧
      Frame h.length h (Chunk8648.H3905.f h args).2 ∧
      Frame h.length h (Chunk6262.H3905.f h args).2) ∧
    ((∀ r h2, Chunk5923.H3905.p env h ctx e = .ok (r, h2) →
        Frame h.length h h2 ∧ (truthy e = true → r = .ref h.length)) ∧
      (∀ r h2, Chunk8648.H3905.c env h ctx e = .ok (r, h2) →
        Frame h.length h h2 ∧ (truthy e = true → r = .ref h.length)) ∧
      (∀ r h2, Chunk6262.H3905.u env h ctx e = .ok (r, h2) →
        Frame h.length h h2 ∧ (truthy e = true → r = .ref h.length))) ∧
    ((∀ r h2, Chunk5923.H7285.f h d props = .ok (r, h2) → Frame h.length h h2) ∧
      (∀ r h2, Chunk8648.H27877.d h d props = .ok (r, h2) → Frame h.length h h2) ∧
      (∀ r h2, Chunk6262.H5796.d h d props = .ok (r, h2) → Frame h.length h h2)) ∧
    (EnvFrame env →
      (∀ r h2, Chunk5923.renderPageH env h d ctx props = .ok (r, h2) → Frame h.length h h2) ∧
      (∀ r h2, Chunk8648.renderPageH env h d ctx props = .ok (r, h2) → Frame h.length h h2) ∧
      (∀ r h2, Chunk6262.renderPageH env h d ctx props = .ok (r, h2) →
        Frame h.length h h2)) := by
  have hn : h.length ≤ h.length := Nat.le_refl _
  refine ⟨⟨?_, ?_, ?_⟩, ⟨?_, ?_, ?_⟩, ⟨?_, ?_, ?_⟩, fun henv => ⟨?_, ?_, ?_⟩⟩
  · exact Chunk5923.frame_kt_5923 _ h args hn
  · exact Chunk8648.frame_kt_8648 _ h args hn
  · exact Chunk6262.frame_kt_6262 _ h args hn
  · intro r h2 hr
    refine ⟨Chunk5923.frame_merge_obj_5923 _ env h ctx e r h2 hn he hr, fun ht => ?_⟩
    simp only [Chunk5923.H3905.p, ht, he, if_true, if_false, alloc, Chunk5923.H3905.l,
      Except.ok.injEq, Prod.mk.injEq] at hr
    exact hr.1.symm
  · intro r h2 hr
    refine ⟨Chunk8648.frame_merge_obj_8648 _ env h ctx e r h2 hn he hr, fun ht => ?_⟩
    simp only [Chunk8648.H3905.c, ht, he, if_true, if_false, alloc, Chunk8648.H3905.l,
      Except.ok.injEq, Prod.mk.injEq] at hr
    exact hr.1.symm
  · intro r h2 hr
    refine ⟨Chunk6262.frame_merge_obj_6262 _ env h ctx e r h2 hn he hr, fun ht => ?_⟩
    simp only [Chunk6262.H3905.u, ht, he, if_true, if_false, alloc, Chunk6262.H3905.l,
      Except.ok.injEq, Prod.mk.injEq] at hr
    exact hr.1.symm
  · exact fun r h2 hr => Chunk5923.frame_page_5923 _ h d props r h2 hn hr
  · exact fun r h2 hr => Chunk8648.frame_page_8648 _ h d props r h2 hn hr
  · exact fun r h2 hr => Chunk6262.frame_page_6262 _ h d props r h2 hn hr
  · exact fun r h2 hr => Chunk5923.frame_renderPage_5923 _ env henv h d ctx props r h2 hn hr
  · exact fun r h2 hr => Chunk8648.frame_renderPage_8648 _ env henv h d ctx props r h2 hn hr
  · exact fun r h2 hr => Chunk6262.frame_renderPage_6262 _ env henv h d ctx props r h2 hn hr

open Heap in
/-- Witness of C7: on a store of four cells, the merge of a props object over an inherited
collection allocates the merged collection as a fifth cell and keeps the four cells. -/
theorem records_and_inputs_never_mutated_witness :
    EnvFrame Example.envId ∧ typeof (.ref 2) ≠ "function" ∧
    Chunk5923.H3905.p Example.envId Example.store (.ref 3) (.ref 2)
      = .ok (.ref 4, Example.store ++ [.obj [("h2", .fn 1), ("title", .str "x")]]) ∧
    Frame 4 Example.store (Example.store ++ [.obj [("h2", .fn 1), ("title", .str "x")]]) :=
  ⟨envFrame_envId, by decide, rfl,
   ((records_and_inputs_never_mutated Example.envId Example.store (.ref 0)
     (.ref 3) (.ref 2) (.ref 2) [] (by decide)).2.1.1 _ _ rfl).1⟩

/-! ## Relocation lemmas on the store -/

namespace Heap

theorem shiftV_of_valid (n k : Nat) (v : HVal) (hv : ValidV n v) : shiftV n k v = v := by
  cases v <;> simp_all [shiftV, ValidV]

theorem shiftProps_of_valid (n k : Nat) (ps : HProps) (hv : ∀ kv ∈ ps, ValidV n kv.2) :
    shiftProps n k ps = ps := by
  induction ps with
  | nil => rfl
  | cons kv ps ih =>
    have h1 := shiftV_of_valid n k kv.2 (hv kv (List.mem_cons_self _ _))
    have h2 := ih (fun x hx => hv x (List.mem_cons_of_mem _ hx))
    simp only [shiftProps, List.map_cons] at h2 ⊢
    rw [h1, h2]

theorem shiftV_ref_ge (n k a : Nat) (ha : n ≤ a) : shiftV n k (.ref a) = .ref (a + k) := by
  simp [shiftV, Nat.not_lt.2 ha]

theorem shiftV_ref_lt (n k a : Nat) (ha : a < n) : shiftV n k (.ref a) = .ref a := by
  simp [shiftV, ha]

theorem truthy_shiftV (n k : Nat) (v : HVal) : truthy (shiftV n k v) = truthy v := by
  cases v <;> rfl

theorem isNullish_shiftV (n k : Nat) (v : HVal) : isNullish (shiftV n k v) = isNullish v := by
  cases v <;> rfl

theorem typeof_shiftV (n k : Nat) (v : HVal) : typeof (shiftV n k v) = typeof v := by
  cases v <;> rfl

theorem toStr_shiftV (n k : Nat) (v : HVal) : toStr (shiftV n k v) = toStr v := by
  cases v <;> rfl

theorem jsOr_shiftV (n k : Nat) (a b : HVal) :
    jsOr (shiftV n k a) (shiftV n k b) = shiftV n k (jsOr a b) := by
  unfold jsOr; rw [truthy_shiftV]; split <;> rfl

theorem jsAnd_shiftV (n k : Nat) (a b : HVal) :
    jsAnd (shiftV n k a) (shiftV n k b) = shiftV n k (jsAnd a b) := by
  unfold jsAnd; rw [truthy_shiftV]; split <;> rfl

theorem hGet_shiftProps (n k : Nat) (ps : HProps) (key : String) :
    hGet (shiftProps n k ps) key = shiftV n k (hGet ps key) := by
  induction ps with
  | nil => rfl
  | cons kv ps ih =>
    obtain ⟨k0, v0⟩ := kv
    simp only [shiftProps, List.map_cons, hGet] at ih ⊢
    split
    · rfl
    · exact ih

theorem hHas_shiftProps (n k : Nat) (ps : HProps) (key : String) :
    hHas (shiftProps n k ps) key = hHas ps key := by
  induction ps with
  | nil => rfl
  | cons kv ps ih =>
    obtain ⟨k0, v0⟩ := kv
    simp only [shiftProps, List.map_cons, hHas] at ih ⊢
    split
    · rfl
    · exact ih

theorem keys_shiftProps (n k : Nat) (ps : HProps) :
    (shiftProps n k ps).map Prod.fst = ps.map Prod.fst := by
  simp [shiftProps, List.map_map, Function.comp_def]

theorem hSet_shiftProps (n k : Nat) (ps : HProps) (key : String) (x : HVal) :
    hSet (shiftProps n k ps) key (shiftV n k x) = shiftProps n k (hSet ps key x) := by
  induction ps with
  | nil => rfl
  | cons kv ps ih =>
    obtain ⟨k0, v0⟩ := kv
    simp only [shiftProps, List.map_cons, hSet] at ih ⊢
    split
    · rfl
    · simp only [List.map_cons, ih]

theorem setCell_shiftCell (n k : Nat) (key : String) (x : HVal) (c : Cell) :
    setCell key (shiftV n k x) (shiftCell n k c) = shiftCell n k (setCell key x c) := by
  cases c <;> simp [setCell, shiftCell, hSet_shiftProps]

theorem length_reloc (n : Nat) (ext h : Store) (hn : n ≤ h.length) :
    (reloc n ext h).length = h.length + ext.length := by
  simp only [reloc, List.length_append, List.length_take, List.length_map, List.length_drop]
  omega

theorem reloc_append (n : Nat) (ext h t : Store) (hn : n ≤ h.length) :
    reloc n ext (h ++ t) = reloc n ext h ++ t.map (shiftCell n ext.length) := by
  simp only [reloc]
  rw [List.take_append_of_le_length hn, List.drop_append_of_le_length hn]
  simp [List.append_assoc]

theorem getElem?_reloc_lt (n : Nat) (ext h : Store) (a : Nat) (hn : n ≤ h.length)
    (ha : a < n) : (reloc n ext h)[a]? = h[a]? := by
  simp only [reloc, List.append_assoc]
  rw [List.getElem?_append_left (by simp; omega)]
  exact List.getElem?_take_of_lt ha

theorem getElem?_reloc_ge (n : Nat) (ext h : Store) (a : Nat) (hn : n ≤ h.length)
    (ha : n ≤ a) :
    (reloc n ext h)[a + ext.length]? = (h[a]?).map (shiftCell n ext.length) := by
  simp only [reloc]
  rw [List.getElem?_append_right (by simp; omega)]
  simp only [List.length_append, List.length_take, Nat.min_eq_left hn, List.getElem?_map,
    List.getElem?_drop]
  congr 2
  omega

end Heap

namespace Heap

theorem update_append_right (l1 l2 : Store) (a : Nat) (g : Cell → Cell)
    (ha : l1.length ≤ a) : update (l1 ++ l2) a g = l1 ++ update l2 (a - l1.length) g := by
  induction l1 generalizing a with
  | nil => simp
  | cons c cs ih =>
    cases a with
    | zero => simp at ha
    | succ a =>
      simp only [List.length_cons, Nat.add_le_add_iff_right] at ha
      simp [update, ih a ha]

theorem update_map (f : Cell → Cell) (g g2 : Cell → Cell) (hg : ∀ c, g2 (f c) = f (g c))
    (l : Store) (a : Nat) : update (l.map f) a g2 = (update l a g).map f := by
  induction l generalizing a with
  | nil => rfl
  | cons c cs ih => cases a <;> simp [update, hg, ih]

theorem take_update (h : Store) (n a : Nat) (g : Cell → Cell) (ha : n ≤ a) :
    (update h a g).take n = h.take n := by
  induction h generalizing n a with
  | nil => rfl
  | cons c cs ih =>
    cases n with
    | zero => rfl
    | succ n =>
      cases a with
      | zero => simp at ha
      | succ a => simp [update, ih n a (by omega)]

theorem drop_update (h : Store) (n a : Nat) (g : Cell → Cell) (ha : n ≤ a) :
    (update h a g).drop n = update (h.drop n) (a - n) g := by
  induction h generalizing n a with
  | nil => simp [update]
  | cons c cs ih =>
    cases n with
    | zero => simp
    | succ n =>
      cases a with
      | zero => simp at ha
      | succ a =>
        simp only [update, List.drop_succ_cons, Nat.add_sub_add_right]
        exact ih n a (by omega)

theorem reloc_update (n : Nat) (ext h : Store) (a : Nat) (g g2 : Cell → Cell)
    (hg : ∀ c, g2 (shiftCell n ext.length c) = shiftCell n ext.length (g c))
    (hn : n ≤ h.length) (ha : n ≤ a) :
    update (reloc n ext h) (a + ext.length) g2 = reloc n ext (update h a g) := by
  simp only [reloc]
  rw [update_append_right _ _ _ _ (by simp; omega), take_update h n a g ha,
    drop_update h n a g ha, update_map _ g g2 hg]
  have hlen : a + ext.length - (List.take n h ++ ext).length = a - n := by
    simp only [List.length_append, List.length_take, Nat.min_eq_left hn]
    omega
  rw [hlen]

theorem put_reloc (n : Nat) (ext h : Store) (o : HVal) (key : String) (x : HVal)
    (hn : n ≤ h.length) (ho : Fresh n o) :
    put (reloc n ext h) (shiftV n ext.length o) key (shiftV n ext.length x)
      = reloc n ext (put h o key x) := by
  cases o
  case ref a =>
    have ha : n ≤ a := ho a rfl
    rw [shiftV_ref_ge n _ a ha]
    exact reloc_update n ext h a _ _ (setCell_shiftCell n _ key x) hn ha
  all_goals rfl

theorem ownProps_reloc (n : Nat) (ext h : Store) (v : HVal) (hg : Good n h) :
    ownProps (reloc n ext h) (shiftV n ext.length v)
      = shiftProps n ext.length (ownProps h v) := by
  cases v
  case ref a =>
    by_cases ha : a < n
    · rw [shiftV_ref_lt n _ a ha]
      simp only [ownProps, getElem?_reloc_lt n ext h a hg.1 ha]
      cases hc : h[a]? with
      | none => rfl
      | some c =>
        cases c with
        | obj ps =>
          have hv := hg.2 a _ ha hc
          exact (shiftProps_of_valid n _ ps hv).symm
        | arr items => rfl
        | elem t c ch => rfl
    · have ha2 : n ≤ a := Nat.not_lt.1 ha
      rw [shiftV_ref_ge n _ a ha2]
      simp only [ownProps, getElem?_reloc_ge n ext h a hg.1 ha2]
      cases hc : h[a]? with
      | none => rfl
      | some c => cases c <;> rfl
  all_goals rfl

theorem keys_reloc (n : Nat) (ext h : Store) (v : HVal) (hg : Good n h) :
    keys (reloc n ext h) (shiftV n ext.length v) = keys h v := by
  simp only [keys, ownProps_reloc n ext h v hg, keys_shiftProps]

theorem getProp_reloc (n : Nat) (ext h : Store) (v : HVal) (key : String) (hg : Good n h) :
    getProp (reloc n ext h) (shiftV n ext.length v) key
      = shiftV n ext.length (getProp h v key) := by
  simp only [getProp, ownProps_reloc n ext h v hg, hGet_shiftProps]

theorem hasProp_reloc (n : Nat) (ext h : Store) (v : HVal) (key : String) (hg : Good n h) :
    hasProp (reloc n ext h) (shiftV n ext.length v) key = hasProp h v key := by
  simp only [hasProp, ownProps_reloc n ext h v hg, hHas_shiftProps]

theorem get_reloc (n : Nat) (ext h : Store) (v : HVal) (key : String) (hg : Good n h)
    (r : HVal) (hr : get h v key = .ok r) :
    get (reloc n ext h) (shiftV n ext.length v) key = .ok (shiftV n ext.length r) := by
  unfold get at hr ⊢
  rw [isNullish_shiftV]
  split at hr
  · simp at hr
  · rename_i hnull
    simp only [Except.ok.injEq] at hr
    simp only [hnull, Bool.false_eq_true, if_false, getProp_reloc n ext h v key hg, hr]

theorem shiftV_hGet_of_all (ps : HProps) (n k : Nat) (key : String)
    (hall : ∀ kv ∈ ps, shiftV n k kv.2 = kv.2) : shiftV n k (hGet ps key) = hGet ps key := by
  induction ps with
  | nil => rfl
  | cons kv ps ih =>
    obtain ⟨k0, v0⟩ := kv
    simp only [hGet]
    split
    · exact hall (k0, v0) (List.mem_cons_self _ _)
    · exact ih (fun kv hkv => hall kv (List.mem_cons_of_mem _ hkv))

/-- The members of `Object.prototype` are no references into the store. -/
theorem objectPrototype_shift (n k : Nat) (key : String) :
    shiftV n k (hGet objectPrototype key) = hGet objectPrototype key :=
  shiftV_hGet_of_all objectPrototype n k key (by simp [objectPrototype, shiftV])

theorem memberOf_shiftProps (n k : Nat) (ps : HProps) (key : String) :
    memberOf (shiftProps n k ps) key = shiftV n k (memberOf ps key) := by
  unfold memberOf
  rw [hHas_shiftProps, hGet_shiftProps]
  split
  · rfl
  · exact (objectPrototype_shift n k key).symm

theorem getMember_reloc (n : Nat) (ext h : Store) (v : HVal) (key : String) (hg : Good n h)
    (r : HVal) (hr : getMember h v key = .ok r) :
    getMember (reloc n ext h) (shiftV n ext.length v) key = .ok (shiftV n ext.length r) := by
  unfold getMember at hr ⊢
  rw [isNullish_shiftV]
  split at hr
  · simp at hr
  · rename_i hnull
    simp only [Except.ok.injEq] at hr
    simp only [hnull, Bool.false_eq_true, if_false, ownProps_reloc n ext h v hg,
      memberOf_shiftProps, hr]

theorem Good.frame {n : Nat} {h h2 : Store} (hg : Good n h) (hf : Frame n h h2) :
    Good n h2 :=
  ⟨hf.le hg.1, fun a c ha hc => hg.2 a c ha ((hf.2 a ha).symm.trans hc)⟩

theorem alloc_reloc (n : Nat) (ext h : Store) (c : Cell) (hn : n ≤ h.length) :
    alloc (reloc n ext h) (shiftCell n ext.length c)
      = (shiftV n ext.length (alloc h c).1, reloc n ext (alloc h c).2) := by
  simp only [alloc, length_reloc n ext h hn, shiftV_ref_ge n _ _ hn,
    reloc_append n ext h _ hn, List.map_cons, List.map_nil]

end Heap

namespace Heap

theorem good_append {n : Nat} {h : Store} (hg : Good n h) (t : Store) : Good n (h ++ t) :=
  hg.frame (frame_append n h t hg.1)

theorem good_put {n : Nat} {h : Store} (hg : Good n h) (o : HVal) (key : String) (x : HVal)
    (ho : Fresh n o) : Good n (put h o key x) :=
  hg.frame (frame_put n h o key x ho)

theorem reloc_snoc (n : Nat) (ext h : Store) (c c2 : Cell) (hn : n ≤ h.length)
    (hc : c2 = shiftCell n ext.length c) :
    reloc n ext h ++ [c2] = reloc n ext (h ++ [c]) := by
  rw [reloc_append n ext h _ hn, hc]; rfl

theorem ref_length_reloc (n : Nat) (ext h : Store) (hn : n ≤ h.length) :
    HVal.ref (reloc n ext h).length = shiftV n ext.length (.ref h.length) := by
  rw [length_reloc n ext h hn, shiftV_ref_ge n _ _ hn]

theorem copy_reloc (n : Nat) (ext : Store) (o src : HVal) (ho : Fresh n o)
    (excluded ks : List String) (h : Store) (hg : Good n h) :
    ks.foldl (fun h k => if k ∈ excluded then h
        else put h (shiftV n ext.length o) k (getProp h (shiftV n ext.length src) k))
      (reloc n ext h)
    = reloc n ext (ks.foldl (fun h k => if k ∈ excluded then h
        else put h o k (getProp h src k)) h) := by
  induction ks generalizing h with
  | nil => rfl
  | cons k ks ih =>
    simp only [List.foldl_cons]
    by_cases hk : k ∈ excluded
    · simp only [hk, if_true]
      exact ih h hg
    · simp only [hk, if_false]
      rw [getProp_reloc n ext h src k hg, put_reloc n ext h o k _ hg.1 ho]
      exact ih _ (good_put hg o k _ ho)

theorem copyAll_reloc (n : Nat) (ext : Store) (o src : HVal) (ho : Fresh n o)
    (ks : List String) (h : Store) (hg : Good n h) :
    ks.foldl (fun h k => put h (shiftV n ext.length o) k
        (getProp h (shiftV n ext.length src) k)) (reloc n ext h)
    = reloc n ext (ks.foldl (fun h k => put h o k (getProp h src k)) h) := by
  induction ks generalizing h with
  | nil => rfl
  | cons k ks ih =>
    simp only [List.foldl_cons]
    rw [getProp_reloc n ext h src k hg, put_reloc n ext h o k _ hg.1 ho]
    exact ih _ (good_put hg o k _ ho)

theorem defineProperties_reloc (n : Nat) (ext h : Store) (o r : HVal) (ho : Fresh n o)
    (hg : Good n h) :
    defineProperties (reloc n ext h) (shiftV n ext.length o) (shiftV n ext.length r)
      = reloc n ext (defineProperties h o r) := by
  unfold defineProperties
  rw [keys_reloc n ext h r hg]
  exact copyAll_reloc n ext o r ho _ h hg

theorem restWithout_reloc (n : Nat) (ext h : Store) (e : HVal) (excluded : List String)
    (hg : Good n h) :
    restWithout (reloc n ext h) (shiftV n ext.length e) excluded
      = (shiftV n ext.length (restWithout h e excluded).1,
         reloc n ext (restWithout h e excluded).2) := by
  simp only [restWithout, alloc]
  rw [ref_length_reloc n ext h hg.1, reloc_snoc n ext h (.obj []) (.obj []) hg.1 rfl,
    keys_reloc n ext _ e (good_append hg _),
    copy_reloc n ext _ e (fresh_ref n _ hg.1) excluded _ _ (good_append hg _)]

theorem Z3366_reloc (n : Nat) (ext h : Store) (e : HVal) (excluded : List String)
    (hg : Good n h) :
    Z3366 (reloc n ext h) (shiftV n ext.length e) excluded
      = (shiftV n ext.length (Z3366 h e excluded).1, reloc n ext (Z3366 h e excluded).2) := by
  simp only [Z3366, alloc, isNullish_shiftV]
  rw [ref_length_reloc n ext h hg.1, reloc_snoc n ext h (.obj []) (.obj []) hg.1 rfl]
  split
  · rfl
  · rw [keys_reloc n ext _ e (good_append hg _),
      copy_reloc n ext _ e (fresh_ref n _ hg.1) excluded _ _ (good_append hg _)]

theorem Z7462_reloc (n : Nat) (ext : Store) (target : HVal) (ht : Fresh n target)
    (sources : List HVal) (h : Store) (hg : Good n h) :
    Z7462 (reloc n ext h) (shiftV n ext.length target) (sources.map (shiftV n ext.length))
      = (shiftV n ext.length (Z7462 h target sources).1,
         reloc n ext (Z7462 h target sources).2) := by
  simp only [Z7462, Prod.mk.injEq, true_and]
  induction sources generalizing h with
  | nil => rfl
  | cons s ss ih =>
    simp only [List.map_cons, List.foldl_cons]
    rw [keys_reloc n ext h s hg, copyAll_reloc n ext target s ht _ h hg]
    exact ih _ (hg.frame (frame_copyAll n target ht s _ h))

theorem createElement_reloc (n : Nat) (ext h : Store) (args : List HVal)
    (hn : n ≤ h.length) :
    createElement (reloc n ext h) (args.map (shiftV n ext.length))
      = (shiftV n ext.length (createElement h args).1,
         reloc n ext (createElement h args).2) := by
  simp only [createElement, alloc]
  rw [ref_length_reloc n ext h hn]
  congr 1
  apply reloc_snoc n ext h _ _ hn
  simp only [shiftCell, Cell.elem.injEq, List.map_drop, and_true]
  constructor
  · cases args with
    | nil => rfl
    | cons a as => rfl
  · cases args with
    | nil => rfl
    | cons a as =>
      cases as with
      | nil => rfl
      | cons b bs => rfl

end Heap

namespace Heap

theorem map_shiftV_of_valid (n k : Nat) (vs : List HVal) (hv : ∀ v ∈ vs, ValidV n v) :
    vs.map (shiftV n k) = vs := by
  induction vs with
  | nil => rfl
  | cons v vs ih =>
    simp only [List.map_cons]
    rw [shiftV_of_valid n k v (hv v (List.mem_cons_self _ _)),
      ih (fun x hx => hv x (List.mem_cons_of_mem _ hx))]

theorem shiftCell_of_valid (n k : Nat) (c : Cell) (hv : ValidCell n c) : shiftCell n k c = c := by
  cases c with
  | obj ps => simp only [shiftCell, shiftProps_of_valid n k ps hv]
  | arr items => simp only [shiftCell, map_shiftV_of_valid n k items hv]
  | elem t c ch =>
    simp only [shiftCell, shiftV_of_valid n k t hv.1, shiftV_of_valid n k c hv.2.1,
      map_shiftV_of_valid n k ch hv.2.2]

theorem getElem?_reloc_shift (n : Nat) (ext h : Store) (a : Nat) (hg : Good n h) :
    ∃ b, shiftV n ext.length (.ref a) = .ref b ∧
      (reloc n ext h)[b]? = (h[a]?).map (shiftCell n ext.length) := by
  by_cases ha : a < n
  · refine ⟨a, shiftV_ref_lt n _ a ha, ?_⟩
    rw [getElem?_reloc_lt n ext h a hg.1 ha]
    cases hc : h[a]? with
    | none => rfl
    | some c => simp only [Option.map_some', shiftCell_of_valid n _ c (hg.2 a c ha hc)]
  · have ha2 : n ≤ a := Nat.not_lt.1 ha
    exact ⟨a + ext.length, shiftV_ref_ge n _ a ha2, getElem?_reloc_ge n ext h a hg.1 ha2⟩

theorem typeOf_reloc (n : Nat) (ext h : Store) (el : HVal) (hg : Good n h) :
    typeOf (reloc n ext h) (shiftV n ext.length el) = shiftV n ext.length (typeOf h el) := by
  cases el
  case ref a =>
    obtain ⟨b, hb, hcell⟩ := getElem?_reloc_shift n ext h a hg
    rw [hb]
    simp only [typeOf, hcell]
    cases h[a]? with
    | none => rfl
    | some c => cases c <;> rfl
  all_goals rfl

theorem refOf_reloc (n : Nat) (ext h : Store) (el : HVal) (hg : Good n h) :
    refOf (reloc n ext h) (shiftV n ext.length el) = shiftV n ext.length (refOf h el) := by
  cases el
  case ref a =>
    obtain ⟨b, hb, hcell⟩ := getElem?_reloc_shift n ext h a hg
    rw [hb]
    simp only [refOf, hcell]
    cases h[a]? with
    | none => rfl
    | some c =>
      cases c with
      | obj ps => rfl
      | arr items => rfl
      | elem t c ch =>
        simp only [Option.map_some', shiftCell, getProp_reloc n ext h c "ref" hg]
        cases getProp h c "ref" <;> rfl
  all_goals rfl

theorem propsOf_reloc (n : Nat) (ext h : Store) (el : HVal) (hg : Good n h) :
    propsOf (reloc n ext h) (shiftV n ext.length el)
      = (shiftV n ext.length (propsOf h el).1, reloc n ext (propsOf h el).2) := by
  have hnil : alloc (reloc n ext h) (Cell.obj [])
      = (shiftV n ext.length (alloc h (Cell.obj [])).1,
         reloc n ext (alloc h (Cell.obj [])).2) := alloc_reloc n ext h (.obj []) hg.1
  cases el
  case ref a =>
    obtain ⟨b, hb, hcell⟩ := getElem?_reloc_shift n ext h a hg
    rw [hb]
    simp only [propsOf, hcell]
    cases h[a]? with
    | none => exact hnil
    | some c =>
      cases c with
      | obj ps => exact hnil
      | arr items => exact hnil
      | elem t c ch =>
        have hf : Fresh n (.ref h.length) := fresh_ref n _ hg.1
        have hg1 : Good n (h ++ [Cell.obj []]) := good_append hg _
        have hg2 := hg1.frame (frame_copy n _ hf ["key", "ref", "__self", "__source"] c
          (keys (h ++ [Cell.obj []]) c) (h ++ [Cell.obj []]))
        simp only [Option.map_some', shiftCell, alloc]
        rw [ref_length_reloc n ext h hg.1, reloc_snoc n ext h (.obj []) (.obj []) hg.1 rfl,
          keys_reloc n ext _ c hg1, copy_reloc n ext _ c hf _ _ _ hg1]
        match ch with
        | [] => rfl
        | [c1] =>
          simp only [List.map_cons, List.map_nil]
          rw [put_reloc n ext _ _ "children" c1 hg2.1 hf]
        | c1 :: c2 :: cs =>
          simp only [List.map_cons]
          rw [ref_length_reloc n ext _ hg2.1,
            reloc_snoc n ext _ (.arr (c1 :: c2 :: cs))
              (.arr (shiftV n ext.length c1 :: shiftV n ext.length c2 ::
                cs.map (shiftV n ext.length))) hg2.1 rfl,
            put_reloc n ext _ _ "children" _ (good_append hg2 _).1 hf]
  all_goals exact hnil

mutual
theorem eval_reloc (n : Nat) (ext : Store) (kt : Store → List HVal → HVal × Store)
    (hktF : ∀ h r, n ≤ h.length → Frame n h (kt h r).2)
    (hktR : ∀ h r, Good n h → kt (reloc n ext h) (r.map (shiftV n ext.length))
      = (shiftV n ext.length (kt h r).1, reloc n ext (kt h r).2)) :
    ∀ (e : Expr) (h : Store), Good n h →
      eval kt e (reloc n ext h)
        = (shiftV n ext.length (eval kt e h).1, reloc n ext (eval kt e h).2)
  | .str _, _, _ => rfl
  | .null, _, _ => rfl
  | .lit props, h, hg => by
    simp only [eval, alloc]
    rw [ref_length_reloc n ext h hg.1]
    congr 1
    apply reloc_snoc n ext h _ _ hg.1
    simp only [shiftCell, shiftProps, List.map_map, Cell.obj.injEq]
    rfl
  | .kt args, h, hg => by
    have h1 := evalList_reloc n ext kt hktF hktR args h hg
    have hg1 := hg.frame (frame_evalList n kt hktF args h hg.1)
    simp only [eval, h1]
    exact hktR _ _ hg1
theorem evalList_reloc (n : Nat) (ext : Store) (kt : Store → List HVal → HVal × Store)
    (hktF : ∀ h r, n ≤ h.length → Frame n h (kt h r).2)
    (hktR : ∀ h r, Good n h → kt (reloc n ext h) (r.map (shiftV n ext.length))
      = (shiftV n ext.length (kt h r).1, reloc n ext (kt h r).2)) :
    ∀ (es : List Expr) (h : Store), Good n h →
      evalList kt es (reloc n ext h)
        = ((evalList kt es h).1.map (shiftV n ext.length), reloc n ext (evalList kt es h).2)
  | [], _, _ => rfl
  | e :: es, h, hg => by
    have h1 := eval_reloc n ext kt hktF hktR e h hg
    have hg1 := hg.frame (frame_eval n kt hktF e h hg.1)
    have h2 := evalList_reloc n ext kt hktF hktR es _ hg1
    simp only [evalList, h1, h2, List.map_cons]
end

end Heap

namespace Heap

theorem renderStep_reloc (n : Nat) (ext : Store)
    (mdx mdx2 : Store → HVal → HVal → Except HError (HVal × Store))
    (wrapper : Store → HVal → Except HError (HVal × Store)) (env : HEnv)
    (hmdx : ∀ h e t r h2, Good n h → mdx h e t = .ok (r, h2) →
      mdx2 (reloc n ext h) (shiftV n ext.length e) (shiftV n ext.length t)
        = .ok (shiftV n ext.length r, reloc n ext h2))
    (hwrapper : ∀ h e r h2, Good n h → wrapper h e = .ok (r, h2) →
      wrapper (reloc n ext h) (shiftV n ext.length e)
        = .ok (shiftV n ext.length r, reloc n ext h2))
    (henv : EnvReloc env) (h : Store) (el r : HVal) (h2 : Store) (hg : Good n h)
    (hr : renderStep mdx wrapper env h el = .ok (r, h2)) :
    renderStep mdx2 wrapper env (reloc n ext h) (shiftV n ext.length el)
      = .ok (shiftV n ext.length r, reloc n ext h2) := by
  unfold renderStep at hr ⊢
  have hgp := hg.frame (frame_propsOf n h el hg.1)
  rw [typeOf_reloc n ext h el hg, propsOf_reloc n ext h el hg, refOf_reloc n ext h el hg]
  cases ht : typeOf h el <;> simp only [ht, shiftV] at hr ⊢
  case mdxCreateElement => exact hmdx _ _ _ _ _ hgp hr
  case wrapperFn => exact hwrapper _ _ _ _ hgp hr
  case fn i => exact henv n ext i _ _ _ _ hgp hr
  all_goals
    simp only [Except.ok.injEq, Prod.mk.injEq] at hr
    rw [← hr.1, ← hr.2]

end Heap

namespace Heap

theorem alloc_rel (n : Nat) (ext h : Store) (c : Cell) (o : HVal) (h2 : Store)
    (hg : Good n h) (hr : alloc h c = (o, h2)) :
    alloc (reloc n ext h) (shiftCell n ext.length c) = (shiftV n ext.length o, reloc n ext h2) ∧
      Good n h2 ∧ Fresh n o := by
  have h1 := alloc_reloc n ext h c hg.1
  have h2f := frame_alloc n h c hg.1
  have h3 := fresh_alloc n h c hg.1
  rw [hr] at h1 h2f h3
  exact ⟨h1, hg.frame h2f, h3⟩

theorem createElement_rel (n : Nat) (ext h : Store) (args : List HVal) (o : HVal)
    (h2 : Store) (hg : Good n h) (hr : createElement h args = (o, h2)) :
    createElement (reloc n ext h) (args.map (shiftV n ext.length))
      = (shiftV n ext.length o, reloc n ext h2) ∧ Good n h2 := by
  have h1 := createElement_reloc n ext h args hg.1
  have h2f := frame_createElement n h args hg.1
  rw [hr] at h1 h2f
  exact ⟨h1, hg.frame h2f⟩

end Heap

namespace Chunk5923

open Heap

theorem defprop_eq_put_5923 (h : Store) (e : HVal) (t : String) (r : HVal) :
    H3905.o h e t r = put h e t r := by
  unfold H3905.o defineProperty
  split <;> rfl

theorem lArg_reloc_5923 (n : Nat) (ext h : Store) (e : HVal) (t : Nat) (arg : HVal)
    (he : Fresh n e) (hg : Good n h) :
    H3905.lArg (reloc n ext h) (shiftV n ext.length e) t (shiftV n ext.length arg)
      = reloc n ext (H3905.lArg h e t arg) := by
  unfold H3905.lArg
  simp only [isNullish_shiftV, H3905.i, defprop_eq_put_5923]
  by_cases hnull : (!isNullish arg) = true
  · simp only [hnull, if_true]
    split
    · rw [keys_reloc n ext h arg hg]
      exact copyAll_reloc n ext e arg he _ h hg
    · exact defineProperties_reloc n ext h e arg he hg
  · simp only [hnull, alloc, Bool.false_eq_true, if_false]
    rw [ref_length_reloc n ext h hg.1, reloc_snoc n ext h (.obj []) (.obj []) hg.1 rfl]
    split
    · rw [keys_reloc n ext _ _ (good_append hg _)]
      exact copyAll_reloc n ext e _ he _ _ (good_append hg _)
    · exact defineProperties_reloc n ext _ e _ he (good_append hg _)

theorem lLoop_reloc_5923 (n : Nat) (ext : Store) (e : HVal) (he : Fresh n e)
    (args : List HVal) :
    ∀ (h : Store) (t : Nat), Good n h →
      H3905.lLoop (reloc n ext h) (shiftV n ext.length e) t (args.map (shiftV n ext.length))
        = reloc n ext (H3905.lLoop h e t args) := by
  induction args with
  | nil => intro h t _; rfl
  | cons x xs ih =>
    intro h t hg
    simp only [List.map_cons, H3905.lLoop]
    rw [lArg_reloc_5923 n ext h e t x he hg]
    exact ih _ (t + 1) (hg.frame (frame_lArg_5923 n h e t x he hg.1))

theorem omit_reloc_5923 (n : Nat) (ext h : Store) (e : HVal) (t : List String)
    (hg : Good n h) :
    H3905.a (reloc n ext h) (shiftV n ext.length e) t
      = (shiftV n ext.length (H3905.a h e t).1, reloc n ext (H3905.a h e t).2) := by
  simp only [H3905.a, alloc, isNullish_shiftV]
  rw [ref_length_reloc n ext h hg.1, reloc_snoc n ext h (.obj []) (.obj []) hg.1 rfl]
  split
  · rfl
  · rw [keys_reloc n ext _ e (good_append hg _),
      copy_reloc n ext _ e (fresh_ref n _ hg.1) t _ _ (good_append hg _)]

theorem wrapper_reloc_5923 (n : Nat) (ext h : Store) (e r : HVal) (h2 : Store)
    (hg : Good n h) (hr : H3905.wrapper h e = .ok (r, h2)) :
    H3905.wrapper (reloc n ext h) (shiftV n ext.length e)
      = .ok (shiftV n ext.length r, reloc n ext h2) := by
  unfold H3905.wrapper at hr ⊢
  cases hget : get h e "children" with
  | error err => simp [hget, bind, Except.bind] at hr
  | ok t =>
    simp only [hget, bind, Except.bind, pure, Except.pure, alloc, Except.ok.injEq] at hr
    have hr1 : r = (createElement (h ++ [Cell.obj []]) [.fragment, .ref h.length, t]).1 := by
      rw [hr]
    have hr2 : h2 = (createElement (h ++ [Cell.obj []]) [.fragment, .ref h.length, t]).2 := by
      rw [hr]
    subst hr1 hr2
    rw [get_reloc n ext h e "children" hg t hget]
    simp only [bind, Except.bind, pure, Except.pure, alloc, Except.ok.injEq]
    rw [ref_length_reloc n ext h hg.1, reloc_snoc n ext h (.obj []) (.obj []) hg.1 rfl]
    exact createElement_reloc n ext _ [.fragment, .ref h.length, t] (good_append hg _).1

theorem kt_reloc_5923 (n : Nat) (ext h : Store) (r : List HVal) (hg : Good n h) :
    H3905.f (reloc n ext h) (r.map (shiftV n ext.length))
      = (shiftV n ext.length (H3905.f h r).1, reloc n ext (H3905.f h r).2) := by
  have hgetD : ∀ i, (r.map (shiftV n ext.length)).getD i .undefined
      = shiftV n ext.length (r.getD i .undefined) := by
    intro i
    simp only [List.getD_eq_getElem?_getD, List.getElem?_map]
    cases r[i]? <;> rfl
  have hf : Fresh n (.ref h.length) := fresh_ref n _ hg.1
  have hg1 : Good n (h ++ [Cell.obj []]) := good_append hg _
  unfold H3905.f
  simp only [hgetD, getProp_reloc n ext h _ "mdxType" hg, jsAnd_shiftV, typeof_shiftV,
    truthy_shiftV, alloc]
  split
  · rw [ref_length_reloc n ext h hg.1, reloc_snoc n ext h (.obj []) (.obj []) hg.1 rfl,
      keys_reloc n ext _ _ hg1, copyAll_reloc n ext _ _ hf _ _ hg1]
    have hg2 := hg1.frame (frame_copyAll n _ hf (r.getD 1 .undefined)
      (keys (h ++ [Cell.obj []]) (r.getD 1 .undefined)) (h ++ [Cell.obj []]))
    rw [put_reloc n ext _ _ "originalType" _ hg2.1 hf]
    have hg3 := good_put hg2 (.ref h.length) "originalType" (r.getD 0 .undefined) hf
    have hite : (if typeof (r.getD 0 .undefined) = "string"
          then shiftV n ext.length (r.getD 0 .undefined)
          else shiftV n ext.length
            (jsAnd (r.getD 1 .undefined) (getProp h (r.getD 1 .undefined) "mdxType")))
        = shiftV n ext.length (if typeof (r.getD 0 .undefined) = "string"
          then r.getD 0 .undefined
          else jsAnd (r.getD 1 .undefined) (getProp h (r.getD 1 .undefined) "mdxType")) := by
      split <;> rfl
    rw [hite, put_reloc n ext _ _ _ _ hg3.1 hf]
    have hg4 := good_put hg3 (.ref h.length) "mdxType"
      (if typeof (r.getD 0 .undefined) = "string" then r.getD 0 .undefined
        else jsAnd (r.getD 1 .undefined) (getProp h (r.getD 1 .undefined) "mdxType")) hf
    have hargs : [HVal.mdxCreateElement, shiftV n ext.length (.ref h.length)] ++
        List.drop 2 (r.map (shiftV n ext.length))
        = ([HVal.mdxCreateElement, .ref h.length] ++ List.drop 2 r).map
          (shiftV n ext.length) := by
      simp [List.map_drop, shiftV]
    rw [hargs]
    exact createElement_reloc n ext _ _ hg4.1
  · exact createElement_reloc n ext h r hg.1

theorem l_rel_5923 (n : Nat) (ext h : Store) (e : HVal) (args : List HVal) (o : HVal)
    (h2 : Store) (hg : Good n h) (he : Fresh n e) (hr : H3905.l h e args = (o, h2)) :
    H3905.l (reloc n ext h) (shiftV n ext.length e) (args.map (shiftV n ext.length))
      = (shiftV n ext.length o, reloc n ext h2) ∧ Good n h2 ∧ Fresh n o := by
  simp only [H3905.l, Prod.mk.injEq] at hr ⊢
  rw [← hr.1, ← hr.2]
  exact ⟨⟨rfl, lLoop_reloc_5923 n ext e he args h 1 hg⟩,
    hg.frame (frame_lLoop_5923 n e he args h 1 hg.1), he⟩

theorem finish_reloc_5923 (n : Nat) (ext h : Store) (m components rest t : HVal)
    (hg : Good n h) :
    H3905.finish (reloc n ext h) (shiftV n ext.length m) (shiftV n ext.length components)
        (shiftV n ext.length rest) (shiftV n ext.length t)
      = (shiftV n ext.length (H3905.finish h m components rest t).1,
         reloc n ext (H3905.finish h m components rest t).2) := by
  unfold H3905.finish
  rw [truthy_shiftV]
  split
  · cases hA : alloc h (Cell.obj [("ref", t)]) with
    | mk o1 h1 =>
    obtain ⟨eA, gA, fA⟩ := alloc_rel n ext h _ o1 h1 hg hA
    cases hB : H3905.l h1 o1 [rest] with
    | mk o1b h2 =>
    obtain ⟨eB, gB, fB⟩ := l_rel_5923 n ext h1 o1 [rest] o1b h2 gA fA hB
    cases hC : alloc h2 (Cell.obj []) with
    | mk o2 h3 =>
    obtain ⟨eC, gC, _⟩ := alloc_rel n ext h2 _ o2 h3 gB hC
    cases hD : alloc h3 (Cell.obj [("components", components)]) with
    | mk o3 h4 =>
    obtain ⟨eD, gD, _⟩ := alloc_rel n ext h3 _ o3 h4 gC hD
    cases hE : H3905.l h4 o1b [o2, o3] with
    | mk config h5 =>
    obtain ⟨eE, gE, _⟩ := l_rel_5923 n ext h4 o1b [o2, o3] config h5 gD fB hE
    have eA2 : alloc (reloc n ext h) (Cell.obj [("ref", shiftV n ext.length t)])
        = (shiftV n ext.length o1, reloc n ext h1) := eA
    have eB2 : H3905.l (reloc n ext h1) (shiftV n ext.length o1) [shiftV n ext.length rest]
        = (shiftV n ext.length o1b, reloc n ext h2) := eB
    have eC2 : alloc (reloc n ext h2) (Cell.obj [])
        = (shiftV n ext.length o2, reloc n ext h3) := eC
    have eD2 : alloc (reloc n ext h3)
        (Cell.obj [("components", shiftV n ext.length components)])
        = (shiftV n ext.length o3, reloc n ext h4) := eD
    have eE2 : H3905.l (reloc n ext h4) (shiftV n ext.length o1b)
        [shiftV n ext.length o2, shiftV n ext.length o3]
        = (shiftV n ext.length config, reloc n ext h5) := eE
    simp only [eA2, eB2, eC2, eD2, eE2, hB, hC, hD, hE]
    exact createElement_reloc n ext h5 [m, config] gE.1
  · cases hA : alloc h (Cell.obj [("ref", t)]) with
    | mk o1 h1 =>
    obtain ⟨eA, gA, fA⟩ := alloc_rel n ext h _ o1 h1 hg hA
    cases hB : H3905.l h1 o1 [rest] with
    | mk config h2 =>
    obtain ⟨eB, gB, _⟩ := l_rel_5923 n ext h1 o1 [rest] config h2 gA fA hB
    have eA2 : alloc (reloc n ext h) (Cell.obj [("ref", shiftV n ext.length t)])
        = (shiftV n ext.length o1, reloc n ext h1) := eA
    have eB2 : H3905.l (reloc n ext h1) (shiftV n ext.length o1) [shiftV n ext.length rest]
        = (shiftV n ext.length config, reloc n ext h2) := eB
    simp only [eA2, eB2, hB]
    exact createElement_reloc n ext h2 [m, config] gB.1

theorem merge_reloc_5923 (n : Nat) (ext : Store) (env : HEnv) (henvR : EnvReloc env)
    (h : Store) (ctx e r : HVal) (h2 : Store) (hg : Good n h)
    (hr : H3905.p env h ctx e = .ok (r, h2)) :
    H3905.p env (reloc n ext h) (shiftV n ext.length ctx) (shiftV n ext.length e)
      = .ok (shiftV n ext.length r, reloc n ext h2) := by
  unfold H3905.p at hr ⊢
  rw [truthy_shiftV, typeof_shiftV]
  by_cases ht : truthy e = true
  · by_cases hf : typeof e = "function"
    · simp only [ht, hf, if_true] at hr ⊢
      unfold H3905.callFn at hr ⊢
      cases e <;> simp only [shiftV] at hr ⊢ <;> first | exact absurd hr (by simp) | skip
      · exact henvR n ext _ ctx h r h2 hg hr
      · exact wrapper_reloc_5923 n ext h ctx r h2 hg hr
    · simp only [ht, hf, if_true, if_false] at hr ⊢
      cases hA : alloc h (Cell.obj []) with
      | mk o h1 =>
      obtain ⟨eA, gA, fA⟩ := alloc_rel n ext h _ o h1 hg hA
      cases hB : H3905.l h1 o [ctx] with
      | mk o1 h3 =>
      obtain ⟨eB, gB, fB⟩ := l_rel_5923 n ext h1 o [ctx] o1 h3 gA fA hB
      cases hC : H3905.l h3 o1 [e] with
      | mk o2 h4 =>
      obtain ⟨eC, gC, _⟩ := l_rel_5923 n ext h3 o1 [e] o2 h4 gB fB hC
      have eA2 : alloc (reloc n ext h) (Cell.obj [])
          = (shiftV n ext.length o, reloc n ext h1) := eA
      have eB2 : H3905.l (reloc n ext h1) (shiftV n ext.length o) [shiftV n ext.length ctx]
          = (shiftV n ext.length o1, reloc n ext h3) := eB
      have eC2 : H3905.l (reloc n ext h3) (shiftV n ext.length o1) [shiftV n ext.length e]
          = (shiftV n ext.length o2, reloc n ext h4) := eC
      simp only [hA, hB, hC, Except.ok.injEq, Prod.mk.injEq] at hr
      simp only [eA2, eB2, eC2, ← hr.1, ← hr.2]
  · simp only [ht, Bool.false_eq_true, if_false, Except.ok.injEq, Prod.mk.injEq] at hr ⊢
    rw [← hr.1, ← hr.2]
    exact ⟨rfl, rfl⟩

theorem defaults_shift_5923 (n k : Nat) (key : String) :
    shiftV n k (memberOf H3905.s key) = memberOf H3905.s key := by
  unfold memberOf
  split
  · simp only [H3905.s, hGet]
    split
    · rfl
    · split <;> rfl
  · exact objectPrototype_shift n k key

theorem resolve_reloc_5923 (n : Nat) (ext h : Store) (merged mdxType parentName
    originalType m : HVal) (hg : Good n h)
    (hr : H3905.resolve h merged mdxType parentName originalType = .ok m) :
    H3905.resolve (reloc n ext h) (shiftV n ext.length merged) (shiftV n ext.length mdxType)
        (shiftV n ext.length parentName) (shiftV n ext.length originalType)
      = .ok (shiftV n ext.length m) := by
  unfold H3905.resolve at hr ⊢
  simp only [toStr_shiftV]
  cases h1 : getMember h merged (toStr parentName ++ "." ++ toStr mdxType) with
  | error err => simp [h1, bind, Except.bind] at hr
  | ok m1 =>
    rw [getMember_reloc n ext h merged _ hg m1 h1]
    simp only [h1, bind, Except.bind, truthy_shiftV] at hr ⊢
    by_cases t1 : truthy m1 = true
    · simp only [t1, if_true, pure, Except.pure, Except.ok.injEq] at hr ⊢
      rw [hr]
    · simp only [t1, Bool.false_eq_true, if_false] at hr ⊢
      cases h2 : getMember h merged (toStr mdxType) with
      | error err => simp [h2] at hr
      | ok m2 =>
        rw [getMember_reloc n ext h merged _ hg m2 h2]
        simp only [h2, truthy_shiftV] at hr ⊢
        by_cases t2 : truthy m2 = true
        · simp only [t2, if_true, pure, Except.pure, Except.ok.injEq] at hr ⊢
          rw [hr]
        · simp only [t2, Bool.false_eq_true, if_false, pure, Except.pure,
            Except.ok.injEq] at hr ⊢
          rw [← hr, ← jsOr_shiftV, defaults_shift_5923]

theorem render_reloc_5923 (n : Nat) (ext : Store) (env : HEnv) (henvF : EnvFrame env)
    (henvR : EnvReloc env) (h : Store) (ctx e t r : HVal) (h2 : Store) (hg : Good n h)
    (hr : H3905.d env h ctx e t = .ok (r, h2)) :
    H3905.d env (reloc n ext h) (shiftV n ext.length ctx) (shiftV n ext.length e)
        (shiftV n ext.length t)
      = .ok (shiftV n ext.length r, reloc n ext h2) := by
  unfold H3905.d at hr ⊢
  cases hg1 : get h e "components" with
  | error err => simp [hg1, bind, Except.bind] at hr
  | ok components =>
  cases hg2 : get h e "mdxType" with
  | error err => simp [hg1, hg2, bind, Except.bind] at hr
  | ok mdxType =>
  cases hg3 : get h e "originalType" with
  | error err => simp [hg1, hg2, hg3, bind, Except.bind] at hr
  | ok originalType =>
  cases hg4 : get h e "parentName" with
  | error err => simp [hg1, hg2, hg3, hg4, bind, Except.bind] at hr
  | ok parentName =>
  rw [get_reloc n ext h e _ hg _ hg1, get_reloc n ext h e _ hg _ hg2,
    get_reloc n ext h e _ hg _ hg3, get_reloc n ext h e _ hg _ hg4]
  simp only [hg1, hg2, hg3, hg4, bind, Except.bind] at hr ⊢
  cases hA : H3905.a h e ["components", "mdxType", "originalType", "parentName"] with
  | mk rest h1 =>
  have eA := omit_reloc_5923 n ext h e
    ["components", "mdxType", "originalType", "parentName"] hg
  have fA := (frame_omit_5923 n h e
    ["components", "mdxType", "originalType", "parentName"] hg.1).1
  rw [hA] at eA fA
  have gA := hg.frame fA
  simp only [hA] at hr
  simp only [eA]
  cases hm : H3905.p env h1 ctx components with
  | error err => simp [hm] at hr
  | ok pr =>
    obtain ⟨merged, h3⟩ := pr
    have eM := merge_reloc_5923 n ext env henvR h1 ctx components merged h3 gA hm
    have gM := gA.frame (frame_merge_5923 n env henvF h1 ctx components merged h3 gA.1 hm)
    simp only [hm] at hr
    simp only [eM]
    cases hres : H3905.resolve h3 merged mdxType parentName originalType with
    | error err => simp [hres] at hr
    | ok m =>
      have eR := resolve_reloc_5923 n ext h3 merged mdxType parentName originalType m gM hres
      simp only [hres, pure, Except.pure, Except.ok.injEq] at hr
      simp only [eR, pure, Except.pure, Except.ok.injEq]
      rw [finish_reloc_5923 n ext h3 m components rest t gM, hr]

theorem page_reloc_5923 (n : Nat) (ext h : Store) (d e r : HVal) (h2 : Store)
    (hg : Good n h) (hr : H7285.f h d e = .ok (r, h2)) :
    H7285.f (reloc n ext h) (shiftV n ext.length d) (shiftV n ext.length e)
      = .ok (shiftV n ext.length r, reloc n ext h2) := by
  unfold H7285.f at hr ⊢
  cases hg1 : get h e "components" with
  | error err => simp [hg1, bind, Except.bind] at hr
  | ok t =>
  rw [get_reloc n ext h e _ hg _ hg1]
  simp only [hg1, bind, Except.bind] at hr ⊢
  cases hA : Z3366 h e ["components"] with
  | mk rr h1 =>
  have eA := Z3366_reloc n ext h e ["components"] hg
  have fA := frame_Z3366 n h e ["components"] hg.1
  rw [hA] at eA fA
  have gA := hg.frame fA.1
  cases hB : alloc h1 (Cell.obj []) with
  | mk target h3 =>
  obtain ⟨eB, gB, fB⟩ := alloc_rel n ext h1 _ target h3 gA hB
  cases hC : alloc h3 (Cell.obj [("components", t), ("mdxType", HVal.str "MDXLayout")]) with
  | mk last h4 =>
  obtain ⟨eC, gC, _⟩ := alloc_rel n ext h3 _ last h4 gB hC
  cases hD : Z7462 h4 target [d, rr, last] with
  | mk config h5 =>
  have eD := Z7462_reloc n ext target fB [d, rr, last] h4 gC
  have fD := frame_Z7462 n h4 target [d, rr, last] fB
  rw [hD] at eD fD
  have gD := gC.frame fD
  cases hE : evalList H3905.f H7285.body h5 with
  | mk children h6 =>
  have eE := evalList_reloc n ext H3905.f (fun h r hn => frame_kt_5923 n h r hn)
    (fun h r hg => kt_reloc_5923 n ext h r hg) H7285.body h5 gD
  have fE := frame_evalList n H3905.f (fun h r hn => frame_kt_5923 n h r hn)
    H7285.body h5 gD.1
  rw [hE] at eE fE
  have gE := gD.frame fE
  have eB2 : alloc (reloc n ext h1) (Cell.obj [])
      = (shiftV n ext.length target, reloc n ext h3) := eB
  have eC2 : alloc (reloc n ext h3)
      (Cell.obj [("components", shiftV n ext.length t), ("mdxType", HVal.str "MDXLayout")])
      = (shiftV n ext.length last, reloc n ext h4) := eC
  have eD2 : Z7462 (reloc n ext h4) (shiftV n ext.length target)
      [shiftV n ext.length d, shiftV n ext.length rr, shiftV n ext.length last]
      = (shiftV n ext.length config, reloc n ext h5) := eD
  have eF := kt_reloc_5923 n ext h6 ([HVal.str "wrapper", config] ++ children) gE
  have eF2 : H3905.f (reloc n ext h6)
      ([HVal.str "wrapper", shiftV n ext.length config] ++
        children.map (shiftV n ext.length))
      = (shiftV n ext.length (H3905.f h6 ([HVal.str "wrapper", config] ++ children)).1,
         reloc n ext (H3905.f h6 ([HVal.str "wrapper", config] ++ children)).2) := by
    rw [← eF]
    simp [shiftV]
  simp only [hA, hB, hC, hD, hE, pure, Except.pure, Except.ok.injEq] at hr
  simp only [eA, eB2, eC2, eD2, eE, eF2, pure, Except.pure, Except.ok.injEq, hr]

theorem renderLayout_reloc_5923 (n : Nat) (ext : Store) (env : HEnv) (henvF : EnvFrame env)
    (henvR : EnvReloc env) (h : Store) (d ctx props r : HVal) (h2 : Store) (hg : Good n h)
    (hr : renderLayoutH env h d ctx props = .ok (r, h2)) :
    renderLayoutH env (reloc n ext h) (shiftV n ext.length d) (shiftV n ext.length ctx)
        (shiftV n ext.length props)
      = .ok (shiftV n ext.length r, reloc n ext h2) := by
  unfold renderLayoutH at hr ⊢
  cases hp : H7285.f h d props with
  | error err => simp [hp, bind, Except.bind] at hr
  | ok pr =>
    obtain ⟨el, h1⟩ := pr
    have eP := page_reloc_5923 n ext h d props el h1 hg hp
    have gP := hg.frame (frame_page_5923 n h d props el h1 hg.1 hp)
    simp only [hp, bind, Except.bind] at hr
    simp only [eP, bind, Except.bind]
    refine renderStep_reloc n ext _ _ _ env ?_ ?_ henvR h1 el r h2 gP hr
    · intro h e t r h2 hg hr
      exact render_reloc_5923 n ext env henvF henvR h ctx e t r h2 hg hr
    · intro h e r h2 hg hr
      exact wrapper_reloc_5923 n ext h e r h2 hg hr

theorem renderPage_reloc_5923 (n : Nat) (ext : Store) (env : HEnv) (henvF : EnvFrame env)
    (henvR : EnvReloc env) (h : Store) (d ctx props r : HVal) (h2 : Store) (hg : Good n h)
    (hr : renderPageH env h d ctx props = .ok (r, h2)) :
    renderPageH env (reloc n ext h) (shiftV n ext.length d) (shiftV n ext.length ctx)
        (shiftV n ext.length props)
      = .ok (shiftV n ext.length r, reloc n ext h2) := by
  unfold renderPageH at hr ⊢
  cases hp : renderLayoutH env h d ctx props with
  | error err => simp [hp, bind, Except.bind] at hr
  | ok pr =>
    obtain ⟨el, h1⟩ := pr
    have eP := renderLayout_reloc_5923 n ext env henvF henvR h d ctx props el h1 hg hp
    have gP := hg.frame (frame_renderLayout_5923 n env henvF h d ctx props el h1 hg.1 hp)
    simp only [hp, bind, Except.bind] at hr
    simp only [eP, bind, Except.bind]
    refine renderStep_reloc n ext _ _ _ env ?_ ?_ henvR h1 el r h2 gP hr
    · intro h e t r h2 hg hr
      exact render_reloc_5923 n ext env henvF henvR h ctx e t r h2 hg hr
    · intro h e r h2 hg hr
      exact wrapper_reloc_5923 n ext h e r h2 hg hr

end Chunk5923

namespace Chunk8648

open Heap

theorem defprop_eq_put_8648 (h : Store) (e : HVal) (t : String) (r : HVal) :
    H3905.n h e t r = put h e t r := by
  unfold H3905.n defineProperty
  split <;> rfl

theorem lArg_reloc_8648 (n : Nat) (ext h : Store) (e : HVal) (t : Nat) (arg : HVal)
    (he : Fresh n e) (hg : Good n h) :
    H3905.lArg (reloc n ext h) (shiftV n ext.length e) t (shiftV n ext.length arg)
      = reloc n ext (H3905.lArg h e t arg) := by
  unfold H3905.lArg
  simp only [isNullish_shiftV, H3905.i, defprop_eq_put_8648]
  by_cases hnull : (!isNullish arg) = true
  · simp only [hnull, if_true]
    split
    · rw [keys_reloc n ext h arg hg]
      exact copyAll_reloc n ext e arg he _ h hg
    · exact defineProperties_reloc n ext h e arg he hg
  · simp only [hnull, alloc, Bool.false_eq_true, if_false]
    rw [ref_length_reloc n ext h hg.1, reloc_snoc n ext h (.obj []) (.obj []) hg.1 rfl]
    split
    · rw [keys_reloc n ext _ _ (good_append hg _)]
      exact copyAll_reloc n ext e _ he _ _ (good_append hg _)
    · exact defineProperties_reloc n ext _ e _ he (good_append hg _)

theorem lLoop_reloc_8648 (n : Nat) (ext : Store) (e : HVal) (he : Fresh n e)
    (args : List HVal) :
    ∀ (h : Store) (t : Nat), Good n h →
      H3905.lLoop (reloc n ext h) (shiftV n ext.length e) t (args.map (shiftV n ext.length))
        = reloc n ext (H3905.lLoop h e t args) := by
  induction args with
  | nil => intro h t _; rfl
  | cons x xs ih =>
    intro h t hg
    simp only [List.map_cons, H3905.lLoop]
    rw [lArg_reloc_8648 n ext h e t x he hg]
    exact ih _ (t + 1) (hg.frame (frame_lArg_8648 n h e t x he hg.1))

theorem omit_reloc_8648 (n : Nat) (ext h : Store) (e : HVal) (t : List String)
    (hg : Good n h) :
    H3905.o (reloc n ext h) (shiftV n ext.length e) t
      = (shiftV n ext.length (H3905.o h e t).1, reloc n ext (H3905.o h e t).2) := by
  simp only [H3905.o, alloc, isNullish_shiftV]
  rw [ref_length_reloc n ext h hg.1, reloc_snoc n ext h (.obj []) (.obj []) hg.1 rfl]
  split
  · rfl
  · rw [keys_reloc n ext _ e (good_append hg _),
      copy_reloc n ext _ e (fresh_ref n _ hg.1) t _ _ (good_append hg _)]

theorem wrapper_reloc_8648 (n : Nat) (ext h : Store) (e r : HVal) (h2 : Store)
    (hg : Good n h) (hr : H3905.wrapper h e = .ok (r, h2)) :
    H3905.wrapper (reloc n ext h) (shiftV n ext.length e)
      = .ok (shiftV n ext.length r, reloc n ext h2) := by
  unfold H3905.wrapper at hr ⊢
  cases hget : get h e "children" with
  | error err => simp [hget, bind, Except.bind] at hr
  | ok t =>
    simp only [hget, bind, Except.bind, pure, Except.pure, alloc, Except.ok.injEq] at hr
    have hr1 : r = (createElement (h ++ [Cell.obj []]) [.fragment, .ref h.length, t]).1 := by
      rw [hr]
    have hr2 : h2 = (createElement (h ++ [Cell.obj []]) [.fragment, .ref h.length, t]).2 := by
      rw [hr]
    subst hr1 hr2
    rw [get_reloc n ext h e "children" hg t hget]
    simp only [bind, Except.bind, pure, Except.pure, alloc, Except.ok.injEq]
    rw [ref_length_reloc n ext h hg.1, reloc_snoc n ext h (.obj []) (.obj []) hg.1 rfl]
    exact createElement_reloc n ext _ [.fragment, .ref h.length, t] (good_append hg _).1

theorem kt_reloc_8648 (n : Nat) (ext h : Store) (r : List HVal) (hg : Good n h) :
    H3905.f (reloc n ext h) (r.map (shiftV n ext.length))
      = (shiftV n ext.length (H3905.f h r).1, reloc n ext (H3905.f h r).2) := by
  have hgetD : ∀ i, (r.map (shiftV n ext.length)).getD i .undefined
      = shiftV n ext.length (r.getD i .undefined) := by
    intro i
    simp only [List.getD_eq_getElem?_getD, List.getElem?_map]
    cases r[i]? <;> rfl
  have hf : Fresh n (.ref h.length) := fresh_ref n _ hg.1
  have hg1 : Good n (h ++ [Cell.obj []]) := good_append hg _
  unfold H3905.f
  simp only [hgetD, getProp_reloc n ext h _ "mdxType" hg, jsAnd_shiftV, typeof_shiftV,
    truthy_shiftV, alloc]
  split
  · rw [ref_length_reloc n ext h hg.1, reloc_snoc n ext h (.obj []) (.obj []) hg.1 rfl,
      keys_reloc n ext _ _ hg1, copyAll_reloc n ext _ _ hf _ _ hg1]
    have hg2 := hg1.frame (frame_copyAll n _ hf (r.getD 1 .undefined)
      (keys (h ++ [Cell.obj []]) (r.getD 1 .undefined)) (h ++ [Cell.obj []]))
    rw [put_reloc n ext _ _ "originalType" _ hg2.1 hf]
    have hg3 := good_put hg2 (.ref h.length) "originalType" (r.getD 0 .undefined) hf
    have hite : (if typeof (r.getD 0 .undefined) = "string"
          then shiftV n ext.length (r.getD 0 .undefined)
          else shiftV n ext.length
            (jsAnd (r.getD 1 .undefined) (getProp h (r.getD 1 .undefined) "mdxType")))
        = shiftV n ext.length (if typeof (r.getD 0 .undefined) = "string"
          then r.getD 0 .undefined
          else jsAnd (r.getD 1 .undefined) (getProp h (r.getD 1 .undefined) "mdxType")) := by
      split <;> rfl
    rw [hite, put_reloc n ext _ _ _ _ hg3.1 hf]
    have hg4 := good_put hg3 (.ref h.length) H3905.s
      (if typeof (r.getD 0 .undefined) = "string" then r.getD 0 .undefined
        else jsAnd (r.getD 1 .undefined) (getProp h (r.getD 1 .undefined) "mdxType")) hf
    have hargs : [HVal.mdxCreateElement, shiftV n ext.length (.ref h.length)] ++
        List.drop 2 (r.map (shiftV n ext.length))
        = ([HVal.mdxCreateElement, .ref h.length] ++ List.drop 2 r).map
          (shiftV n ext.length) := by
      simp [List.map_drop, shiftV]
    rw [hargs]
    exact createElement_reloc n ext _ _ hg4.1
  · exact createElement_reloc n ext h r hg.1

theorem l_rel_8648 (n : Nat) (ext h : Store) (e : HVal) (args : List HVal) (o : HVal)
    (h2 : Store) (hg : Good n h) (he : Fresh n e) (hr : H3905.l h e args = (o, h2)) :
    H3905.l (reloc n ext h) (shiftV n ext.length e) (args.map (shiftV n ext.length))
      = (shiftV n ext.length o, reloc n ext h2) ∧ Good n h2 ∧ Fresh n o := by
  simp only [H3905.l, Prod.mk.injEq] at hr ⊢
  rw [← hr.1, ← hr.2]
  exact ⟨⟨rfl, lLoop_reloc_8648 n ext e he args h 1 hg⟩,
    hg.frame (frame_lLoop_8648 n e he args h 1 hg.1), he⟩

theorem finish_reloc_8648 (n : Nat) (ext h : Store) (m components rest t : HVal)
    (hg : Good n h) :
    H3905.finish (reloc n ext h) (shiftV n ext.length m) (shiftV n ext.length components)
        (shiftV n ext.length rest) (shiftV n ext.length t)
      = (shiftV n ext.length (H3905.finish h m components rest t).1,
         reloc n ext (H3905.finish h m components rest t).2) := by
  unfold H3905.finish
  rw [truthy_shiftV]
  split
  · cases hA : alloc h (Cell.obj [("ref", t)]) with
    | mk o1 h1 =>
    obtain ⟨eA, gA, fA⟩ := alloc_rel n ext h _ o1 h1 hg hA
    cases hB : H3905.l h1 o1 [rest] with
    | mk o1b h2 =>
    obtain ⟨eB, gB, fB⟩ := l_rel_8648 n ext h1 o1 [rest] o1b h2 gA fA hB
    cases hC : alloc h2 (Cell.obj []) with
    | mk o2 h3 =>
    obtain ⟨eC, gC, _⟩ := alloc_rel n ext h2 _ o2 h3 gB hC
    cases hD : alloc h3 (Cell.obj [("components", components)]) with
    | mk o3 h4 =>
    obtain ⟨eD, gD, _⟩ := alloc_rel n ext h3 _ o3 h4 gC hD
    cases hE : H3905.l h4 o1b [o2, o3] with
    | mk config h5 =>
    obtain ⟨eE, gE, _⟩ := l_rel_8648 n ext h4 o1b [o2, o3] config h5 gD fB hE
    have eA2 : alloc (reloc n ext h) (Cell.obj [("ref", shiftV n ext.length t)])
        = (shiftV n ext.length o1, reloc n ext h1) := eA
    have eB2 : H3905.l (reloc n ext h1) (shiftV n ext.length o1) [shiftV n ext.length rest]
        = (shiftV n ext.length o1b, reloc n ext h2) := eB
    have eC2 : alloc (reloc n ext h2) (Cell.obj [])
        = (shiftV n ext.length o2, reloc n ext h3) := eC
    have eD2 : alloc (reloc n ext h3)
        (Cell.obj [("components", shiftV n ext.length components)])
        = (shiftV n ext.length o3, reloc n ext h4) := eD
    have eE2 : H3905.l (reloc n ext h4) (shiftV n ext.length o1b)
        [shiftV n ext.length o2, shiftV n ext.length o3]
        = (shiftV n ext.length config, reloc n ext h5) := eE
    simp only [eA2, eB2, eC2, eD2, eE2, hB, hC, hD, hE]
    exact createElement_reloc n ext h5 [m, config] gE.1
  · cases hA : alloc h (Cell.obj [("ref", t)]) with
    | mk o1 h1 =>
    obtain ⟨eA, gA, fA⟩ := alloc_rel n ext h _ o1 h1 hg hA
    cases hB : H3905.l h1 o1 [rest] with
    | mk config h2 =>
    obtain ⟨eB, gB, _⟩ := l_rel_8648 n ext h1 o1 [rest] config h2 gA fA hB
    have eA2 : alloc (reloc n ext h) (Cell.obj [("ref", shiftV n ext.length t)])
        = (shiftV n ext.length o1, reloc n ext h1) := eA
    have eB2 : H3905.l (reloc n ext h1) (shiftV n ext.length o1) [shiftV n ext.length rest]
        = (shiftV n ext.length config, reloc n ext h2) := eB
    simp only [eA2, eB2, hB]
    exact createElement_reloc n ext h2 [m, config] gB.1

theorem merge_reloc_8648 (n : Nat) (ext : Store) (env : HEnv) (henvR : EnvReloc env)
    (h : Store) (ctx e r : HVal) (h2 : Store) (hg : Good n h)
    (hr : H3905.c env h ctx e = .ok (r, h2)) :
    H3905.c env (reloc n ext h) (shiftV n ext.length ctx) (shiftV n ext.length e)
      = .ok (shiftV n ext.length r, reloc n ext h2) := by
  unfold H3905.c at hr ⊢
  rw [truthy_shiftV, typeof_shiftV]
  by_cases ht : truthy e = true
  · by_cases hf : typeof e = "function"
    · simp only [ht, hf, if_true] at hr ⊢
      unfold H3905.callFn at hr ⊢
      cases e <;> simp only [shiftV] at hr ⊢ <;> first | exact absurd hr (by simp) | skip
      · exact henvR n ext _ ctx h r h2 hg hr
      · exact wrapper_reloc_8648 n ext h ctx r h2 hg hr
    · simp only [ht, hf, if_true, if_false] at hr ⊢
      cases hA : alloc h (Cell.obj []) with
      | mk o h1 =>
      obtain ⟨eA, gA, fA⟩ := alloc_rel n ext h _ o h1 hg hA
      cases hB : H3905.l h1 o [ctx] with
      | mk o1 h3 =>
      obtain ⟨eB, gB, fB⟩ := l_rel_8648 n ext h1 o [ctx] o1 h3 gA fA hB
      cases hC : H3905.l h3 o1 [e] with
      | mk o2 h4 =>
      obtain ⟨eC, gC, _⟩ := l_rel_8648 n ext h3 o1 [e] o2 h4 gB fB hC
      have eA2 : alloc (reloc n ext h) (Cell.obj [])
          = (shiftV n ext.length o, reloc n ext h1) := eA
      have eB2 : H3905.l (reloc n ext h1) (shiftV n ext.length o) [shiftV n ext.length ctx]
          = (shiftV n ext.length o1, reloc n ext h3) := eB
      have eC2 : H3905.l (reloc n ext h3) (shiftV n ext.length o1) [shiftV n ext.length e]
          = (shiftV n ext.length o2, reloc n ext h4) := eC
      simp only [hA, hB, hC, Except.ok.injEq, Prod.mk.injEq] at hr
      simp only [eA2, eB2, eC2, ← hr.1, ← hr.2]
  · simp only [ht, Bool.false_eq_true, if_false, Except.ok.injEq, Prod.mk.injEq] at hr ⊢
    rw [← hr.1, ← hr.2]
    exact ⟨rfl, rfl⟩

theorem defaults_shift_8648 (n k : Nat) (key : String) :
    shiftV n k (memberOf H3905.d key) = memberOf H3905.d key := by
  unfold memberOf
  split
  · simp only [H3905.d, hGet]
    split
    · rfl
    · split <;> rfl
  · exact objectPrototype_shift n k key

theorem resolve_reloc_8648 (n : Nat) (ext h : Store) (merged mdxType parentName
    originalType m : HVal) (hg : Good n h)
    (hr : H3905.resolve h merged mdxType parentName originalType = .ok m) :
    H3905.resolve (reloc n ext h) (shiftV n ext.length merged) (shiftV n ext.length mdxType)
        (shiftV n ext.length parentName) (shiftV n ext.length originalType)
      = .ok (shiftV n ext.length m) := by
  unfold H3905.resolve at hr ⊢
  simp only [toStr_shiftV]
  cases h1 : getMember h merged (toStr parentName ++ "." ++ toStr mdxType) with
  | error err => simp [h1, bind, Except.bind] at hr
  | ok m1 =>
    rw [getMember_reloc n ext h merged _ hg m1 h1]
    simp only [h1, bind, Except.bind, truthy_shiftV] at hr ⊢
    by_cases t1 : truthy m1 = true
    · simp only [t1, if_true, pure, Except.pure, Except.ok.injEq] at hr ⊢
      rw [hr]
    · simp only [t1, Bool.false_eq_true, if_false] at hr ⊢
      cases h2 : getMember h merged (toStr mdxType) with
      | error err => simp [h2] at hr
      | ok m2 =>
        rw [getMember_reloc n ext h merged _ hg m2 h2]
        simp only [h2, truthy_shiftV] at hr ⊢
        by_cases t2 : truthy m2 = true
        · simp only [t2, if_true, pure, Except.pure, Except.ok.injEq] at hr ⊢
          rw [hr]
        · simp only [t2, Bool.false_eq_true, if_false, pure, Except.pure,
            Except.ok.injEq] at hr ⊢
          rw [← hr, ← jsOr_shiftV, defaults_shift_8648]

theorem render_reloc_8648 (n : Nat) (ext : Store) (env : HEnv) (henvF : EnvFrame env)
    (henvR : EnvReloc env) (h : Store) (ctx e t r : HVal) (h2 : Store) (hg : Good n h)
    (hr : H3905.u env h ctx e t = .ok (r, h2)) :
    H3905.u env (reloc n ext h) (shiftV n ext.length ctx) (shiftV n ext.length e)
        (shiftV n ext.length t)
      = .ok (shiftV n ext.length r, reloc n ext h2) := by
  unfold H3905.u at hr ⊢
  cases hg1 : get h e "components" with
  | error err => simp [hg1, bind, Except.bind] at hr
  | ok components =>
  cases hg2 : get h e "mdxType" with
  | error err => simp [hg1, hg2, bind, Except.bind] at hr
  | ok mdxType =>
  cases hg3 : get h e "originalType" with
  | error err => simp [hg1, hg2, hg3, bind, Except.bind] at hr
  | ok originalType =>
  cases hg4 : get h e "parentName" with
  | error err => simp [hg1, hg2, hg3, hg4, bind, Except.bind] at hr
  | ok parentName =>
  rw [get_reloc n ext h e _ hg _ hg1, get_reloc n ext h e _ hg _ hg2,
    get_reloc n ext h e _ hg _ hg3, get_reloc n ext h e _ hg _ hg4]
  simp only [hg1, hg2, hg3, hg4, bind, Except.bind] at hr ⊢
  cases hA : H3905.o h e ["components", "mdxType", "originalType", "parentName"] with
  | mk rest h1 =>
  have eA := omit_reloc_8648 n ext h e
    ["components", "mdxType", "originalType", "parentName"] hg
  have fA := (frame_omit_8648 n h e
    ["components", "mdxType", "originalType", "parentName"] hg.1).1
  rw [hA] at eA fA
  have gA := hg.frame fA
  simp only [hA] at hr
  simp only [eA]
  cases hm : H3905.c env h1 ctx components with
  | error err => simp [hm] at hr
  | ok pr =>
    obtain ⟨merged, h3⟩ := pr
    have eM := merge_reloc_8648 n ext env henvR h1 ctx components merged h3 gA hm
    have gM := gA.frame (frame_merge_8648 n env henvF h1 ctx components merged h3 gA.1 hm)
    simp only [hm] at hr
    simp only [eM]
    cases hres : H3905.resolve h3 merged mdxType parentName originalType with
    | error err => simp [hres] at hr
    | ok m =>
      have eR := resolve_reloc_8648 n ext h3 merged mdxType parentName originalType m gM hres
      simp only [hres, pure, Except.pure, Except.ok.injEq] at hr
      simp only [eR, pure, Except.pure, Except.ok.injEq]
      rw [finish_reloc_8648 n ext h3 m components rest t gM, hr]

theorem page_reloc_8648 (n : Nat) (ext h : Store) (d e r : HVal) (h2 : Store)
    (hg : Good n h) (hr : H27877.d h d e = .ok (r, h2)) :
    H27877.d (reloc n ext h) (shiftV n ext.length d) (shiftV n ext.length e)
      = .ok (shiftV n ext.length r, reloc n ext h2) := by
  unfold H27877.d at hr ⊢
  cases hg1 : get h e "components" with
  | error err => simp [hg1, bind, Except.bind] at hr
  | ok t =>
  rw [get_reloc n ext h e _ hg _ hg1]
  simp only [hg1, bind, Except.bind] at hr ⊢
  cases hA : restWithout h e ["components"] with
  | mk rr h1 =>
  have eA := restWithout_reloc n ext h e ["components"] hg
  have fA := frame_restWithout n h e ["components"] hg.1
  rw [hA] at eA fA
  have gA := hg.frame fA.1
  cases hB : alloc h1 (Cell.obj []) with
  | mk target h3 =>
  obtain ⟨eB, gB, fB⟩ := alloc_rel n ext h1 _ target h3 gA hB
  cases hC : alloc h3 (Cell.obj [("components", t), ("mdxType", HVal.str "MDXLayout")]) with
  | mk last h4 =>
  obtain ⟨eC, gC, _⟩ := alloc_rel n ext h3 _ last h4 gB hC
  cases hD : Z7462 h4 target [d, rr, last] with
  | mk config h5 =>
  have eD := Z7462_reloc n ext target fB [d, rr, last] h4 gC
  have fD := frame_Z7462 n h4 target [d, rr, last] fB
  rw [hD] at eD fD
  have gD := gC.frame fD
  cases hE : evalList H3905.f H27877.body h5 with
  | mk children h6 =>
  have eE := evalList_reloc n ext H3905.f (fun h r hn => frame_kt_8648 n h r hn)
    (fun h r hg => kt_reloc_8648 n ext h r hg) H27877.body h5 gD
  have fE := frame_evalList n H3905.f (fun h r hn => frame_kt_8648 n h r hn)
    H27877.body h5 gD.1
  rw [hE] at eE fE
  have gE := gD.frame fE
  have eB2 : alloc (reloc n ext h1) (Cell.obj [])
      = (shiftV n ext.length target, reloc n ext h3) := eB
  have eC2 : alloc (reloc n ext h3)
      (Cell.obj [("components", shiftV n ext.length t), ("mdxType", HVal.str "MDXLayout")])
      = (shiftV n ext.length last, reloc n ext h4) := eC
  have eD2 : Z7462 (reloc n ext h4) (shiftV n ext.length target)
      [shiftV n ext.length d, shiftV n ext.length rr, shiftV n ext.length last]
      = (shiftV n ext.length config, reloc n ext h5) := eD
  have eF := kt_reloc_8648 n ext h6 ([HVal.str "wrapper", config] ++ children) gE
  have eF2 : H3905.f (reloc n ext h6)
      ([HVal.str "wrapper", shiftV n ext.length config] ++
        children.map (shiftV n ext.length))
      = (shiftV n ext.length (H3905.f h6 ([HVal.str "wrapper", config] ++ children)).1,
         reloc n ext (H3905.f h6 ([HVal.str "wrapper", config] ++ children)).2) := by
    rw [← eF]
    simp [shiftV]
  simp only [hA, hB, hC, hD, hE, pure, Except.pure, Except.ok.injEq] at hr
  simp only [eA, eB2, eC2, eD2, eE, eF2, pure, Except.pure, Except.ok.injEq, hr]

theorem renderLayout_reloc_8648 (n : Nat) (ext : Store) (env : HEnv) (henvF : EnvFrame env)
    (henvR : EnvReloc env) (h : Store) (d ctx props r : HVal) (h2 : Store) (hg : Good n h)
    (hr : renderLayoutH env h d ctx props = .ok (r, h2)) :
    renderLayoutH env (reloc n ext h) (shiftV n ext.length d) (shiftV n ext.length ctx)
        (shiftV n ext.length props)
      = .ok (shiftV n ext.length r, reloc n ext h2) := by
  unfold renderLayoutH at hr ⊢
  cases hp : H27877.d h d props with
  | error err => simp [hp, bind, Except.bind] at hr
  | ok pr =>
    obtain ⟨el, h1⟩ := pr
    have eP := page_reloc_8648 n ext h d props el h1 hg hp
    have gP := hg.frame (frame_page_8648 n h d props el h1 hg.1 hp)
    simp only [hp, bind, Except.bind] at hr
    simp only [eP, bind, Except.bind]
    refine renderStep_reloc n ext _ _ _ env ?_ ?_ henvR h1 el r h2 gP hr
    · intro h e t r h2 hg hr
      exact render_reloc_8648 n ext env henvF henvR h ctx e t r h2 hg hr
    · intro h e r h2 hg hr
      exact wrapper_reloc_8648 n ext h e r h2 hg hr

theorem renderPage_reloc_8648 (n : Nat) (ext : Store) (env : HEnv) (henvF : EnvFrame env)
    (henvR : EnvReloc env) (h : Store) (d ctx props r : HVal) (h2 : Store) (hg : Good n h)
    (hr : renderPageH env h d ctx props = .ok (r, h2)) :
    renderPageH env (reloc n ext h) (shiftV n ext.length d) (shiftV n ext.length ctx)
        (shiftV n ext.length props)
      = .ok (shiftV n ext.length r, reloc n ext h2) := by
  unfold renderPageH at hr ⊢
  cases hp : renderLayoutH env h d ctx props with
  | error err => simp [hp, bind, Except.bind] at hr
  | ok pr =>
    obtain ⟨el, h1⟩ := pr
    have eP := renderLayout_reloc_8648 n ext env henvF henvR h d ctx props el h1 hg hp
    have gP := hg.frame (frame_renderLayout_8648 n env henvF h d ctx props el h1 hg.1 hp)
    simp only [hp, bind, Except.bind] at hr
    simp only [eP, bind, Except.bind]
    refine renderStep_reloc n ext _ _ _ env ?_ ?_ henvR h1 el r h2 gP hr
    · intro h e t r h2 hg hr
      exact render_reloc_8648 n ext env henvF henvR h ctx e t r h2 hg hr
    · intro h e r h2 hg hr
      exact wrapper_reloc_8648 n ext h e r h2 hg hr

end Chunk8648

namespace Chunk6262

open Heap

theorem defprop_eq_put_6262 (h : Store) (e : HVal) (t : String) (r : HVal) :
    H3905.n h e t r = put h e t r := by
  unfold H3905.n defineProperty
  split <;> rfl

theorem lArg_reloc_6262 (n : Nat) (ext h : Store) (e : HVal) (t : Nat) (arg : HVal)
    (he : Fresh n e) (hg : Good n h) :
    H3905.lArg (reloc n ext h) (shiftV n ext.length e) t (shiftV n ext.length arg)
      = reloc n ext (H3905.lArg h e t arg) := by
  unfold H3905.lArg
  simp only [isNullish_shiftV, H3905.i, defprop_eq_put_6262]
  by_cases hnull : (!isNullish arg) = true
  · simp only [hnull, if_true]
    split
    · rw [keys_reloc n ext h arg hg]
      exact copyAll_reloc n ext e arg he _ h hg
    · exact defineProperties_reloc n ext h e arg he hg
  · simp only [hnull, alloc, Bool.false_eq_true, if_false]
    rw [ref_length_reloc n ext h hg.1, reloc_snoc n ext h (.obj []) (.obj []) hg.1 rfl]
    split
    · rw [keys_reloc n ext _ _ (good_append hg _)]
      exact copyAll_reloc n ext e _ he _ _ (good_append hg _)
    · exact defineProperties_reloc n ext _ e _ he (good_append hg _)

theorem lLoop_reloc_6262 (n : Nat) (ext : Store) (e : HVal) (he : Fresh n e)
    (args : List HVal) :
    ∀ (h : Store) (t : Nat), Good n h →
      H3905.lLoop (reloc n ext h) (shiftV n ext.length e) t (args.map (shiftV n ext.length))
        = reloc n ext (H3905.lLoop h e t args) := by
  induction args with
  | nil => intro h t _; rfl
  | cons x xs ih =>
    intro h t hg
    simp only [List.map_cons, H3905.lLoop]
    rw [lArg_reloc_6262 n ext h e t x he hg]
    exact ih _ (t + 1) (hg.frame (frame_lArg_6262 n h e t x he hg.1))

theorem omit_reloc_6262 (n : Nat) (ext h : Store) (e : HVal) (t : List String)
    (hg : Good n h) :
    H3905.o (reloc n ext h) (shiftV n ext.length e) t
      = (shiftV n ext.length (H3905.o h e t).1, reloc n ext (H3905.o h e t).2) := by
  simp only [H3905.o, alloc, isNullish_shiftV]
  rw [ref_length_reloc n ext h hg.1, reloc_snoc n ext h (.obj []) (.obj []) hg.1 rfl]
  split
  · rfl
  · rw [keys_reloc n ext _ e (good_append hg _),
      copy_reloc n ext _ e (fresh_ref n _ hg.1) t _ _ (good_append hg _)]

theorem wrapper_reloc_6262 (n : Nat) (ext h : Store) (e r : HVal) (h2 : Store)
    (hg : Good n h) (hr : H3905.wrapper h e = .ok (r, h2)) :
    H3905.wrapper (reloc n ext h) (shiftV n ext.length e)
      = .ok (shiftV n ext.length r, reloc n ext h2) := by
  unfold H3905.wrapper at hr ⊢
  cases hget : get h e "children" with
  | error err => simp [hget, bind, Except.bind] at hr
  | ok t =>
    simp only [hget, bind, Except.bind, pure, Except.pure, alloc, Except.ok.injEq] at hr
    have hr1 : r = (createElement (h ++ [Cell.obj []]) [.fragment, .ref h.length, t]).1 := by
      rw [hr]
    have hr2 : h2 = (createElement (h ++ [Cell.obj []]) [.fragment, .ref h.length, t]).2 := by
      rw [hr]
    subst hr1 hr2
    rw [get_reloc n ext h e "children" hg t hget]
    simp only [bind, Except.bind, pure, Except.pure, alloc, Except.ok.injEq]
    rw [ref_length_reloc n ext h hg.1, reloc_snoc n ext h (.obj []) (.obj []) hg.1 rfl]
    exact createElement_reloc n ext _ [.fragment, .ref h.length, t] (good_append hg _).1

theorem kt_reloc_6262 (n : Nat) (ext h : Store) (r : List HVal) (hg : Good n h) :
    H3905.f (reloc n ext h) (r.map (shiftV n ext.length))
      = (shiftV n ext.length (H3905.f h r).1, reloc n ext (H3905.f h r).2) := by
  have hgetD : ∀ i, (r.map (shiftV n ext.length)).getD i .undefined
      = shiftV n ext.length (r.getD i .undefined) := by
    intro i
    simp only [List.getD_eq_getElem?_getD, List.getElem?_map]
    cases r[i]? <;> rfl
  have hf : Fresh n (.ref h.length) := fresh_ref n _ hg.1
  have hg1 : Good n (h ++ [Cell.obj []]) := good_append hg _
  unfold H3905.f
  simp only [hgetD, getProp_reloc n ext h _ "mdxType" hg, jsAnd_shiftV, typeof_shiftV,
    truthy_shiftV, alloc]
  split
  · rw [ref_length_reloc n ext h hg.1, reloc_snoc n ext h (.obj []) (.obj []) hg.1 rfl,
      keys_reloc n ext _ _ hg1, copyAll_reloc n ext _ _ hf _ _ hg1]
    have hg2 := hg1.frame (frame_copyAll n _ hf (r.getD 1 .undefined)
      (keys (h ++ [Cell.obj []]) (r.getD 1 .undefined)) (h ++ [Cell.obj []]))
    rw [put_reloc n ext _ _ "originalType" _ hg2.1 hf]
    have hg3 := good_put hg2 (.ref h.length) "originalType" (r.getD 0 .undefined) hf
    have hite : (if typeof (r.getD 0 .undefined) = "string"
          then shiftV n ext.length (r.getD 0 .undefined)
          else shiftV n ext.length
            (jsAnd (r.getD 1 .undefined) (getProp h (r.getD 1 .undefined) "mdxType")))
        = shiftV n ext.length (if typeof (r.getD 0 .undefined) = "string"
          then r.getD 0 .undefined
          else jsAnd (r.getD 1 .undefined) (getProp h (r.getD 1 .undefined) "mdxType")) := by
      split <;> rfl
    rw [hite, put_reloc n ext _ _ _ _ hg3.1 hf]
    have hg4 := good_put hg3 (.ref h.length) H3905.c
      (if typeof (r.getD 0 .undefined) = "string" then r.getD 0 .undefined
        else jsAnd (r.getD 1 .undefined) (getProp h (r.getD 1 .undefined) "mdxType")) hf
    have hargs : [HVal.mdxCreateElement, shiftV n ext.length (.ref h.length)] ++
        List.drop 2 (r.map (shiftV n ext.length))
        = ([HVal.mdxCreateElement, .ref h.length] ++ List.drop 2 r).map
          (shiftV n ext.length) := by
      simp [List.map_drop, shiftV]
    rw [hargs]
    exact createElement_reloc n ext _ _ hg4.1
  · exact createElement_reloc n ext h r hg.1

theorem l_rel_6262 (n : Nat) (ext h : Store) (e : HVal) (args : List HVal) (o : HVal)
    (h2 : Store) (hg : Good n h) (he : Fresh n e) (hr : H3905.l h e args = (o, h2)) :
    H3905.l (reloc n ext h) (shiftV n ext.length e) (args.map (shiftV n ext.length))
      = (shiftV n ext.length o, reloc n ext h2) ∧ Good n h2 ∧ Fresh n o := by
  simp only [H3905.l, Prod.mk.injEq] at hr ⊢
  rw [← hr.1, ← hr.2]
  exact ⟨⟨rfl, lLoop_reloc_6262 n ext e he args h 1 hg⟩,
    hg.frame (frame_lLoop_6262 n e he args h 1 hg.1), he⟩

theorem finish_reloc_6262 (n : Nat) (ext h : Store) (m components rest t : HVal)
    (hg : Good n h) :
    H3905.finish (reloc n ext h) (shiftV n ext.length m) (shiftV n ext.length components)
        (shiftV n ext.length rest) (shiftV n ext.length t)
      = (shiftV n ext.length (H3905.finish h m components rest t).1,
         reloc n ext (H3905.finish h m components rest t).2) := by
  unfold H3905.finish
  rw [truthy_shiftV]
  split
  · cases hA : alloc h (Cell.obj [("ref", t)]) with
    | mk o1 h1 =>
    obtain ⟨eA, gA, fA⟩ := alloc_rel n ext h _ o1 h1 hg hA
    cases hB : H3905.l h1 o1 [rest] with
    | mk o1b h2 =>
    obtain ⟨eB, gB, fB⟩ := l_rel_6262 n ext h1 o1 [rest] o1b h2 gA fA hB
    cases hC : alloc h2 (Cell.obj []) with
    | mk o2 h3 =>
    obtain ⟨eC, gC, _⟩ := alloc_rel n ext h2 _ o2 h3 gB hC
    cases hD : alloc h3 (Cell.obj [("components", components)]) with
    | mk o3 h4 =>
    obtain ⟨eD, gD, _⟩ := alloc_rel n ext h3 _ o3 h4 gC hD
    cases hE : H3905.l h4 o1b [o2, o3] with
    | mk config h5 =>
    obtain ⟨eE, gE, _⟩ := l_rel_6262 n ext h4 o1b [o2, o3] config h5 gD fB hE
    have eA2 : alloc (reloc n ext h) (Cell.obj [("ref", shiftV n ext.length t)])
        = (shiftV n ext.length o1, reloc n ext h1) := eA
    have eB2 : H3905.l (reloc n ext h1) (shiftV n ext.length o1) [shiftV n ext.length rest]
        = (shiftV n ext.length o1b, reloc n ext h2) := eB
    have eC2 : alloc (reloc n ext h2) (Cell.obj [])
        = (shiftV n ext.length o2, reloc n ext h3) := eC
    have eD2 : alloc (reloc n ext h3)
        (Cell.obj [("components", shiftV n ext.length components)])
        = (shiftV n ext.length o3, reloc n ext h4) := eD
    have eE2 : H3905.l (reloc n ext h4) (shiftV n ext.length o1b)
        [shiftV n ext.length o2, shiftV n ext.length o3]
        = (shiftV n ext.length config, reloc n ext h5) := eE
    simp only [eA2, eB2, eC2, eD2, eE2, hB, hC, hD, hE]
    exact createElement_reloc n ext h5 [m, config] gE.1
  · cases hA : alloc h (Cell.obj [("ref", t)]) with
    | mk o1 h1 =>
    obtain ⟨eA, gA, fA⟩ := alloc_rel n ext h _ o1 h1 hg hA
    cases hB : H3905.l h1 o1 [rest] with
    | mk config h2 =>
    obtain ⟨eB, gB, _⟩ := l_rel_6262 n ext h1 o1 [rest] config h2 gA fA hB
    have eA2 : alloc (reloc n ext h) (Cell.obj [("ref", shiftV n ext.length t)])
        = (shiftV n ext.length o1, reloc n ext h1) := eA
    have eB2 : H3905.l (reloc n ext h1) (shiftV n ext.length o1) [shiftV n ext.length rest]
        = (shiftV n ext.length config, reloc n ext h2) := eB
    simp only [eA2, eB2, hB]
    exact createElement_reloc n ext h2 [m, config] gB.1

theorem merge_reloc_6262 (n : Nat) (ext : Store) (env : HEnv) (henvR : EnvReloc env)
    (h : Store) (ctx e r : HVal) (h2 : Store) (hg : Good n h)
    (hr : H3905.u env h ctx e = .ok (r, h2)) :
    H3905.u env (reloc n ext h) (shiftV n ext.length ctx) (shiftV n ext.length e)
      = .ok (shiftV n ext.length r, reloc n ext h2) := by
  unfold H3905.u at hr ⊢
  rw [truthy_shiftV, typeof_shiftV]
  by_cases ht : truthy e = true
  · by_cases hf : typeof e = "function"
    · simp only [ht, hf, if_true] at hr ⊢
      unfold H3905.callFn at hr ⊢
      cases e <;> simp only [shiftV] at hr ⊢ <;> first | exact absurd hr (by simp) | skip
      · exact henvR n ext _ ctx h r h2 hg hr
      · exact wrapper_reloc_6262 n ext h ctx r h2 hg hr
    · simp only [ht, hf, if_true, if_false] at hr ⊢
      cases hA : alloc h (Cell.obj []) with
      | mk o h1 =>
      obtain ⟨eA, gA, fA⟩ := alloc_rel n ext h _ o h1 hg hA
      cases hB : H3905.l h1 o [ctx] with
      | mk o1 h3 =>
      obtain ⟨eB, gB, fB⟩ := l_rel_6262 n ext h1 o [ctx] o1 h3 gA fA hB
      cases hC : H3905.l h3 o1 [e] with
      | mk o2 h4 =>
      obtain ⟨eC, gC, _⟩ := l_rel_6262 n ext h3 o1 [e] o2 h4 gB fB hC
      have eA2 : alloc (reloc n ext h) (Cell.obj [])
          = (shiftV n ext.length o, reloc n ext h1) := eA
      have eB2 : H3905.l (reloc n ext h1) (shiftV n ext.length o) [shiftV n ext.length ctx]
          = (shiftV n ext.length o1, reloc n ext h3) := eB
      have eC2 : H3905.l (reloc n ext h3) (shiftV n ext.length o1) [shiftV n ext.length e]
          = (shiftV n ext.length o2, reloc n ext h4) := eC
      simp only [hA, hB, hC, Except.ok.injEq, Prod.mk.injEq] at hr
      simp only [eA2, eB2, eC2, ← hr.1, ← hr.2]
  · simp only [ht, Bool.false_eq_true, if_false, Except.ok.injEq, Prod.mk.injEq] at hr ⊢
    rw [← hr.1, ← hr.2]
    exact ⟨rfl, rfl⟩

theorem defaults_shift_6262 (n k : Nat) (key : String) :
    shiftV n k (memberOf H3905.d key) = memberOf H3905.d key := by
  unfold memberOf
  split
  · simp only [H3905.d, hGet]
    split
    · rfl
    · split <;> rfl
  · exact objectPrototype_shift n k key

theorem resolve_reloc_6262 (n : Nat) (ext h : Store) (merged mdxType parentName
    originalType m : HVal) (hg : Good n h)
    (hr : H3905.resolve h merged mdxType parentName originalType = .ok m) :
    H3905.resolve (reloc n ext h) (shiftV n ext.length merged) (shiftV n ext.length mdxType)
        (shiftV n ext.length parentName) (shiftV n ext.length originalType)
      = .ok (shiftV n ext.length m) := by
  unfold H3905.resolve at hr ⊢
  simp only [toStr_shiftV]
  cases h1 : getMember h merged (toStr parentName ++ "." ++ toStr mdxType) with
  | error err => simp [h1, bind, Except.bind] at hr
  | ok m1 =>
    rw [getMember_reloc n ext h merged _ hg m1 h1]
    simp only [h1, bind, Except.bind, truthy_shiftV] at hr ⊢
    by_cases t1 : truthy m1 = true
    · simp only [t1, if_true, pure, Except.pure, Except.ok.injEq] at hr ⊢
      rw [hr]
    · simp only [t1, Bool.false_eq_true, if_false] at hr ⊢
      cases h2 : getMember h merged (toStr mdxType) with
      | error err => simp [h2] at hr
      | ok m2 =>
        rw [getMember_reloc n ext h merged _ hg m2 h2]
        simp only [h2, truthy_shiftV] at hr ⊢
        by_cases t2 : truthy m2 = true
        · simp only [t2, if_true, pure, Except.pure, Except.ok.injEq] at hr ⊢
          rw [hr]
        · simp only [t2, Bool.false_eq_true, if_false, pure, Except.pure,
            Except.ok.injEq] at hr ⊢
          rw [← hr, ← jsOr_shiftV, defaults_shift_6262]

theorem render_reloc_6262 (n : Nat) (ext : Store) (env : HEnv) (henvF : EnvFrame env)
    (henvR : EnvReloc env) (h : Store) (ctx e t r : HVal) (h2 : Store) (hg : Good n h)
    (hr : H3905.m env h ctx e t = .ok (r, h2)) :
    H3905.m env (reloc n ext h) (shiftV n ext.length ctx) (shiftV n ext.length e)
        (shiftV n ext.length t)
      = .ok (shiftV n ext.length r, reloc n ext h2) := by
  unfold H3905.m at hr ⊢
  cases hg1 : get h e "components" with
  | error err => simp [hg1, bind, Except.bind] at hr
  | ok components =>
  cases hg2 : get h e "mdxType" with
  | error err => simp [hg1, hg2, bind, Except.bind] at hr
  | ok mdxType =>
  cases hg3 : get h e "originalType" with
  | error err => simp [hg1, hg2, hg3, bind, Except.bind] at hr
  | ok originalType =>
  cases hg4 : get h e "parentName" with
  | error err => simp [hg1, hg2, hg3, hg4, bind, Except.bind] at hr
  | ok parentName =>
  rw [get_reloc n ext h e _ hg _ hg1, get_reloc n ext h e _ hg _ hg2,
    get_reloc n ext h e _ hg _ hg3, get_reloc n ext h e _ hg _ hg4]
  simp only [hg1, hg2, hg3, hg4, bind, Except.bind] at hr ⊢
  cases hA : H3905.o h e ["components", "mdxType", "originalType", "parentName"] with
  | mk rest h1 =>
  have eA := omit_reloc_6262 n ext h e
    ["components", "mdxType", "originalType", "parentName"] hg
  have fA := (frame_omit_6262 n h e
    ["components", "mdxType", "originalType", "parentName"] hg.1).1
  rw [hA] at eA fA
  have gA := hg.frame fA
  simp only [hA] at hr
  simp only [eA]
  cases hm : H3905.u env h1 ctx components with
  | error err => simp [hm] at hr
  | ok pr =>
    obtain ⟨merged, h3⟩ := pr
    have eM := merge_reloc_6262 n ext env henvR h1 ctx components merged h3 gA hm
    have gM := gA.frame (frame_merge_6262 n env henvF h1 ctx components merged h3 gA.1 hm)
    simp only [hm] at hr
    simp only [eM]
    cases hres : H3905.resolve h3 merged mdxType parentName originalType with
    | error err => simp [hres] at hr
    | ok m =>
      have eR := resolve_reloc_6262 n ext h3 merged mdxType parentName originalType m gM hres
      simp only [hres, pure, Except.pure, Except.ok.injEq] at hr
      simp only [eR, pure, Except.pure, Except.ok.injEq]
      rw [finish_reloc_6262 n ext h3 m components rest t gM, hr]

theorem page_reloc_6262 (n : Nat) (ext h : Store) (d e r : HVal) (h2 : Store)
    (hg : Good n h) (hr : H5796.d h d e = .ok (r, h2)) :
    H5796.d (reloc n ext h) (shiftV n ext.length d) (shiftV n ext.length e)
      = .ok (shiftV n ext.length r, reloc n ext h2) := by
  unfold H5796.d at hr ⊢
  cases hg1 : get h e "components" with
  | error err => simp [hg1, bind, Except.bind] at hr
  | ok t =>
  rw [get_reloc n ext h e _ hg _ hg1]
  simp only [hg1, bind, Except.bind] at hr ⊢
  cases hA : restWithout h e ["components"] with
  | mk rr h1 =>
  have eA := restWithout_reloc n ext h e ["components"] hg
  have fA := frame_restWithout n h e ["components"] hg.1
  rw [hA] at eA fA
  have gA := hg.frame fA.1
  cases hB : alloc h1 (Cell.obj []) with
  | mk target h3 =>
  obtain ⟨eB, gB, fB⟩ := alloc_rel n ext h1 _ target h3 gA hB
  cases hC : alloc h3 (Cell.obj [("components", t), ("mdxType", HVal.str "MDXLayout")]) with
  | mk last h4 =>
  obtain ⟨eC, gC, _⟩ := alloc_rel n ext h3 _ last h4 gB hC
  cases hD : Z7462 h4 target [d, rr, last] with
  | mk config h5 =>
  have eD := Z7462_reloc n ext target fB [d, rr, last] h4 gC
  have fD := frame_Z7462 n h4 target [d, rr, last] fB
  rw [hD] at eD fD
  have gD := gC.frame fD
  cases hE : evalList H3905.f H5796.body h5 with
  | mk children h6 =>
  have eE := evalList_reloc n ext H3905.f (fun h r hn => frame_kt_6262 n h r hn)
    (fun h r hg => kt_reloc_6262 n ext h r hg) H5796.body h5 gD
  have fE := frame_evalList n H3905.f (fun h r hn => frame_kt_6262 n h r hn)
    H5796.body h5 gD.1
  rw [hE] at eE fE
  have gE := gD.frame fE
  have eB2 : alloc (reloc n ext h1) (Cell.obj [])
      = (shiftV n ext.length target, reloc n ext h3) := eB
  have eC2 : alloc (reloc n ext h3)
      (Cell.obj [("components", shiftV n ext.length t), ("mdxType", HVal.str "MDXLayout")])
      = (shiftV n ext.length last, reloc n ext h4) := eC
  have eD2 : Z7462 (reloc n ext h4) (shiftV n ext.length target)
      [shiftV n ext.length d, shiftV n ext.length rr, shiftV n ext.length last]
      = (shiftV n ext.length config, reloc n ext h5) := eD
  have eF := kt_reloc_6262 n ext h6 ([HVal.str "wrapper", config] ++ children) gE
  have eF2 : H3905.f (reloc n ext h6)
      ([HVal.str "wrapper", shiftV n ext.length config] ++
        children.map (shiftV n ext.length))
      = (shiftV n ext.length (H3905.f h6 ([HVal.str "wrapper", config] ++ children)).1,
         reloc n ext (H3905.f h6 ([HVal.str "wrapper", config] ++ children)).2) := by
    rw [← eF]
    simp [shiftV]
  simp only [hA, hB, hC, hD, hE, pure, Except.pure, Except.ok.injEq] at hr
  simp only [eA, eB2, eC2, eD2, eE, eF2, pure, Except.pure, Except.ok.injEq, hr]

theorem renderLayout_reloc_6262 (n : Nat) (ext : Store) (env : HEnv) (henvF : EnvFrame env)
    (henvR : EnvReloc env) (h : Store) (d ctx props r : HVal) (h2 : Store) (hg : Good n h)
    (hr : renderLayoutH env h d ctx props = .ok (r, h2)) :
    renderLayoutH env (reloc n ext h) (shiftV n ext.length d) (shiftV n ext.length ctx)
        (shiftV n ext.length props)
      = .ok (shiftV n ext.length r, reloc n ext h2) := by
  unfold renderLayoutH at hr ⊢
  cases hp : H5796.d h d props with
  | error err => simp [hp, bind, Except.bind] at hr
  | ok pr =>
    obtain ⟨el, h1⟩ := pr
    have eP := page_reloc_6262 n ext h d props el h1 hg hp
    have gP := hg.frame (frame_page_6262 n h d props el h1 hg.1 hp)
    simp only [hp, bind, Except.bind] at hr
    simp only [eP, bind, Except.bind]
    refine renderStep_reloc n ext _ _ _ env ?_ ?_ henvR h1 el r h2 gP hr
    · intro h e t r h2 hg hr
      exact render_reloc_6262 n ext env henvF henvR h ctx e t r h2 hg hr
    · intro h e r h2 hg hr
      exact wrapper_reloc_6262 n ext h e r h2 hg hr

theorem renderPage_reloc_6262 (n : Nat) (ext : Store) (env : HEnv) (henvF : EnvFrame env)
    (henvR : EnvReloc env) (h : Store) (d ctx props r : HVal) (h2 : Store) (hg : Good n h)
    (hr : renderPageH env h d ctx props = .ok (r, h2)) :
    renderPageH env (reloc n ext h) (shiftV n ext.length d) (shiftV n ext.length ctx)
        (shiftV n ext.length props)
      = .ok (shiftV n ext.length r, reloc n ext h2) := by
  unfold renderPageH at hr ⊢
  cases hp : renderLayoutH env h d ctx props with
  | error err => simp [hp, bind, Except.bind] at hr
  | ok pr =>
    obtain ⟨el, h1⟩ := pr
    have eP := renderLayout_reloc_6262 n ext env henvF henvR h d ctx props el h1 hg hp
    have gP := hg.frame (frame_renderLayout_6262 n env henvF h d ctx props el h1 hg.1 hp)
    simp only [hp, bind, Except.bind] at hr
    simp only [eP, bind, Except.bind]
    refine renderStep_reloc n ext _ _ _ env ?_ ?_ henvR h1 el r h2 gP hr
    · intro h e t r h2 hg hr
      exact render_reloc_6262 n ext env henvF henvR h ctx e t r h2 hg hr
    · intro h e r h2 hg hr
      exact wrapper_reloc_6262 n ext h e r h2 hg hr

end Chunk6262


/-! ## Rendering twice -/

namespace Heap

theorem take_of_frame (h h1 : Store) (hf : Frame h.length h h1) : h1.take h.length = h := by
  apply List.ext_getElem?
  intro a
  by_cases ha : a < h.length
  · rw [List.getElem?_take_of_lt ha]
    exact hf.2 a ha
  · have h1 : (List.take h.length h1)[a]? = none := by
      apply List.getElem?_eq_none
      simp only [List.length_take]
      omega
    have h2 : h[a]? = none := List.getElem?_eq_none (by omega)
    rw [h1, h2]

theorem reloc_start (h : Store) (ext : Store) : reloc h.length ext h = h ++ ext := by
  simp [reloc]

theorem reloc_end (h ext : Store) :
    reloc h.length ext (h ++ ext)
      = (h ++ ext) ++ ext.map (shiftCell h.length ext.length) := by
  simp [reloc]

/-- A call that keeps the existing cells and commutes with relocation returns, when made a
second time on the store it left, an exact copy of what it returned the first time. -/
theorem copyOf_second_run (run : Store → Except HError (HVal × Store)) (h0 : Store)
    (r1 : HVal) (h1 : Store) (hr : run h0 = .ok (r1, h1)) (hf : Frame h0.length h0 h1)
    (hreloc : ∀ ext, run (reloc h0.length ext h0)
      = .ok (shiftV h0.length ext.length r1, reloc h0.length ext h1)) :
    CopyOf h0 r1 h1 (run h1) := by
  have htake := take_of_frame h0 h1 hf
  have hsplit : h1 = h0 ++ h1.drop h0.length := by
    conv_lhs => rw [← List.take_append_drop h0.length h1, htake]
  obtain ⟨ext, rfl⟩ : ∃ ext, h1 = h0 ++ ext := ⟨_, hsplit⟩
  have h2 := hreloc ext
  rw [reloc_start, reloc_end] at h2
  unfold CopyOf
  have hd : (h0 ++ ext).drop h0.length = ext := by simp
  have hl : (h0 ++ ext).length - h0.length = ext.length := by simp
  rw [hd, hl]
  exact h2

end Heap

theorem envReloc_envId : Heap.EnvReloc Example.envId := by
  intro n ext i v h r h2 _ hr
  simp only [Example.envId, Except.ok.injEq, Prod.mk.injEq] at hr ⊢
  rw [← hr.1, ← hr.2]
  exact ⟨rfl, rfl⟩

theorem closedBelow_store : Heap.ClosedBelow 4 Example.store := by
  intro a c ha hc
  have h4 : a = 0 ∨ a = 1 ∨ a = 2 ∨ a = 3 := by omega
  rcases h4 with rfl | rfl | rfl | rfl <;>
    simp only [Example.store, List.getElem?_cons_zero, List.getElem?_cons_succ,
      Option.some.injEq] at hc <;>
    subst hc <;> simp [Heap.ValidCell, Heap.ValidV]

open Heap in
/-- C6: rendering a page twice yields identical element trees.  On a store whose cells only
refer to existing cells, with the record object `d`, the context value and the props in it:
each page function returns a result for props that are not `null` or `undefined`, and called a
second time on the store the first call left, it returns an exact copy of the first result
(same cells, same values, the new references moved to the new cells); the same holds for the
whole rendering (page function, MDXCreateElement, layout component) when the functions
supplied from outside keep the existing cells and do not depend on where new cells are. -/
theorem rendering_is_idempotent (env : HEnv) (h0 : Store) (d ctx props : HVal)
    (hclosed : ClosedBelow h0.length h0) (hd : ValidV h0.length d)
    (hctx : ValidV h0.length ctx) (hprops : ValidV h0.length props) :
    ((isNullish props = false → ∃ r1 h1, Chunk5923.H7285.f h0 d props = .ok (r1, h1)) ∧
      (isNullish props = false → ∃ r1 h1, Chunk8648.H27877.d h0 d props = .ok (r1, h1)) ∧
      (isNullish props = false → ∃ r1 h1, Chunk6262.H5796.d h0 d props = .ok (r1, h1))) ∧
    ((∀ r1 h1, Chunk5923.H7285.f h0 d props = .ok (r1, h1) →
        CopyOf h0 r1 h1 (Chunk5923.H7285.f h1 d props)) ∧
      (∀ r1 h1, Chunk8648.H27877.d h0 d props = .ok (r1, h1) →
        CopyOf h0 r1 h1 (Chunk8648.H27877.d h1 d props)) ∧
      (∀ r1 h1, Chunk6262.H5796.d h0 d props = .ok (r1, h1) →
        CopyOf h0 r1 h1 (Chunk6262.H5796.d h1 d props))) ∧
    (EnvFrame env → EnvReloc env →
      (∀ r1 h1, Chunk5923.renderPageH env h0 d ctx props = .ok (r1, h1) →
        CopyOf h0 r1 h1 (Chunk5923.renderPageH env h1 d ctx props)) ∧
      (∀ r1 h1, Chunk8648.renderPageH env h0 d ctx props = .ok (r1, h1) →
        CopyOf h0 r1 h1 (Chunk8648.renderPageH env h1 d ctx props)) ∧
      (∀ r1 h1, Chunk6262.renderPageH env h0 d ctx props = .ok (r1, h1) →
        CopyOf h0 r1 h1 (Chunk6262.renderPageH env h1 d ctx props))) := by
  have hg : Good h0.length h0 := ⟨Nat.le_refl _, hclosed⟩
  have sd : ∀ k, shiftV h0.length k d = d := fun k => shiftV_of_valid _ k d hd
  have sc : ∀ k, shiftV h0.length k ctx = ctx := fun k => shiftV_of_valid _ k ctx hctx
  have sp : ∀ k, shiftV h0.length k props = props := fun k => shiftV_of_valid _ k props hprops
  refine ⟨⟨?_, ?_, ?_⟩, ⟨?_, ?_, ?_⟩, fun henvF henvR => ⟨?_, ?_, ?_⟩⟩
  · intro hnull
    simp only [Chunk5923.H7285.f, Heap.get, hnull, bind, Except.bind, pure, Except.pure,
      Bool.false_eq_true, if_false, Except.ok.injEq]
    exact ⟨_, _, rfl⟩
  · intro hnull
    simp only [Chunk8648.H27877.d, Heap.get, hnull, bind, Except.bind, pure, Except.pure,
      Bool.false_eq_true, if_false, Except.ok.injEq]
    exact ⟨_, _, rfl⟩
  · intro hnull
    simp only [Chunk6262.H5796.d, Heap.get, hnull, bind, Except.bind, pure, Except.pure,
      Bool.false_eq_true, if_false, Except.ok.injEq]
    exact ⟨_, _, rfl⟩
  · intro r1 h1 hr
    refine copyOf_second_run (fun h => Chunk5923.H7285.f h d props) h0 r1 h1 hr
      (Chunk5923.frame_page_5923 _ h0 d props r1 h1 hg.1 hr) (fun ext => ?_)
    have h2 := Chunk5923.page_reloc_5923 h0.length ext h0 d props r1 h1 hg hr
    rwa [sd, sp] at h2
  · intro r1 h1 hr
    refine copyOf_second_run (fun h => Chunk8648.H27877.d h d props) h0 r1 h1 hr
      (Chunk8648.frame_page_8648 _ h0 d props r1 h1 hg.1 hr) (fun ext => ?_)
    have h2 := Chunk8648.page_reloc_8648 h0.length ext h0 d props r1 h1 hg hr
    rwa [sd, sp] at h2
  · intro r1 h1 hr
    refine copyOf_second_run (fun h => Chunk6262.H5796.d h d props) h0 r1 h1 hr
      (Chunk6262.frame_page_6262 _ h0 d props r1 h1 hg.1 hr) (fun ext => ?_)
    have h2 := Chunk6262.page_reloc_6262 h0.length ext h0 d props r1 h1 hg hr
    rwa [sd, sp] at h2
  · intro r1 h1 hr
    refine copyOf_second_run (fun h => Chunk5923.renderPageH env h d ctx props) h0 r1 h1 hr
      (Chunk5923.frame_renderPage_5923 _ env henvF h0 d ctx props r1 h1 hg.1 hr)
      (fun ext => ?_)
    have h2 := Chunk5923.renderPage_reloc_5923 h0.length ext env henvF henvR h0 d ctx props
      r1 h1 hg hr
    rwa [sd, sc, sp] at h2
  · intro r1 h1 hr
    refine copyOf_second_run (fun h => Chunk8648.renderPageH env h d ctx props) h0 r1 h1 hr
      (Chunk8648.frame_renderPage_8648 _ env henvF h0 d ctx props r1 h1 hg.1 hr)
      (fun ext => ?_)
    have h2 := Chunk8648.renderPage_reloc_8648 h0.length ext env henvF henvR h0 d ctx props
      r1 h1 hg hr
    rwa [sd, sc, sp] at h2
  · intro r1 h1 hr
    refine copyOf_second_run (fun h => Chunk6262.renderPageH env h d ctx props) h0 r1 h1 hr
      (Chunk6262.frame_renderPage_6262 _ env henvF h0 d ctx props r1 h1 hg.1 hr)
      (fun ext => ?_)
    have h2 := Chunk6262.renderPage_reloc_6262 h0.length ext env henvF henvR h0 d ctx props
      r1 h1 hg hr
    rwa [sd, sc, sp] at h2

open Heap in
/-- Witness of C6: the `ColorType` page on a store of four cells. -/
theorem rendering_is_idempotent_witness :
    ClosedBelow 4 Example.store ∧
    (∃ r1 h1, Chunk5923.H7285.f Example.store (.ref 0) (.ref 2) = .ok (r1, h1)) ∧
    (∀ r1 h1, Chunk5923.H7285.f Example.store (.ref 0) (.ref 2) = .ok (r1, h1) →
      CopyOf Example.store r1 h1 (Chunk5923.H7285.f h1 (.ref 0) (.ref 2))) :=
  ⟨closedBelow_store,
   (rendering_is_idempotent Example.envId Example.store (.ref 0) (.ref 3) (.ref 2)
     closedBelow_store (by show 0 < 4; decide) (by show 3 < 4; decide)
     (by show 2 < 4; decide)).1.1 rfl,
   (rendering_is_idempotent Example.envId Example.store (.ref 0) (.ref 3) (.ref 2)
     closedBelow_store (by show 0 < 4; decide) (by show 3 < 4; decide)
     (by show 2 < 4; decide)).2.1.1⟩

/-! ## The merge routine on a `components` that is not an object -/

open JS in
theorem merge_cases_5923 (env : FnEnv) (ctx e : Val) :
    (truthy e = false → Chunk5923.M3905.p env ctx e = .ok ctx) ∧
    (∀ i, e = .fn i → Chunk5923.M3905.p env ctx e = env i ctx) ∧
    (truthy e = true → typeof e ≠ "function" →
      Chunk5923.M3905.p env ctx e = .ok (.obj (Spec.overlay [] [ctx, e]))) := by
  refine ⟨fun hf => ?_, fun i hi => ?_, fun ht hf => ?_⟩
  · simp [Chunk5923.M3905.p, hf]
  · subst hi
    simp [Chunk5923.M3905.p, truthy, typeof, Chunk5923.M3905.callFn]
  · simp [Chunk5923.M3905.p, ht, hf, Chunk5923.M3905.l_eq_5923, Spec.overlay]

open JS in
theorem merge_cases_8648 (env : FnEnv) (ctx e : Val) :
    (truthy e = false → Chunk8648.M3905.c env ctx e = .ok ctx) ∧
    (∀ i, e = .fn i → Chunk8648.M3905.c env ctx e = env i ctx) ∧
    (truthy e = true → typeof e ≠ "function" →
      Chunk8648.M3905.c env ctx e = .ok (.obj (Spec.overlay [] [ctx, e]))) := by
  refine ⟨fun hf => ?_, fun i hi => ?_, fun ht hf => ?_⟩
  · simp [Chunk8648.M3905.c, hf]
  · subst hi
    simp [Chunk8648.M3905.c, truthy, typeof, Chunk8648.M3905.callFn]
  · simp [Chunk8648.M3905.c, ht, hf, Chunk8648.M3905.l_eq_8648, Spec.overlay]

open JS in
theorem merge_cases_6262 (env : FnEnv) (ctx e : Val) :
    (truthy e = false → Chunk6262.M3905.u env ctx e = .ok ctx) ∧
    (∀ i, e = .fn i → Chunk6262.M3905.u env ctx e = env i ctx) ∧
    (truthy e = true → typeof e ≠ "function" →
      Chunk6262.M3905.u env ctx e = .ok (.obj (Spec.overlay [] [ctx, e]))) := by
  refine ⟨fun hf => ?_, fun i hi => ?_, fun ht hf => ?_⟩
  · simp [Chunk6262.M3905.u, hf]
  · subst hi
    simp [Chunk6262.M3905.u, truthy, typeof, Chunk6262.M3905.callFn]
  · simp [Chunk6262.M3905.u, ht, hf, Chunk6262.M3905.l_eq_6262, Spec.overlay]

theorem merge_store_cases_5923 (env : Heap.HEnv) (h : Heap.Store) (ctx e : Heap.HVal) :
    (Heap.truthy e = false → Chunk5923.H3905.p env h ctx e = .ok (ctx, h)) ∧
    (∀ i, e = .fn i → Chunk5923.H3905.p env h ctx e = env i ctx h) := by
  refine ⟨fun hf => ?_, fun i hi => ?_⟩
  · simp [Chunk5923.H3905.p, hf]
  · subst hi
    simp [Chunk5923.H3905.p, Heap.truthy, Heap.typeof, Chunk5923.H3905.callFn]

theorem merge_store_cases_8648 (env : Heap.HEnv) (h : Heap.Store) (ctx e : Heap.HVal) :
    (Heap.truthy e = false → Chunk8648.H3905.c env h ctx e = .ok (ctx, h)) ∧
    (∀ i, e = .fn i → Chunk8648.H3905.c env h ctx e = env i ctx h) := by
  refine ⟨fun hf => ?_, fun i hi => ?_⟩
  · simp [Chunk8648.H3905.c, hf]
  · subst hi
    simp [Chunk8648.H3905.c, Heap.truthy, Heap.typeof, Chunk8648.H3905.callFn]

theorem merge_store_cases_6262 (env : Heap.HEnv) (h : Heap.Store) (ctx e : Heap.HVal) :
    (Heap.truthy e = false → Chunk6262.H3905.u env h ctx e = .ok (ctx, h)) ∧
    (∀ i, e = .fn i → Chunk6262.H3905.u env h ctx e = env i ctx h) := by
  refine ⟨fun hf => ?_, fun i hi => ?_⟩
  · simp [Chunk6262.H3905.u, hf]
  · subst hi
    simp [Chunk6262.H3905.u, Heap.truthy, Heap.typeof, Chunk6262.H3905.callFn]

open JS in
/-- C11: in each copy of module 3905, for every inherited context value `t`: when
`components` is absent or falsy the merge routine returns `t` itself (on the store: the same
reference, with the store untouched); when `components` is a function `g` it returns `g(t)`
exactly, with no merging; the key-by-key overlay of `components` over `t` is returned only when
`components` is truthy and not a function. -/
theorem merge_without_overlay (env : FnEnv) (t e : Val) (henv : Heap.HEnv) (h : Heap.Store)
    (ht he : Heap.HVal) :
    ((truthy e = false → Chunk5923.M3905.p env t e = .ok t) ∧
      (∀ i, e = .fn i → Chunk5923.M3905.p env t e = env i t) ∧
      (truthy e = true → typeof e ≠ "function" →
        Chunk5923.M3905.p env t e = .ok (.obj (Spec.overlay [] [t, e])))) ∧
    ((truthy e = false → Chunk8648.M3905.c env t e = .ok t) ∧
      (∀ i, e = .fn i → Chunk8648.M3905.c env t e = env i t) ∧
      (truthy e = true → typeof e ≠ "function" →
        Chunk8648.M3905.c env t e = .ok (.obj (Spec.overlay [] [t, e])))) ∧
    ((truthy e = false → Chunk6262.M3905.u env t e = .ok t) ∧
      (∀ i, e = .fn i → Chunk6262.M3905.u env t e = env i t) ∧
      (truthy e = true → typeof e ≠ "function" →
        Chunk6262.M3905.u env t e = .ok (.obj (Spec.overlay [] [t, e])))) ∧
    ((Heap.truthy he = false → Chunk5923.H3905.p henv h ht he = .ok (ht, h)) ∧
      (∀ i, he = .fn i → Chunk5923.H3905.p henv h ht he = henv i ht h)) ∧
    ((Heap.truthy he = false → Chunk8648.H3905.c henv h ht he = .ok (ht, h)) ∧
      (∀ i, he = .fn i → Chunk8648.H3905.c henv h ht he = henv i ht h)) ∧
    ((Heap.truthy he = false → Chunk6262.H3905.u henv h ht he = .ok (ht, h)) ∧
      (∀ i, he = .fn i → Chunk6262.H3905.u henv h ht he = henv i ht h)) :=
  ⟨merge_cases_5923 env t e, merge_cases_8648 env t e, merge_cases_6262 env t e,
   merge_store_cases_5923 henv h ht he, merge_store_cases_8648 henv h ht he,
   merge_store_cases_6262 henv h ht he⟩

open JS in
/-- Witness of C11: a `components` function that returns a collection of its own drops the
keys `h2` and `h3` of the inherited collection, and an absent `components` returns the
inherited collection as it is. -/
theorem merge_without_overlay_witness :
    Chunk5923.M3905.p Example.envCollection (.obj Example.ctxHeadings) (.fn 0)
      = .ok (.obj [("h1", .fn 7)]) ∧
    Chunk5923.M3905.p Example.envCollection (.obj Example.ctxHeadings) .undefined
      = .ok (.obj Example.ctxHeadings) ∧
    Chunk5923.H3905.p Example.envId Example.store (.ref 3) .undefined
      = .ok (.ref 3, Example.store) :=
  ⟨(merge_without_overlay Example.envCollection (.obj Example.ctxHeadings) (.fn 0)
      Example.envId Example.store (.ref 3) .undefined).1.2.1 0 rfl,
   (merge_without_overlay Example.envCollection (.obj Example.ctxHeadings) .undefined
      Example.envId Example.store (.ref 3) .undefined).1.1 rfl,
   (merge_without_overlay Example.envCollection (.obj Example.ctxHeadings) .undefined
      Example.envId Example.store (.ref 3) .undefined).2.2.2.1.1 rfl⟩

